import Mathlib

/-! PPSSPP HLE: display controller (`Core/HLE/sceDisplay.cpp`) and font library
(`Core/HLE/sceFont.cpp`)

A shallow embedding of the two HLE modules.  File-level statics become fields
of an explicit state record, calls into external collaborators (kernel thread
controller, CoreTiming, GPU backend, host) become entries of an append-only
effect log, and guest memory is a byte map with a validity predicate.

Machine integers: `int` values are kept as `Int` and every increment or
decrement is wrapped with `wrapS32`; `u32` values are `Nat` reduced modulo
`2^32` where the source computes them; `size_t` loop counters are `Nat`
reduced modulo `2^64`.  `float` values are binary32 values (`F32`): every
subtraction rounds to nearest, ties to even.  The `double` wall-clock times of
the frame pacer are exact rationals.
-/

/-! ## Machine integers -/

/-- Two's-complement wrap of an integer into the range of a 32-bit signed `int`. -/
def wrapS32 (x : Int) : Int := (x + 2147483648) % 4294967296 - 2147483648

/-- Conversion of an integer to `u32`. -/
def toU32 (x : Int) : Nat := (x % 4294967296).toNat

/-- Conversion of an integer to `u64`. -/
def toU64 (x : Int) : Nat := (x % 18446744073709551616).toNat

/-- Number of values of a `size_t`. -/
def sizeT : Nat := 18446744073709551616

/-- The `i++` of a `size_t`. -/
def sizeInc (i : Nat) : Nat := (i + 1) % sizeT

/-- The `i--` of a `size_t`. -/
def sizeDec (i : Nat) : Nat := (i + sizeT - 1) % sizeT

/-! ## Machine floats -/

/-- A value of the C type `float` (IEEE 754 binary32): NaN, an infinity, or a finite value,
kept as the rational number it denotes.  The two zeros are one value: the code at hand
applies only `==`, `!=`, `>`, `-`, `fabsf` and a division by `64.f` to floats, and none of
these tells them apart in what the code goes on to compute.  Each operation is evaluated in
binary32 itself (no wider intermediate format), as on SSE and ARM targets. -/
inductive F32 where
  | nan
  | inf (negative : Bool)
  | fin (value : Rat)
deriving DecidableEq, Repr

namespace F32

/-- The power `2 ^ k` for an integer exponent. -/
def pow2 (k : Int) : Rat := if 0 ≤ k then (2 ^ k.toNat : Nat) else 1 / (2 ^ (-k).toNat : Nat)

/-- The number of halvings that take `n` below 2, at most `fuel` of them. -/
def log2Fuel : Nat → Nat → Nat
  | 0, _ => 0
  | fuel + 1, n => if n < 2 then 0 else log2Fuel fuel (n / 2) + 1

/-- The position of the leading bit of `n`: `2 ^ log2 n ≤ n < 2 ^ (log2 n + 1)` for `n > 0`. -/
def log2 (n : Nat) : Nat := log2Fuel n n

/-- The exponent `e` with `2 ^ e ≤ a < 2 ^ (e + 1)`, for `a > 0`. -/
def ilog2 (a : Rat) : Int :=
  let k : Int := (log2 a.num.natAbs : Int) - (log2 a.den : Int)
  if pow2 k ≤ a then k else k - 1

/-- Rounding of a rational to the nearest integer, ties to the even one. -/
def roundHalfEven (n : Rat) : Int :=
  let f := n.floor
  let d := n - f
  if d < 1 / 2 then f
  else if 1 / 2 < d then f + 1
  else if f % 2 = 0 then f else f + 1

/-- The binary32 value nearest to the real number `q` (round to nearest, ties to even): 24
significant bits, exponents from -126 (below that the spacing stays `2 ^ -149`) to 127, and
an infinity when the rounded magnitude reaches `2 ^ 128`. -/
def round (q : Rat) : F32 :=
  if q = 0 then fin 0
  else
    let a := |q|
    let e := max (ilog2 a) (-126)
    let quantum := pow2 (e - 23)
    let v := (roundHalfEven (a / quantum) : Rat) * quantum
    if pow2 128 ≤ v then inf (decide (q < 0))
    else fin (if q < 0 then -v else v)

/-- The operator `-` on two floats. -/
def sub : F32 → F32 → F32
  | nan, _ => nan
  | _, nan => nan
  | inf a, inf b => if a = b then nan else inf a
  | inf a, fin _ => inf a
  | fin _, inf b => inf (!b)
  | fin x, fin y => round (x - y)

/-- The function `fabsf`. -/
def abs : F32 → F32
  | nan => nan
  | inf _ => inf false
  | fin x => fin |x|

/-- The operator `>` on two floats: false as soon as one of them is NaN. -/
def gt : F32 → F32 → Bool
  | nan, _ => false
  | _, nan => false
  | inf a, inf b => !a && b
  | inf a, fin _ => !a
  | fin _, inf b => b
  | fin x, fin y => decide (y < x)

/-- The test `x == 0`. -/
def isZero : F32 → Bool
  | fin x => decide (x = 0)
  | _ => false

/-- The conversion of an `int` to `float`. -/
def ofInt (n : Int) : F32 := round n

/-- The operator `/` with the divisor `64.f`. -/
def div64 : F32 → F32
  | nan => nan
  | inf a => inf a
  | fin x => round (x / 64)

end F32

/-! ## Guest memory -/

/-- Modelled from the spec: guest memory access (`Memory::IsValidAddress`,
`Memory::Read_U32`, `Memory::Write_U32` live in `Core/MemMap.h`, which is not part of
the sources at hand).  Section 6 describes it as bounds-checked reads and writes of
32-bit scalars at guest addresses together with an `IsValidAddress` predicate.  Memory
is a little-endian byte map; an access at an invalid address reads 0 and writes
nothing. -/
structure Memory where
  valid : Nat → Bool
  bytes : Nat → Nat

namespace Memory

def IsValidAddress (m : Memory) (address : Nat) : Bool := m.valid address

def Read_U32 (m : Memory) (address : Nat) : Nat :=
  if m.valid address then
    m.bytes address + 256 * m.bytes (address + 1) + 65536 * m.bytes (address + 2)
      + 16777216 * m.bytes (address + 3)
  else 0

def Write_U32 (m : Memory) (data address : Nat) : Memory :=
  if m.valid address then
    { m with bytes := fun x =>
        if x = address then data % 256
        else if x = address + 1 then data / 256 % 256
        else if x = address + 2 then data / 65536 % 256
        else if x = address + 3 then data / 16777216 % 256
        else m.bytes x }
  else m

/-- Guest memory with every address in the PSP user RAM window valid and all bytes zero. -/
def blank : Memory :=
  { valid := fun a => decide (0x08000000 ≤ a ∧ a < 0x0A000000), bytes := fun _ => 0 }

/-- Modelled from the spec: `Memory::Read_U16` lives in `Core/MemMap.h`, which is not part of
the sources at hand; section 6 lists bounds-checked reads of 16-bit scalars at guest
addresses.  Little-endian, 0 at an invalid address. -/
def Read_U16 (m : Memory) (address : Nat) : Nat :=
  if m.valid address then m.bytes address + 256 * m.bytes (address + 1) else 0

end Memory

/-! ## sceDisplay -/

namespace SceDisplay

structure FrameBufferState where
  topaddr : Nat
  pspFramebufFormat : Int
  pspFramebufLinesize : Int
deriving DecidableEq, Repr

structure WaitVBlankInfo where
  threadID : Nat
  vcountUnblock : Int
deriving DecidableEq, Repr

/-- Values of the global `coreState` that the display code reads or writes. -/
inductive CoreState where
  | CORE_RUNNING
  | CORE_NEXTFRAME
  | CORE_OTHER
deriving DecidableEq, Repr

/-- Calls the display code makes into its collaborators, in the order made. -/
inductive Effect where
  /-- Call `__KernelResumeThreadFromWait(threadID, retval)` -/
  | resumeThreadFromWait (threadID : Nat) (retval : Int)
  /-- Call `__KernelWaitCurThread(WAITTYPE_VBLANK, 0, 0, 0, processCallbacks, reason)`, issued by
  the thread `__KernelGetCurThread()` -/
  | waitCurThread (threadID : Nat) (processCallbacks : Bool)
  /-- Call `__DisplayFireVblank()` -/
  | fireVblank
  /-- Call `__TriggerInterrupt(IMMEDIATE | ONLY_IF_ENABLED | ALWAYS_RESCHED, PSP_VBLANK_INTR, SUB_ALL)` -/
  | triggerVblankInterrupt
  /-- Call `CoreTiming::ScheduleEvent(cyclesIntoFuture, event, userdata)` -/
  | scheduleEvent (cyclesIntoFuture : Int) (event : Int) (userdata : Nat)
  /-- Call `CoreTiming::RegisterEvent(name, handler)` or `RestoreRegisterEvent(event, name, handler)` -/
  | registerEvent (event : Int) (name : String) (handler : String)
  /-- Call `gpu->SetDisplayFramebuffer(topaddr, linesize, format)` -/
  | setDisplayFramebuffer (topaddr : Nat) (linesize : Int) (format : Int)
  /-- Call `gpu->InitClear()` -/
  | initClear
  /-- Call `gpu->CopyDisplayToOutput()` -/
  | copyDisplayToOutput
  /-- Call `host->BeginFrame()` -/
  | hostBeginFrame
  /-- Call `gpu->BeginFrame()` -/
  | gpuBeginFrame
  /-- Call `CoreTiming::Idle(cycles)` -/
  | idle (cycles : Int)
deriving DecidableEq, Repr

/-- Everything `sceDisplay.cpp` reads or writes: its statics (`STATE BEGIN` .. `STATE END`),
the external globals it touches, guest memory, and the log of outgoing calls. -/
structure World where
  framebuf : FrameBufferState
  latchedFramebuf : FrameBufferState
  framebufIsLatched : Bool
  enterVblankEvent : Int
  leaveVblankEvent : Int
  afterFlipEvent : Int
  hCount : Int
  hCountTotal : Int
  vCount : Int
  isVblank : Int
  numSkippedFrames : Int
  hasSetMode : Bool
  curFrameTime : Rat
  nextFrameTime : Rat
  vblankWaitingThreads : List WaitVBlankInfo
  /-- The counter `gpuStats.numFrames` -/
  numFrames : Int
  /-- Bit `SKIPDRAW_SKIPFRAME` of `gstate_c.skipDrawReason` -/
  skipDrawFrame : Bool
  coreState : CoreState
  /-- The value of `msToCycles(vblankMs)` -/
  vblankCycles : Int
  /-- The value of `msToCycles(frameMs - vblankMs)` -/
  frameCycles : Int
  mem : Memory
  effects : List Effect

def World.emit (w : World) (e : Effect) : World := { w with effects := w.effects ++ [e] }

def PSP_DISPLAY_SETBUF_IMMEDIATE : Int := 0
def PSP_DISPLAY_SETBUF_NEXTFRAME : Int := 1

/-- What `DoFrameTiming` reads from outside the display state. -/
structure FrameEnv where
  /-- The value `!GetAsyncKeyState(VK_TAB)` on Win32, `false` on every other platform -/
  platformThrottle : Bool
  /-- The flag `PSP_CoreParameter().headLess` -/
  headLess : Bool
  /-- The setting `g_Config.iFrameSkip` -/
  iFrameSkip : Int
  /-- Wall clock as read by the first `time_update()` -/
  now : Rat
  /-- Wall clock as read by the successive `time_update()` calls of the wait loop -/
  spins : List Rat

/-- The loop `while (time_now_d() < nextFrameTime) { SleepCurrentThread(1); time_update(); }`:
`cur` is the current value of `time_now_d()`, each iteration takes the next reading.
Returns the value of `time_now_d()` on exit; when the supplied readings run out the last
one is returned. -/
def waitLoop (nextFrameTime : Rat) : Rat → List Rat → Rat
  | cur, [] => cur
  | cur, r :: rs => if cur < nextFrameTime then waitLoop nextFrameTime r rs else cur

structure FrameTiming where
  throttle : Bool
  skipFrame : Bool
  skipFlip : Bool
deriving DecidableEq, Repr

def DoFrameTiming (w : World) (env : FrameEnv) : FrameTiming × World :=
  let throttle := if env.headLess then false else env.platformThrottle
  let doFrameSkip : Bool := env.iFrameSkip == 1
  if !throttle && !doFrameSkip then
    (⟨throttle, false, false⟩, w)
  else
    let curFrameTime := env.now
    let nextFrameTime := if w.nextFrameTime = 0 then env.now + 1 / 60 else w.nextFrameTime
    let skip : Bool := decide (curFrameTime > nextFrameTime) && doFrameSkip
    -- (nextFrameTime, time_now_d(), curFrameTime) after the throttle block
    let t : Rat × Rat × Rat :=
      if decide (curFrameTime < nextFrameTime) && throttle then
        if nextFrameTime - curFrameTime > 1 / 30 then
          (curFrameTime + 1 / 60, env.now, env.now)
        else
          let clock := waitLoop nextFrameTime env.now env.spins
          (nextFrameTime, clock, clock)
      else (nextFrameTime, env.now, curFrameTime)
    let maxFallBehindFrames : Rat := 11 / 2
    let nextFrameTime2 :=
      if throttle || doFrameSkip then max (t.1 + 1 / 60) (t.2.1 - maxFallBehindFrames / 60)
      else t.1 + 1 / 60
    let skip2 : Bool := if w.numSkippedFrames ≥ 4 then false else skip
    (⟨throttle, skip2, skip2⟩,
      { w with curFrameTime := t.2.2, nextFrameTime := nextFrameTime2 })

/-- The wake-up loop of `hleEnterVblank`:
`for (size_t i = 0; i < v.size(); i++) if (--v[i].vcountUnblock == 0) { resume; v.erase(begin + i--); }`
run from counter `i`.  `fuel` bounds the number of iterations; `hleEnterVblank` supplies
`v.size()`, one per element. -/
def wakeLoop : Nat → Nat → List WaitVBlankInfo → List Effect → List WaitVBlankInfo × List Effect
  | 0, _, v, out => (v, out)
  | fuel + 1, i, v, out =>
    match v[i]? with
    | none => (v, out)
    | some x =>
      let c := wrapS32 (x.vcountUnblock - 1)
      let v1 := v.set i { x with vcountUnblock := c }
      if c = 0 then
        wakeLoop fuel (sizeInc (sizeDec i)) (v1.eraseIdx i)
          (out ++ [Effect.resumeThreadFromWait x.threadID 0])
      else
        wakeLoop fuel (sizeInc i) v1 out

/-- The block "Wake up threads waiting for VBlank" of `hleEnterVblank`. -/
def wakeWaitingThreads (w : World) : World :=
  let r := wakeLoop w.vblankWaitingThreads.length 0 w.vblankWaitingThreads w.effects
  { w with vblankWaitingThreads := r.1, effects := r.2 }

/-- The block `if (framebufIsLatched) { ... }` of `hleEnterVblank`. -/
def commitLatchedFramebuf (w : World) : World :=
  if w.framebufIsLatched then
    let w := { w with framebuf := w.latchedFramebuf }
    let w := { w with framebufIsLatched := false }
    w.emit (Effect.setDisplayFramebuffer w.framebuf.topaddr w.framebuf.pspFramebufLinesize
      w.framebuf.pspFramebufFormat)
  else w

/-- The block `if (skipFrame) { ... } else { ... }` of `hleEnterVblank`. -/
def countSkippedFrame (w : World) (skipFrame : Bool) : World :=
  if skipFrame then
    let w := { w with skipDrawFrame := true }
    { w with numSkippedFrames := wrapS32 (w.numSkippedFrames + 1) }
  else { w with numSkippedFrames := 0 }

/-- The block `if (!skipFlip) { ... }` of `hleEnterVblank`. -/
def flipFrame (w : World) (cyclesLate : Int) (skipFlip : Bool) : World :=
  if !skipFlip then
    let w := if w.coreState = CoreState.CORE_RUNNING then
      { w with coreState := CoreState.CORE_NEXTFRAME } else w
    let w := w.emit (Effect.scheduleEvent (0 - cyclesLate) w.afterFlipEvent 0)
    w.emit Effect.copyDisplayToOutput
  else w

/-- The statements of `hleEnterVblank` in source order; the debug-statistics and FPS
overlays (drawing only) are left out. -/
def hleEnterVblank (w : World) (userdata : Nat) (cyclesLate : Int) (env : FrameEnv) : World :=
  let vbCount : Int := wrapS32 userdata
  let w := { w with isVblank := 1 }
  let w := w.emit Effect.fireVblank
  let w := wakeWaitingThreads w
  let w := w.emit Effect.triggerVblankInterrupt
  let w := w.emit
    (Effect.scheduleEvent (w.vblankCycles - cyclesLate) w.leaveVblankEvent (toU64 (wrapS32 (vbCount + 1))))
  let w := commitLatchedFramebuf w
  let w := { w with numFrames := wrapS32 (w.numFrames + 1) }
  let w := { w with skipDrawFrame := false }
  let ft := DoFrameTiming w env
  let w := countSkippedFrame ft.2 ft.1.skipFrame
  flipFrame w cyclesLate ft.1.skipFlip

def hleAfterFlip (w : World) (_userdata : Nat) (_cyclesLate : Int) : World :=
  (w.emit Effect.hostBeginFrame).emit Effect.gpuBeginFrame

def hleLeaveVblank (w : World) (userdata : Nat) (cyclesLate : Int) : World :=
  let w := { w with isVblank := 0 }
  let w := { w with vCount := wrapS32 (w.vCount + 1) }
  let w := { w with hCount := 0 }
  w.emit (Effect.scheduleEvent (w.frameCycles - cyclesLate) w.enterVblankEvent userdata)

def sceDisplayIsVblank (w : World) : Int × World := (w.isVblank, w)

def sceDisplaySetMode (w : World) (_unknown _xres _yres : Nat) : Nat × World :=
  let w := w.emit Effect.hostBeginFrame
  let w := if !w.hasSetMode then { w.emit Effect.initClear with hasSetMode := true } else w
  (0, w)

def sceDisplaySetFramebuf (w : World) (topaddr : Nat) (linesize pixelformat sync : Int) :
    Nat × World :=
  -- `fbstate` is only assigned, and only read, when `topaddr != 0`
  let fbstate : FrameBufferState := ⟨topaddr, pixelformat, linesize⟩
  if sync = PSP_DISPLAY_SETBUF_IMMEDIATE then
    if topaddr ≠ 0 then
      let w := { w with framebuf := fbstate }
      (0, w.emit (Effect.setDisplayFramebuffer w.framebuf.topaddr w.framebuf.pspFramebufLinesize
        w.framebuf.pspFramebufFormat))
    else (0, w)
  else if topaddr ≠ 0 then
    (0, { w with latchedFramebuf := fbstate, framebufIsLatched := true })
  else (0, w)

def sceDisplayGetFramebuf (w : World) (topaddrPtr linesizePtr pixelFormatPtr : Nat) (mode : Int) :
    Nat × World :=
  let fbState := if mode = 1 then w.latchedFramebuf else w.framebuf
  let m := w.mem
  let m := if m.IsValidAddress topaddrPtr then m.Write_U32 fbState.topaddr topaddrPtr else m
  let m := if m.IsValidAddress linesizePtr then
    m.Write_U32 (toU32 fbState.pspFramebufLinesize) linesizePtr else m
  let m := if m.IsValidAddress pixelFormatPtr then
    m.Write_U32 (toU32 fbState.pspFramebufFormat) pixelFormatPtr else m
  (0, { w with mem := m })

/-- The two statements shared by every wait call: `vblankWaitingThreads.push_back(info)` and
`__KernelWaitCurThread(WAITTYPE_VBLANK, 0, 0, 0, processCallbacks, ...)`. -/
def pushAndWait (w : World) (info : WaitVBlankInfo) (cur : Nat) (processCallbacks : Bool) : World :=
  let w := { w with vblankWaitingThreads := w.vblankWaitingThreads ++ [info] }
  w.emit (Effect.waitCurThread cur processCallbacks)

/-- In all wait calls `cur` is the value of `__KernelGetCurThread()`. -/
def sceDisplayWaitVblankStart (w : World) (cur : Nat) : Nat × World :=
  (0, pushAndWait w ⟨cur, 1⟩ cur false)

def sceDisplayWaitVblank (w : World) (cur : Nat) : Nat × World :=
  if w.isVblank = 0 then (0, pushAndWait w ⟨cur, 1⟩ cur false)
  else (1, w)

def sceDisplayWaitVblankStartMulti (w : World) (cur : Nat) (vblanks : Int) : Nat × World :=
  (0, pushAndWait w ⟨cur, vblanks⟩ cur false)

def sceDisplayWaitVblankCB (w : World) (cur : Nat) : Nat × World :=
  if w.isVblank = 0 then (0, pushAndWait w ⟨cur, 1⟩ cur true)
  else (1, w)

def sceDisplayWaitVblankStartCB (w : World) (cur : Nat) : Nat × World :=
  (0, pushAndWait w ⟨cur, 1⟩ cur true)

def sceDisplayWaitVblankStartMultiCB (w : World) (cur : Nat) (vblanks : Int) : Nat × World :=
  (0, pushAndWait w ⟨cur, vblanks⟩ cur true)

def sceDisplayGetVcount (w : World) : Nat × World :=
  (toU32 w.vCount, w.emit (Effect.idle 1000000))

/-- The body is `RETURN(hCount++)`. -/
def sceDisplayGetCurrentHcount (w : World) : Int × World :=
  (w.hCount, { w with hCount := wrapS32 (w.hCount + 1) })

/-- Reads only CoreTiming; `accumHCount` is the value it computes. -/
def sceDisplayGetAccumulatedHcount (w : World) (accumHCount : Nat) : Nat × World :=
  (accumHCount, w)

def sceDisplayGetFramePerSec (w : World) : Rat × World := (599400599 / 10000000, w)

/-- The state of the statics before `__DisplayInit` has run: zero-initialised static
storage, an empty waiter vector, the event ids at their initialiser `-1`. -/
def World.static (mem : Memory) (vblankCycles frameCycles : Int) : World :=
  { framebuf := ⟨0, 0, 0⟩, latchedFramebuf := ⟨0, 0, 0⟩, framebufIsLatched := false,
    enterVblankEvent := -1, leaveVblankEvent := -1, afterFlipEvent := -1,
    hCount := 0, hCountTotal := 0, vCount := 0, isVblank := 0, numSkippedFrames := 0,
    hasSetMode := false, curFrameTime := 0, nextFrameTime := 0, vblankWaitingThreads := [],
    numFrames := 0, skipDrawFrame := false, coreState := CoreState.CORE_RUNNING,
    vblankCycles := vblankCycles, frameCycles := frameCycles, mem := mem, effects := [] }

/-- Modelled from the spec: the enumeration `PspDisplayPixelFormat` is declared in a header
that is not part of the sources at hand; section 3 gives it four fixed formats, of which
8888 is the last. -/
def PSP_DISPLAY_PIXEL_FORMAT_8888 : Int := 3

/-- The three arguments are the ids handed out by `CoreTiming::RegisterEvent`. -/
def __DisplayInit (w : World) (enterId leaveId flipId : Int) : World :=
  let w := { w with numFrames := 0 }
  let w := { w with hasSetMode := false, numSkippedFrames := 0, framebufIsLatched := false }
  let w := { w with framebuf := ⟨0x04000000, PSP_DISPLAY_PIXEL_FORMAT_8888, 480⟩ }
  let w := { w.emit (Effect.registerEvent enterId "EnterVBlank" "hleEnterVblank") with
    enterVblankEvent := enterId }
  let w := { w.emit (Effect.registerEvent leaveId "LeaveVBlank" "hleLeaveVblank") with
    leaveVblankEvent := leaveId }
  let w := { w.emit (Effect.registerEvent flipId "AfterFlip" "hleAfterFlip") with
    afterFlipEvent := flipId }
  let w := w.emit (Effect.scheduleEvent w.frameCycles w.enterVblankEvent 0)
  { w with isVblank := 0, vCount := 0, hCount := 0, hCountTotal := 0, curFrameTime := 0,
           nextFrameTime := 0 }

/-- One event of the display controller: a clock event delivered by CoreTiming or a guest
syscall of the `sceDisplay` module.  Wait calls carry the id of the calling thread. -/
inductive Op where
  | enterVblank (userdata : Nat) (cyclesLate : Int) (env : FrameEnv)
  | leaveVblank (userdata : Nat) (cyclesLate : Int)
  | afterFlip (userdata : Nat) (cyclesLate : Int)
  | isVblank
  | setMode (unknown xres yres : Nat)
  | setFramebuf (topaddr : Nat) (linesize pixelformat sync : Int)
  | getFramebuf (topaddrPtr linesizePtr pixelFormatPtr : Nat) (mode : Int)
  | waitVblankStart (cur : Nat)
  | waitVblank (cur : Nat)
  | waitVblankStartMulti (cur : Nat) (vblanks : Int)
  | waitVblankCB (cur : Nat)
  | waitVblankStartCB (cur : Nat)
  | waitVblankStartMultiCB (cur : Nat) (vblanks : Int)
  | getVcount
  | getCurrentHcount
  | getAccumulatedHcount (accumHCount : Nat)
  | getFramePerSec

def step (w : World) : Op → World
  | Op.enterVblank userdata cyclesLate env => hleEnterVblank w userdata cyclesLate env
  | Op.leaveVblank userdata cyclesLate => hleLeaveVblank w userdata cyclesLate
  | Op.afterFlip userdata cyclesLate => hleAfterFlip w userdata cyclesLate
  | Op.isVblank => (sceDisplayIsVblank w).2
  | Op.setMode unknown xres yres => (sceDisplaySetMode w unknown xres yres).2
  | Op.setFramebuf topaddr linesize pixelformat sync =>
      (sceDisplaySetFramebuf w topaddr linesize pixelformat sync).2
  | Op.getFramebuf topaddrPtr linesizePtr pixelFormatPtr mode =>
      (sceDisplayGetFramebuf w topaddrPtr linesizePtr pixelFormatPtr mode).2
  | Op.waitVblankStart cur => (sceDisplayWaitVblankStart w cur).2
  | Op.waitVblank cur => (sceDisplayWaitVblank w cur).2
  | Op.waitVblankStartMulti cur vblanks => (sceDisplayWaitVblankStartMulti w cur vblanks).2
  | Op.waitVblankCB cur => (sceDisplayWaitVblankCB w cur).2
  | Op.waitVblankStartCB cur => (sceDisplayWaitVblankStartCB w cur).2
  | Op.waitVblankStartMultiCB cur vblanks => (sceDisplayWaitVblankStartMultiCB w cur vblanks).2
  | Op.getVcount => (sceDisplayGetVcount w).2
  | Op.getCurrentHcount => (sceDisplayGetCurrentHcount w).2
  | Op.getAccumulatedHcount accumHCount => (sceDisplayGetAccumulatedHcount w accumHCount).2
  | Op.getFramePerSec => (sceDisplayGetFramePerSec w).2

/-- The state after a sequence of events, oldest first. -/
def run (w : World) : List Op → World
  | [] => w
  | op :: ops => run (step w op) ops

def Op.isEnterVblank : Op → Bool
  | Op.enterVblank _ _ _ => true
  | _ => false

def Op.isLeaveVblank : Op → Bool
  | Op.leaveVblank _ _ => true
  | _ => false

/-- The thread issuing the call, for the six wait calls. -/
def Op.waitCaller : Op → Option Nat
  | Op.waitVblankStart cur => some cur
  | Op.waitVblank cur => some cur
  | Op.waitVblankStartMulti cur _ => some cur
  | Op.waitVblankCB cur => some cur
  | Op.waitVblankStartCB cur => some cur
  | Op.waitVblankStartMultiCB cur _ => some cur
  | _ => none

/-- Number of `hleEnterVblank` events in a sequence. -/
def countEnter (ops : List Op) : Nat := ops.countP Op.isEnterVblank

/-- Number of `hleLeaveVblank` events in a sequence. -/
def countLeave (ops : List Op) : Nat := ops.countP Op.isLeaveVblank

/-- No event follows the last `hleEnterVblank` of the sequence (true of the empty sequence). -/
def endsAtVblank (ops : List Op) : Bool :=
  match ops.getLast? with
  | some op => op.isEnterVblank
  | none => true

/-- A `sceDisplaySetFramebuf` call. -/
def Op.isSetFramebuf : Op → Bool
  | Op.setFramebuf _ _ _ _ => true
  | _ => false

/-- A `sceDisplaySetFramebuf` call with `sync == PSP_DISPLAY_SETBUF_IMMEDIATE`. -/
def Op.isImmediateSetFramebuf : Op → Bool
  | Op.setFramebuf _ _ _ sync => sync == PSP_DISPLAY_SETBUF_IMMEDIATE
  | _ => false

/-- The calls logged between state `before` and the later state `after`. -/
def newEffects (before after : World) : List Effect :=
  after.effects.drop before.effects.length

def Effect.isSetDisplayFramebuffer : Effect → Bool
  | Effect.setDisplayFramebuffer _ _ _ => true
  | _ => false

def Effect.isResumeOf (tid : Nat) : Effect → Bool
  | Effect.resumeThreadFromWait t _ => t == tid
  | _ => false

/-- How many times the log resumes thread `tid`. -/
def resumeCount (tid : Nat) (log : List Effect) : Nat := log.countP (Effect.isResumeOf tid)

/-- The waiters that belong to thread `tid`. -/
def waitersOf (tid : Nat) (v : List WaitVBlankInfo) : List WaitVBlankInfo :=
  v.filter (fun x => x.threadID == tid)

/-- A freshly initialised display (events registered as 0, 1, 2). -/
def bootWorld : World := __DisplayInit (World.static Memory.blank 162 3537) 0 1 2

/-- An environment in which `DoFrameTiming` has nothing to do. -/
def idleEnv : FrameEnv :=
  { platformThrottle := false, headLess := false, iFrameSkip := 0, now := 0, spins := [] }

/-- Functional reading of the wake-up loop: every waiter is decremented once, in order; the
ones reaching zero are resumed and dropped. -/
def wakeAll : List WaitVBlankInfo → List WaitVBlankInfo × List Effect
  | [] => ([], [])
  | x :: xs =>
    let r := wakeAll xs
    if wrapS32 (x.vcountUnblock - 1) = 0 then
      (r.1, Effect.resumeThreadFromWait x.threadID 0 :: r.2)
    else
      ({ x with vcountUnblock := wrapS32 (x.vcountUnblock - 1) } :: r.1, r.2)

/-- The state in which `hleEnterVblank` calls `DoFrameTiming`: everything up to and including
`gstate_c.skipDrawReason &= ~SKIPDRAW_SKIPFRAME` has run. -/
def beforeFrameTiming (w : World) (userdata : Nat) (cyclesLate : Int) : World :=
  let vbCount : Int := wrapS32 userdata
  let w := { w with isVblank := 1 }
  let w := w.emit Effect.fireVblank
  let w := wakeWaitingThreads w
  let w := w.emit Effect.triggerVblankInterrupt
  let w := w.emit
    (Effect.scheduleEvent (w.vblankCycles - cyclesLate) w.leaveVblankEvent (toU64 (wrapS32 (vbCount + 1))))
  let w := commitLatchedFramebuf w
  let w := { w with numFrames := wrapS32 (w.numFrames + 1) }
  { w with skipDrawFrame := false }

/-- What the `DoFrameTiming` call of an `hleEnterVblank` event in state `w` answers. -/
def frameTimingAt (w : World) (userdata : Nat) (cyclesLate : Int) (env : FrameEnv) : FrameTiming :=
  (DoFrameTiming (beforeFrameTiming w userdata cyclesLate) env).1

/-- The answers of `DoFrameTiming` in the `hleEnterVblank` events of a sequence, in order. -/
def timingLog (w : World) : List Op → List FrameTiming
  | [] => []
  | Op.enterVblank userdata cyclesLate env :: ops =>
      frameTimingAt w userdata cyclesLate env ::
        timingLog (hleEnterVblank w userdata cyclesLate env) ops
  | op :: ops => timingLog (step w op) ops

/-- No frame of the log is skipped right after four skipped ones, `n` frames having been
skipped in a row before the log starts. -/
def skipCapped : Nat → List FrameTiming → Prop
  | _, [] => True
  | n, e :: rest =>
    (4 ≤ n → e.skipFrame = false ∧ e.skipFlip = false) ∧
    skipCapped (if e.skipFrame then n + 1 else 0) rest

/-- An environment with frame skipping on and the wall clock reading `now`. -/
def skipEnv (now : Rat) : FrameEnv :=
  { platformThrottle := false, headLess := false, iFrameSkip := 1, now := now, spins := [] }

/-- Six vblanks on a fresh display with frame skipping on: the first on time, the others with
the wall clock far ahead of the frame schedule; leave events in between. -/
def lateFrames : List Op :=
  [Op.enterVblank 0 0 (skipEnv 1), Op.leaveVblank 1 0,
   Op.enterVblank 1 0 (skipEnv 10), Op.leaveVblank 2 0,
   Op.enterVblank 2 0 (skipEnv 11), Op.leaveVblank 3 0,
   Op.enterVblank 3 0 (skipEnv 12), Op.leaveVblank 4 0,
   Op.enterVblank 4 0 (skipEnv 13), Op.leaveVblank 5 0,
   Op.enterVblank 5 0 (skipEnv 14)]

/-- An environment with throttling on, frame skipping off, and the wall clock standing at
`now` for the whole call. -/
def throttleEnv (now : Rat) : FrameEnv :=
  { platformThrottle := true, headLess := false, iFrameSkip := 0, now := now, spins := [] }

/-- A fresh display whose frame schedule stands at `nextFrameTime = 1`. -/
def scheduledWorld : World := { bootWorld with nextFrameTime := 1 }

def Effect.isResume : Effect → Bool
  | Effect.resumeThreadFromWait _ _ => true
  | _ => false

/-- A fresh display on which five threads wait, with counts 1, 2, 1, 1 and 0. -/
def queuedWorld : World :=
  run bootWorld [Op.waitVblankStart 1, Op.waitVblankStartMulti 2 2, Op.waitVblankStart 3,
    Op.waitVblankStartCB 4, Op.waitVblankStartMulti 5 0]

/-- The modes of a `PointerWrap`. -/
inductive Mode where
  | MODE_READ
  | MODE_WRITE
  | MODE_MEASURE
  | MODE_VERIFY
deriving DecidableEq, Repr

/-- One value in a snapshot: the bytes that a `p.Do(x)` copies for an `x` of the given type.
`external` stands for the bytes of a subsystem outside the display module. -/
inductive Item where
  | frameBuffer (fb : FrameBufferState)
  | bool (b : Bool)
  | int (i : Int)
  | u32 (n : Nat)
  | external (name : String)
deriving DecidableEq, Repr

/-- Modelled from the spec: the class `PointerWrap` is declared in `ChunkFile.h`, which is not
part of the sources at hand.  Section 6 asks of the snapshot/restore contract that every piece
of state serialises deterministically.  A `PointerWrap` is a mode and a sequence of values:
in write mode `Do` appends the value of its argument, in read mode it takes the next value
and stores it in its argument (failing when there is none of that type), in measure mode it
does nothing, in verify mode it passes over the next value. -/
structure PointerWrap where
  mode : Mode
  data : List Item
deriving DecidableEq, Repr

/-- The call `p.Do(x)` for a value `x` encoded as `enc x` and decoded by `dec`: the new value
of `x` and the advanced `PointerWrap`. -/
def PointerWrap.Do {α : Type} (p : PointerWrap) (enc : α → Item) (dec : Item → Option α) (x : α) :
    Option (α × PointerWrap) :=
  match p.mode with
  | Mode.MODE_WRITE => some (x, { p with data := p.data ++ [enc x] })
  | Mode.MODE_READ =>
    match p.data with
    | it :: rest => (dec it).map (fun v => (v, { p with data := rest }))
    | [] => none
  | Mode.MODE_MEASURE => some (x, p)
  | Mode.MODE_VERIFY =>
    match p.data with
    | _ :: rest => some (x, { p with data := rest })
    | [] => none

def Item.toFrameBuffer : Item → Option FrameBufferState
  | Item.frameBuffer fb => some fb
  | _ => none

def Item.toBool : Item → Option Bool
  | Item.bool b => some b
  | _ => none

def Item.toInt : Item → Option Int
  | Item.int i => some i
  | _ => none

def Item.toU32 : Item → Option Nat
  | Item.u32 n => some n
  | _ => none

def Item.toExternal : Item → Option String
  | Item.external name => some name
  | _ => none

def PointerWrap.DoFrameBuffer (p : PointerWrap) (x : FrameBufferState) :
    Option (FrameBufferState × PointerWrap) := p.Do Item.frameBuffer Item.toFrameBuffer x

def PointerWrap.DoBool (p : PointerWrap) (x : Bool) : Option (Bool × PointerWrap) :=
  p.Do Item.bool Item.toBool x

def PointerWrap.DoInt (p : PointerWrap) (x : Int) : Option (Int × PointerWrap) :=
  p.Do Item.int Item.toInt x

def PointerWrap.DoU32 (p : PointerWrap) (x : Nat) : Option (Nat × PointerWrap) :=
  p.Do Item.u32 Item.toU32 x

def PointerWrap.DoExternal (p : PointerWrap) (name : String) : Option (String × PointerWrap) :=
  p.Do Item.external Item.toExternal name

/-- `WaitVBlankInfo::DoState`. -/
def WaitVBlankInfo.DoState (x : WaitVBlankInfo) (p : PointerWrap) :
    Option (WaitVBlankInfo × PointerWrap) :=
  match p.DoU32 x.threadID with
  | none => none
  | some r1 =>
    match r1.2.DoInt x.vcountUnblock with
    | none => none
    | some r2 => some (⟨r1.1, r2.1⟩, r2.2)

/-- The element loop of `PointerWrap::DoArray` for a vector of `WaitVBlankInfo`. -/
def PointerWrap.DoArray (p : PointerWrap) : List WaitVBlankInfo →
    Option (List WaitVBlankInfo × PointerWrap)
  | [] => some ([], p)
  | x :: xs =>
    match x.DoState p with
    | none => none
    | some r1 =>
      match PointerWrap.DoArray r1.2 xs with
      | none => none
      | some r2 => some (r1.1 :: r2.1, r2.2)

/-- The call `x.resize(n, default_val)` of a `std::vector<WaitVBlankInfo>`. -/
def resizeWaiters (x : List WaitVBlankInfo) (n : Nat) (default_val : WaitVBlankInfo) :
    List WaitVBlankInfo :=
  x.take n ++ List.replicate (n - x.length) default_val

/-- The call `p.Do(x, default_val)` for a `std::vector<WaitVBlankInfo>`: the size as a `u32`,
a resize to the size that was written or read, then the elements. -/
def PointerWrap.DoVector (p : PointerWrap) (x : List WaitVBlankInfo) (default_val : WaitVBlankInfo) :
    Option (List WaitVBlankInfo × PointerWrap) :=
  match p.DoU32 (x.length % 4294967296) with
  | none => none
  | some r => PointerWrap.DoArray r.2 (resizeWaiters x r.1 default_val)

/-- The call `p.DoMarker(name)`: a cookie `0x42`; a wrong cookie in read mode turns the
`PointerWrap` to measure mode. -/
def PointerWrap.DoMarker (p : PointerWrap) (_prevName : String) : Option PointerWrap :=
  match p.DoU32 0x42 with
  | none => none
  | some r =>
    if p.mode = Mode.MODE_READ ∧ r.1 ≠ 0x42 then some { r.2 with mode := Mode.MODE_MEASURE }
    else some r.2

/-- The values `__DisplayDoState` passes through `p.Do`, before its calls out. -/
structure SavedDisplay where
  framebuf : FrameBufferState
  latchedFramebuf : FrameBufferState
  framebufIsLatched : Bool
  hCount : Int
  hCountTotal : Int
  vCount : Int
  isVblank : Int
  hasSetMode : Bool
  vblankWaitingThreads : List WaitVBlankInfo
deriving DecidableEq, Repr

/-- The first nine statements of `__DisplayDoState`, from `p.Do(framebuf)` to
`p.Do(vblankWaitingThreads, wvi)`. -/
def doStateStatics (w : World) (p : PointerWrap) : Option (SavedDisplay × PointerWrap) :=
  match p.DoFrameBuffer w.framebuf with
  | none => none
  | some r1 =>
  match r1.2.DoFrameBuffer w.latchedFramebuf with
  | none => none
  | some r2 =>
  match r2.2.DoBool w.framebufIsLatched with
  | none => none
  | some r3 =>
  match r3.2.DoInt w.hCount with
  | none => none
  | some r4 =>
  match r4.2.DoInt w.hCountTotal with
  | none => none
  | some r5 =>
  match r5.2.DoInt w.vCount with
  | none => none
  | some r6 =>
  match r6.2.DoInt w.isVblank with
  | none => none
  | some r7 =>
  match r7.2.DoBool w.hasSetMode with
  | none => none
  | some r8 =>
  match r8.2.DoVector w.vblankWaitingThreads ⟨0, 1⟩ with
  | none => none
  | some r9 => some (⟨r1.1, r2.1, r3.1, r4.1, r5.1, r6.1, r7.1, r8.1, r9.1⟩, r9.2)

/-- The three `p.Do(...Event)` statements of `__DisplayDoState`: the ids for the enter-vblank,
leave-vblank and after-flip events. -/
def doStateEvents (w : World) (p : PointerWrap) : Option ((Int × Int × Int) × PointerWrap) :=
  match p.DoInt w.enterVblankEvent with
  | none => none
  | some r1 =>
  match r1.2.DoInt w.leaveVblankEvent with
  | none => none
  | some r2 =>
  match r2.2.DoInt w.afterFlipEvent with
  | none => none
  | some r3 => some ((r1.1, r2.1, r3.1), r3.2)

/-- The statements `p.Do(gstate); p.Do(gstate_c); p.Do(gpuStats); gpu->DoState(p)` of
`__DisplayDoState`.  Of these records the display state holds one bit of `gstate_c` and the
frame counter of `gpuStats`; `gstate` and the GPU's own state are outside it. -/
def doStateGpu (w : World) (p : PointerWrap) : Option ((Bool × Int) × PointerWrap) :=
  match p.DoExternal "gstate" with
  | none => none
  | some r1 =>
  match r1.2.DoBool w.skipDrawFrame with
  | none => none
  | some r2 =>
  match r2.2.DoInt w.numFrames with
  | none => none
  | some r3 =>
  match r3.2.DoExternal "gpu" with
  | none => none
  | some r4 => some ((r2.1, r3.1), r4.2)

/-- `__DisplayDoState(p)`.  `RestoreRegisterEvent` is called in every mode; the block
`if (p.mode == p.MODE_READ)` comes after `ReapplyGfxState()`, which is not logged. -/
def __DisplayDoState (w : World) (p : PointerWrap) : Option (World × PointerWrap) :=
  match doStateStatics w p with
  | none => none
  | some s =>
  match doStateEvents w s.2 with
  | none => none
  | some e =>
  match doStateGpu w e.2 with
  | none => none
  | some g =>
  match g.2.DoMarker "sceDisplay" with
  | none => none
  | some pEnd =>
    some ({ w with
      framebuf := s.1.framebuf
      latchedFramebuf := s.1.latchedFramebuf
      framebufIsLatched := s.1.framebufIsLatched
      hCount := s.1.hCount
      hCountTotal := s.1.hCountTotal
      vCount := s.1.vCount
      isVblank := s.1.isVblank
      hasSetMode := s.1.hasSetMode
      vblankWaitingThreads := s.1.vblankWaitingThreads
      enterVblankEvent := e.1.1
      leaveVblankEvent := e.1.2.1
      afterFlipEvent := e.1.2.2
      skipDrawFrame := g.1.1
      numFrames := g.1.2
      effects := w.effects ++
        [Effect.registerEvent e.1.1 "EnterVBlank" "hleEnterVblank",
         Effect.registerEvent e.1.2.1 "LeaveVBlank" "hleLeaveVblank",
         Effect.registerEvent e.1.2.2 "AfterFlipEVent" "hleAfterFlip"] ++
        (if p.mode = Mode.MODE_READ then
          (if s.1.hasSetMode then [Effect.initClear] else []) ++
          [Effect.setDisplayFramebuffer s.1.framebuf.topaddr s.1.framebuf.pspFramebufLinesize
            s.1.framebuf.pspFramebufFormat]
         else []) }, pEnd)

/-- Writing a snapshot of `source` into an empty `PointerWrap` and reading it back into
`target`: the restored state. -/
def roundTrip (source target : World) : Option World :=
  match __DisplayDoState source ⟨Mode.MODE_WRITE, []⟩ with
  | none => none
  | some written =>
    (__DisplayDoState target ⟨Mode.MODE_READ, written.2.data⟩).map Prod.fst

/-- The `RegisterEvent` / `RestoreRegisterEvent` calls of a log, as (name, handler). -/
def registrations : List Effect → List (String × String)
  | [] => []
  | Effect.registerEvent _ name handler :: rest => (name, handler) :: registrations rest
  | _ :: rest => registrations rest

/-- The values that `DoArray` writes for a waiter vector. -/
def waiterItems : List WaitVBlankInfo → List Item
  | [] => []
  | x :: xs => Item.u32 x.threadID :: Item.int x.vcountUnblock :: waiterItems xs

/-- The values that `__DisplayDoState` writes for a display state, in order. -/
def snapshotItems (w : World) : List Item :=
  [Item.frameBuffer w.framebuf, Item.frameBuffer w.latchedFramebuf,
   Item.bool w.framebufIsLatched, Item.int w.hCount, Item.int w.hCountTotal,
   Item.int w.vCount, Item.int w.isVblank, Item.bool w.hasSetMode,
   Item.u32 (w.vblankWaitingThreads.length % 4294967296)] ++
  waiterItems w.vblankWaitingThreads ++
  [Item.int w.enterVblankEvent, Item.int w.leaveVblankEvent, Item.int w.afterFlipEvent,
   Item.external "gstate", Item.bool w.skipDrawFrame, Item.int w.numFrames,
   Item.external "gpu", Item.u32 0x42]

/-- An entry of the event queue of CoreTiming: the arguments of one
`CoreTiming::ScheduleEvent(cyclesIntoFuture, event, userdata)` call. -/
structure PendingEvent where
  cyclesIntoFuture : Int
  event : Int
  userdata : Nat
deriving DecidableEq, Repr

/-- The `CoreTiming::ScheduleEvent` calls of a log, oldest first. -/
def scheduledBy : List Effect → List PendingEvent
  | [] => []
  | Effect.scheduleEvent cyclesIntoFuture event userdata :: rest =>
    ⟨cyclesIntoFuture, event, userdata⟩ :: scheduledBy rest
  | _ :: rest => scheduledBy rest

/-- The display state together with the display events that are scheduled and not yet
delivered. -/
structure Timeline where
  world : World
  pending : List PendingEvent

/-- The timeline right after `__DisplayInit`. -/
def Timeline.boot (w0 : World) (enterId leaveId flipId : Int) : Timeline :=
  ⟨__DisplayInit w0 enterId leaveId flipId,
   scheduledBy (newEffects w0 (__DisplayInit w0 enterId leaveId flipId))⟩

/-- Modelled from the spec: CoreTiming (`Core/CoreTiming.h`) is not part of the sources at
hand; section 6 gives its contract as `RegisterEvent(name, handler) → eventId` and
`Schedule(delayInCycles, eventId, userData)`.  Delivery of a pending event calls the handler
registered for its event id with the scheduled `userdata`. -/
def deliver (w : World) (ev : PendingEvent) (cyclesLate : Int) (env : FrameEnv) : World :=
  if ev.event = w.enterVblankEvent then hleEnterVblank w ev.userdata cyclesLate env
  else if ev.event = w.leaveVblankEvent then hleLeaveVblank w ev.userdata cyclesLate
  else if ev.event = w.afterFlipEvent then hleAfterFlip w ev.userdata cyclesLate
  else w

/-- The clock events among the events of the display. -/
def Op.isClockEvent : Op → Bool
  | Op.enterVblank _ _ _ => true
  | Op.leaveVblank _ _ => true
  | Op.afterFlip _ _ => true
  | _ => false

/-- One move of the timeline: CoreTiming delivers the pending event at position `i` of the
queue, or the guest makes a `sceDisplay` call.  CoreTiming delivers the event that is due
first; every choice of `i` is allowed here, so every delivery order of CoreTiming is
covered. -/
inductive TimelineOp where
  | fire (i : Nat) (cyclesLate : Int) (env : FrameEnv)
  | call (op : Op)

def Timeline.step (t : Timeline) : TimelineOp → Timeline
  | TimelineOp.fire i cyclesLate env =>
    match t.pending[i]? with
    | none => t
    | some ev =>
      ⟨deliver t.world ev cyclesLate env,
       t.pending.eraseIdx i ++
        scheduledBy (newEffects t.world (deliver t.world ev cyclesLate env))⟩
  | TimelineOp.call op =>
    if op.isClockEvent then t
    else ⟨SceDisplay.step t.world op,
      t.pending ++ scheduledBy (newEffects t.world (SceDisplay.step t.world op))⟩

def Timeline.run (t : Timeline) : List TimelineOp → Timeline
  | [] => t
  | op :: ops => Timeline.run (t.step op) ops

/-- The pending `EnterVblank` and `LeaveVblank` events. -/
def Timeline.vblankPending (t : Timeline) : List PendingEvent :=
  t.pending.filter (fun ev =>
    decide (ev.event = t.world.enterVblankEvent) || decide (ev.event = t.world.leaveVblankEvent))

/-- What every move of the timeline keeps true, for event ids `e`, `l`, `f`: the ids stay
registered, `vCount` is an `int`, and exactly one pending event is an `EnterVblank` or a
`LeaveVblank`, matching the phase and the counter. -/
structure ClockInv (t : Timeline) (e l f : Int) : Prop where
  enterId : t.world.enterVblankEvent = e
  leaveId : t.world.leaveVblankEvent = l
  flipId : t.world.afterFlipEvent = f
  range : -2147483648 ≤ t.world.vCount ∧ t.world.vCount ≤ 2147483647
  one : ∃ ev, t.pending.filter (fun x => decide (x.event = e) || decide (x.event = l)) = [ev] ∧
    ((ev.event = e ∧ t.world.isVblank = 0 ∧ wrapS32 ev.userdata = t.world.vCount) ∨
     (ev.event = l ∧ t.world.isVblank = 1 ∧
        wrapS32 ev.userdata = wrapS32 (t.world.vCount + 1)))

end SceDisplay

/-! ## sceFont -/

namespace SceFont

def ERROR_FONT_INVALID_LIBID : Nat := 0x80460002
def ERROR_FONT_INVALID_PARAMETER : Nat := 0x80460003
def ERROR_FONT_TOO_MANY_OPEN_FONTS : Nat := 0x80460009

def FONT_IS_CLOSED : Nat := 0
def FONT_IS_OPEN : Nat := 1

/-- Modelled from the spec: the result code `SCE_KERNEL_ERROR_INVALID_ARGUMENT` comes from
`sceKernel.h`, which is not part of the sources at hand.  Section 7 only says that an invalid
guest pointer is reported to the guest as a numeric result code; the number used is the PSP
kernel's, as the `int` the function returns. -/
def SCE_KERNEL_ERROR_INVALID_ARGUMENT : Int := wrapS32 0x800200D2

structure FontNewLibParams where
  userDataAddr : Nat
  numFonts : Nat
  cacheDataAddr : Nat
  allocFuncAddr : Nat
  freeFuncAddr : Nat
  openFuncAddr : Nat
  closeFuncAddr : Nat
  readFuncAddr : Nat
  seekFuncAddr : Nat
  errorFuncAddr : Nat
  ioFinishFuncAddr : Nat
deriving DecidableEq, Repr

/-- The columns of `FontRegistryEntry` that reach a size or resolution of a `Font`, and the
two names. -/
structure FontRegistryEntry where
  hSize : Int
  vSize : Int
  hResolution : Int
  vResolution : Int
  fileName : String
  fontName : String
deriving DecidableEq, Repr

/-- Modelled from the spec: `PGFFontStyle` is declared in `Core/Font/PGF.h`, which is not part
of the sources at hand.  Section 3 lists its content as a style record (size, resolution,
weight, family, ...); kept here are the `float` sizes and resolutions, the only fields the
functions below read. -/
structure PGFFontStyle where
  fontH : F32
  fontV : F32
  fontHRes : F32
  fontVRes : F32
deriving DecidableEq, Repr

/-- A `Font` object; the parsed `PGF` it owns is not modelled. -/
structure Font where
  style_ : PGFFontStyle
deriving DecidableEq, Repr

/-- The constructor `Font(data, dataSize, entry)` for an internal font: each `int` column is
converted to `float` and divided by `64.f`. -/
def Font.ofRegistry (entry : FontRegistryEntry) : Font :=
  { style_ := { fontH := F32.div64 (F32.ofInt entry.hSize),
                fontV := F32.div64 (F32.ofInt entry.vSize),
                fontHRes := F32.div64 (F32.ofInt entry.hResolution),
                fontVRes := F32.div64 (F32.ofInt entry.vResolution) } }

def Font.GetFontStyle (f : Font) : PGFFontStyle := f.style_

/-- The body is `return true` (marked TODO in the source). -/
def Font.MatchesStyle (_f : Font) (_style : PGFFontStyle) (_optimum : Bool) : Bool := true

/-- A `LoadedFont` object.  `font_` is a `Font *`, `fontLib_` a `FontLib *` (`none` is the
null pointer). -/
structure LoadedFont where
  font_ : Nat
  fontLib_ : Option Nat
  handle_ : Nat
deriving DecidableEq, Repr

def LoadedFont.Handle (f : LoadedFont) : Nat := f.handle_
def LoadedFont.GetFontLib (f : LoadedFont) : Option Nat := f.fontLib_
def LoadedFont.IsOpen (f : LoadedFont) : Bool := f.fontLib_.isSome
def LoadedFont.Close (f : LoadedFont) : LoadedFont := { f with fontLib_ := none }

/-- The data members of a `FontLib` object. -/
structure FontLib where
  fonts_ : List Nat
  params_ : FontNewLibParams
  fontHRes_ : F32
  fontVRes_ : F32
  fileFontHandle_ : Int
  handle_ : Int
  altCharCode_ : Int
deriving DecidableEq, Repr

/-- The accessor `u32 handle() const { return handle_; }`, with `handle_` an `int`. -/
def FontLib.handle (lib : FontLib) : Nat := toU32 lib.handle_

def FontLib.numFonts (lib : FontLib) : Int := wrapS32 lib.params_.numFonts

/-- The statics of `sceFont.cpp` together with the heap objects they point to and guest
memory.  `Font` and `FontLib` objects are addressed by pointer (`fontHeap`, `libHeap`);
a `LoadedFont` object is reachable only through its `fontMap` entry and is stored there. -/
structure FontState where
  mem : Memory
  fontHeap : Nat → Font
  libHeap : Nat → FontLib
  internalFonts : List Nat
  fontMap : Nat → Option LoadedFont
  fontLibMap : Nat → Option Nat

/-- The address computed by `u32 addr = allocatedAddr + 4 + i * 4`. -/
def slotAddr (allocatedAddr i : Nat) : Nat := (allocatedAddr + 4 + i * 4) % 4294967296

/-- The call `fonts_.resize(n)` of a `std::vector<u32>`. -/
def resizeU32 (v : List Nat) (n : Nat) : List Nat := v.take n ++ List.replicate (n - v.length) 0

/-- One iteration of the loop of `FontLib::AllocDone`. -/
def allocDoneStep (allocatedAddr : Nat) (acc : List Nat × Memory) (i : Nat) : List Nat × Memory :=
  let addr := slotAddr allocatedAddr i
  (acc.1.set i addr, acc.2.Write_U32 FONT_IS_CLOSED addr)

def FontLib.AllocDone (lib : FontLib) (m : Memory) (allocatedAddr : Nat) : FontLib × Memory :=
  let fonts := resizeU32 lib.fonts_ lib.params_.numFonts
  let r := (List.range fonts.length).foldl (allocDoneStep allocatedAddr) (fonts, m)
  ({ lib with handle_ := wrapS32 allocatedAddr, fonts_ := r.1 }, r.2)

/-- The search loop of `FontLib::OpenFont` from index `i` on: the value of `freeFontIndex`
after the loop, `-1` when no slot reads `FONT_IS_CLOSED`. -/
def freeFontIndexFrom (m : Memory) : List Nat → Nat → Int
  | [], _ => -1
  | a :: rest, i =>
    if m.Read_U32 a = FONT_IS_CLOSED then wrapS32 i else freeFontIndexFrom m rest (i + 1)

/-- `FontLib::OpenFont` on the library object at address `self`: the new `LoadedFont`
(`none` for the null pointer it returns when every slot is taken) and guest memory. -/
def FontLib.OpenFont (lib : FontLib) (self : Nat) (m : Memory) (font : Nat) :
    Option LoadedFont × Memory :=
  let freeFontIndex := freeFontIndexFrom m lib.fonts_ 0
  if freeFontIndex < 0 then (none, m)
  else
    let slot := lib.fonts_.getD freeFontIndex.toNat 0
    (some ⟨font, some self, slot⟩, m.Write_U32 FONT_IS_OPEN slot)

/-- The loop of `FontLib::CloseFont`. -/
def closeFontLoop (m : Memory) (handle : Nat) : List Nat → Memory
  | [] => m
  | a :: rest =>
    if a = handle then closeFontLoop (m.Write_U32 FONT_IS_CLOSED handle) handle rest
    else closeFontLoop m handle rest

def FontLib.CloseFont (lib : FontLib) (m : Memory) (font : LoadedFont) : Memory × LoadedFont :=
  (closeFontLoop m font.Handle lib.fonts_, font.Close)

/-- `PostAllocCallback::run` for the library object at address `fontLib`; `savedV0` is the
value the guest allocator returned.  The second component is the value handed to
`call.setReturnValue`. -/
def PostAllocCallback.run (s : FontState) (fontLib : Nat) (savedV0 : Nat) : FontState × Nat :=
  let r := (s.libHeap fontLib).AllocDone s.mem savedV0
  let s := { s with libHeap := Function.update s.libHeap fontLib r.1, mem := r.2 }
  let h := (s.libHeap fontLib).handle
  ({ s with fontLibMap := Function.update s.fontLibMap h (some fontLib) }, h)

/-- `GetFontLib`: `none` is the null pointer. -/
def GetFontLib (s : FontState) (handle : Nat) : Option Nat := s.fontLibMap handle

/-- `GetLoadedFont`: `none` is the null pointer. -/
def GetLoadedFont (s : FontState) (handle : Nat) (allowClosed : Bool) : Option LoadedFont :=
  match s.fontMap handle with
  | some f => if f.IsOpen || allowClosed then s.fontMap handle else none
  | none => none

def fabsf (x : F32) : F32 := x.abs

/-- `GetOptimumFont` on `Font *` arguments; `optimumFont = none` is the null pointer. -/
def GetOptimumFont (heap : Nat → Font) (requestedStyle : PGFFontStyle) (optimumFont : Option Nat)
    (candidateFont : Nat) : Nat :=
  match optimumFont with
  | none => candidateFont
  | some optimum =>
    let optimumStyle := (heap optimum).GetFontStyle
    let candidateStyle := (heap candidateFont).GetFontStyle
    let testH : Bool := !requestedStyle.fontH.isZero || requestedStyle.fontV.isZero
    if testH && F32.gt (fabsf (F32.sub requestedStyle.fontH optimumStyle.fontH))
        (fabsf (F32.sub requestedStyle.fontH candidateStyle.fontH)) then candidateFont
    else
      let testV : Bool := !requestedStyle.fontV.isZero || requestedStyle.fontH.isZero
      if testV && F32.gt (fabsf (F32.sub requestedStyle.fontV optimumStyle.fontV))
          (fabsf (F32.sub requestedStyle.fontV candidateStyle.fontV)) then candidateFont
      else optimum

/-- The loop of `GetInternalFontIndex` from index `i` on. -/
def internalFontIndexFrom (font : Nat) : List Nat → Nat → Int
  | [], _ => 0
  | a :: rest, i => if a = font then wrapS32 i else internalFontIndexFrom font rest (i + 1)

def GetInternalFontIndex (s : FontState) (font : Nat) : Int :=
  internalFontIndexFrom font s.internalFonts 0

/-- `sceFontOpen`.  The result is `none` when the host dereferences the null pointer returned
by `GetFontLib`. -/
def sceFontOpen (s : FontState) (libHandle index _mode errorCodePtr : Nat) :
    Option (Nat × FontState) :=
  if !s.mem.IsValidAddress errorCodePtr then
    some (0, { s with mem := s.mem.Write_U32 ERROR_FONT_INVALID_PARAMETER errorCodePtr })
  else
    let fontLib := GetFontLib s libHandle
    if index ≥ s.internalFonts.length then
      some (0, { s with mem := s.mem.Write_U32 ERROR_FONT_INVALID_PARAMETER errorCodePtr })
    else
      match fontLib with
      | none => none
      | some lib =>
        let r := (s.libHeap lib).OpenFont lib s.mem (s.internalFonts.getD index 0)
        match r.1 with
        | some font =>
          let s := { s with mem := r.2, fontMap := Function.update s.fontMap font.Handle (some font) }
          some (font.Handle, { s with mem := s.mem.Write_U32 0 errorCodePtr })
        | none =>
          some (0, { s with mem := r.2.Write_U32 ERROR_FONT_TOO_MANY_OPEN_FONTS errorCodePtr })

def sceFontClose (s : FontState) (fontHandle : Nat) : Int × FontState :=
  match GetLoadedFont s fontHandle false with
  | some font =>
    match font.GetFontLib with
    | some fontLib =>
      let r := (s.libHeap fontLib).CloseFont s.mem font
      (0, { s with mem := r.1, fontMap := Function.update s.fontMap fontHandle (some r.2) })
    | none => (0, s)
  | none => (0, s)

/-- The loop of `sceFontFindOptimumFont` over `internalFonts`. -/
def optimumFontLoop (heap : Nat → Font) (requestedStyle : PGFFontStyle) :
    Option Nat → List Nat → Option Nat
  | optimumFont, [] => optimumFont
  | optimumFont, f :: rest =>
    if (heap f).MatchesStyle requestedStyle true then
      optimumFontLoop heap requestedStyle
        (some (GetOptimumFont heap requestedStyle optimumFont f)) rest
    else optimumFontLoop heap requestedStyle optimumFont rest

/-- `sceFontFindOptimumFont`; `requestedStyle` is the record that
`Memory::ReadStruct(fontStylePtr, &requestedStyle)` yields. -/
def sceFontFindOptimumFont (s : FontState) (_libHandlePtr fontStylePtr errorCodePtr : Nat)
    (requestedStyle : PGFFontStyle) : Int × FontState :=
  if fontStylePtr = 0 then (0, s)
  else if !s.mem.IsValidAddress errorCodePtr then (SCE_KERNEL_ERROR_INVALID_ARGUMENT, s)
  else
    match optimumFontLoop s.fontHeap requestedStyle none s.internalFonts with
    | some optimumFont =>
      let s := { s with mem := s.mem.Write_U32 0 errorCodePtr }
      (GetInternalFontIndex s optimumFont, s)
    | none => (0, { s with mem := s.mem.Write_U32 0 errorCodePtr })

/-- The library object at address `p` has been set up by `AllocDone` at guest address `A`
with `K` slots: it is registered under `A`, its slot table is `A+4, A+8, ...`, lies inside
the 32-bit address space and in valid guest memory. -/
structure LibReady (s : FontState) (p A K : Nat) : Prop where
  registered : s.fontLibMap A = some p
  slots : (s.libHeap p).fonts_ = (List.range K).map (slotAddr A)
  fits : A + 4 + 4 * K ≤ 4294967296
  valid : ∀ i, i < K → s.mem.valid (slotAddr A i) = true

/-- The guest-supplied arguments of one `sceFontOpen` call on a given library. -/
structure OpenArgs where
  index : Nat
  mode : Nat
  errorCodePtr : Nat
deriving DecidableEq, Repr

/-- The arguments are usable with the library at `A` (`K` slots): a catalog index in range and
a valid error pointer whose word lies outside the slot table. -/
def OpenArgs.ok (s : FontState) (A K : Nat) (a : OpenArgs) : Prop :=
  a.index < s.internalFonts.length ∧ s.mem.valid a.errorCodePtr = true ∧
  (a.errorCodePtr + 4 ≤ A + 4 ∨ A + 4 + 4 * K ≤ a.errorCodePtr)

instance (s : FontState) (A K : Nat) (a : OpenArgs) : Decidable (a.ok s A K) := by
  unfold OpenArgs.ok
  infer_instance

/-- Consecutive `sceFontOpen` calls on library `libHandle`: for each call the value returned
and the error code found at its error pointer right after the call. -/
def openAll (s : FontState) (libHandle : Nat) : List OpenArgs → Option (List (Nat × Nat) × FontState)
  | [] => some ([], s)
  | a :: rest =>
    match sceFontOpen s libHandle a.index a.mode a.errorCodePtr with
    | none => none
    | some r =>
      match openAll r.2 libHandle rest with
      | none => none
      | some rs => some ((r.1, r.2.mem.Read_U32 a.errorCodePtr) :: rs.1, rs.2)

/-- Every slot of the library at `A` (object `p`, `K` slots) is open: the guest flag reads
`FONT_IS_OPEN` and `fontMap` holds an open wrapper of this library under the slot address. -/
structure AllOpen (s : FontState) (p A K : Nat) : Prop where
  ready : LibReady s p A K
  flags : ∀ i, i < K → s.mem.Read_U32 (slotAddr A i) = FONT_IS_OPEN
  wrappers : ∀ i, i < K →
    (s.fontMap (slotAddr A i)).map (fun f => (f.fontLib_, f.handle_))
      = some (some p, slotAddr A i)

/-- A two-entry catalog (sizes `0x288` and `0x1c0`, the first and tenth registry rows) at
`Font` addresses 100 and 101, one library object at address 200 created for two fonts, no
library registered, blank guest memory. -/
def bootFonts : FontState :=
  { mem := Memory.blank
    fontHeap := fun a =>
      if a = 100 then Font.ofRegistry ⟨0x288, 0x288, 0x2000, 0x2000, "jpn0.pgf", "FTT-NewRodin Pro DB"⟩
      else Font.ofRegistry ⟨0x1c0, 0x1c0, 0x2000, 0x2000, "ltn8.pgf", "FTT-NewRodin Pro Latin"⟩
    libHeap := fun _ =>
      { fonts_ := [], params_ := ⟨0, 2, 0, 0x08800000, 0x08800100, 0, 0, 0, 0, 0, 0⟩,
        fontHRes_ := F32.fin 128, fontVRes_ := F32.fin 128, fileFontHandle_ := 0, handle_ := 0,
        altCharCode_ := 0 }
    internalFonts := [100, 101]
    fontMap := fun _ => none
    fontLibMap := fun _ => none }

/-- The library of `bootFonts` after its allocation callback ran with the guest block at
`0x08900000`. -/
def readyFonts : FontState := (PostAllocCallback.run bootFonts 200 0x08900000).1

/-- The state `readyFonts` after two successful `sceFontOpen` calls: both slots are open. -/
def fullFonts : FontState :=
  ((openAll readyFonts 0x08900000 [⟨0, 0, 0x08800000⟩, ⟨1, 0, 0x08800000⟩]).map
    Prod.snd).getD readyFonts

/-- Absolute deviation of the horizontal size of the `Font` at address `f` from the
requested `fontH`, as `GetOptimumFont` computes it: `fabsf` of the `float` difference. -/
def hDeviation (heap : Nat → Font) (requestedStyle : PGFFontStyle) (f : Nat) : F32 :=
  fabsf (F32.sub requestedStyle.fontH (heap f).GetFontStyle.fontH)

/-- Catalog index `k` is the smallest index whose computed horizontal deviation is minimal:
it is greater (`>` on `float`) than that of no entry, and that of every earlier entry is
greater than it. -/
def IsFirstNearestH (heap : Nat → Font) (requestedStyle : PGFFontStyle) (catalog : List Nat)
    (k : Nat) : Prop :=
  k < catalog.length ∧
  (∀ i, i < catalog.length →
    F32.gt (hDeviation heap requestedStyle (catalog.getD k 0))
      (hDeviation heap requestedStyle (catalog.getD i 0)) = false) ∧
  (∀ i, i < k →
    F32.gt (hDeviation heap requestedStyle (catalog.getD i 0))
      (hDeviation heap requestedStyle (catalog.getD k 0)) = true)

/-- The flag `testH` of `GetOptimumFont`: the horizontal size is compared. -/
def comparesH (requestedStyle : PGFFontStyle) : Bool :=
  !requestedStyle.fontH.isZero || requestedStyle.fontV.isZero

/-- The flag `testV` of `GetOptimumFont`: the vertical size is compared. -/
def comparesV (requestedStyle : PGFFontStyle) : Bool :=
  !requestedStyle.fontV.isZero || requestedStyle.fontH.isZero

/-- Absolute deviation of the vertical size of the `Font` at address `f` from the requested
`fontV`, as `GetOptimumFont` computes it: `fabsf` of the `float` difference. -/
def vDeviation (heap : Nat → Font) (requestedStyle : PGFFontStyle) (f : Nat) : F32 :=
  fabsf (F32.sub requestedStyle.fontV (heap f).GetFontStyle.fontV)

/-- Two fonts for the comparison of both axes: the one at address 1 has sizes (10, 8), every
other address holds one with sizes (9, 20). -/
def twoAxisHeap : Nat → Font := fun a =>
  if a = 1 then ⟨⟨F32.fin 10, F32.fin 8, F32.fin 128, F32.fin 128⟩⟩
  else ⟨⟨F32.fin 9, F32.fin 20, F32.fin 128, F32.fin 128⟩⟩

/-- The exact absolute deviation `|a - b|` of two finite `float` values, as a real number;
`none` when one of them is not finite. -/
def exactDeviation : F32 → F32 → Option Rat
  | F32.fin a, F32.fin b => some |a - b|
  | _, _ => none

/-- Modelled from the spec: `Memory::ReadStruct` lives in `Core/MemMap.h`, which is not part of
the sources at hand; section 6 lists guest memory access as reads of scalars at guest
addresses.  It copies the bytes of a record out of guest memory; this is the `u32` field at
byte offset `4 * i` of the record at `address`, little-endian. -/
def readStructU32 (m : Memory) (address i : Nat) : Nat :=
  (m.bytes (address + 4 * i) + 256 * m.bytes (address + 4 * i + 1)
    + 65536 * m.bytes (address + 4 * i + 2)
    + 16777216 * m.bytes (address + 4 * i + 3)) % 4294967296

/-- `Memory::ReadStruct(paramPtr, &params_)` for a `FontNewLibParams`. -/
def readFontNewLibParams (m : Memory) (paramPtr : Nat) : FontNewLibParams :=
  { userDataAddr := readStructU32 m paramPtr 0
    numFonts := readStructU32 m paramPtr 1
    cacheDataAddr := readStructU32 m paramPtr 2
    allocFuncAddr := readStructU32 m paramPtr 3
    freeFuncAddr := readStructU32 m paramPtr 4
    openFuncAddr := readStructU32 m paramPtr 5
    closeFuncAddr := readStructU32 m paramPtr 6
    readFuncAddr := readStructU32 m paramPtr 7
    seekFuncAddr := readStructU32 m paramPtr 8
    errorFuncAddr := readStructU32 m paramPtr 9
    ioFinishFuncAddr := readStructU32 m paramPtr 10 }

/-- One call `__KernelDirectMipsCall(entryPoint, action, args, numargs, false)`: the guest
function called, the `FontLib *` bound to the `PostAllocCallback` passed as action (`none`
for the null action) and the argument words. -/
structure DirectMipsCall where
  entryPoint : Nat
  action : Option Nat
  args : List Nat
deriving DecidableEq, Repr

/-- The constructor `FontLib(paramPtr)` run on the storage at address `self`: the members
without an initialiser keep whatever the storage held; the second component is the guest
call it issues. -/
def FontLib.construct (s : FontState) (self paramPtr : Nat) : FontState × List DirectMipsCall :=
  let params := readFontNewLibParams s.mem paramPtr
  let lib : FontLib :=
    { s.libHeap self with
      fonts_ := [], params_ := params, fontHRes_ := F32.fin 128, fontVRes_ := F32.fin 128 }
  let allocSize := (4 + 4 * params.numFonts) % 4294967296
  ({ s with libHeap := Function.update s.libHeap self lib },
   [⟨params.allocFuncAddr, some self, [allocSize]⟩])

/-- `sceFontNewLib`; `newLib` is the address that `new FontLib` returns.  The result is the
value returned to the guest, the state and the guest calls issued. -/
def sceFontNewLib (s : FontState) (paramPtr errorCodePtr newLib : Nat) :
    Nat × FontState × List DirectMipsCall :=
  if s.mem.IsValidAddress paramPtr && s.mem.IsValidAddress errorCodePtr then
    let s := { s with mem := s.mem.Write_U32 0 errorCodePtr }
    let r := FontLib.construct s newLib paramPtr
    (0xDEADDEAD, r.1, r.2)
  else (0, s, [])

/-- The loop of `FontLib::Done`: the wrapper of every slot that reads `FONT_IS_OPEN` is
closed, deleted and erased from `fontMap`.  The result is `none` when `fontMap[fonts_[i]]`
is the null pointer that `operator[]` inserts for a missing key. -/
def doneLoop (s : FontState) : List Nat → Option FontState
  | [] => some s
  | a :: rest =>
    if s.mem.Read_U32 a = FONT_IS_OPEN then
      match s.fontMap a with
      | none => none
      | some _ => doneLoop { s with fontMap := Function.update s.fontMap a none } rest
    else doneLoop s rest

/-- `FontLib::Done` on the library object at address `self`, with the guest call it
issues. -/
def FontLib.Done (s : FontState) (self : Nat) : Option (FontState × List DirectMipsCall) :=
  match doneLoop s (s.libHeap self).fonts_ with
  | none => none
  | some s1 =>
    let lib := s1.libHeap self
    some ({ s1 with libHeap := Function.update s1.libHeap self { lib with handle_ := 0, fonts_ := [] } },
      [⟨lib.params_.freeFuncAddr, none, [toU32 lib.handle_]⟩])

/-- `sceFontDoneLib`; `none` when `FontLib::Done` dereferences a null pointer. -/
def sceFontDoneLib (s : FontState) (fontLibHandle : Nat) :
    Option (Int × FontState × List DirectMipsCall) :=
  match GetFontLib s fontLibHandle with
  | some fl => (FontLib.Done s fl).map (fun r => (0, r.1, r.2))
  | none => some (0, s, [])

/-- Guest parameters at `0x08800000` asking for `0x3FFFFFFF` fonts, with the allocator at
`0x08804000`. -/
def hugeParamsMem : Memory :=
  (Memory.blank.Write_U32 0x3FFFFFFF 0x08800004).Write_U32 0x08804000 0x0880000C

/-- Guest parameters at `0x08800000` asking for 4 fonts, with the allocator at
`0x08804000`. -/
def fourParamsMem : Memory :=
  (Memory.blank.Write_U32 4 0x08800004).Write_U32 0x08804000 0x0880000C

/-- `sceFontOpenUserMemory`.  `newFont` is the address that `new Font(fontData,
memoryFontLength)` returns and `parsed` the object built there from the guest data (the PGF
decoder is outside the sources at hand). -/
def sceFontOpenUserMemory (s : FontState)
    (libHandle memoryFontAddrPtr _memoryFontLength errorCodePtr : Nat)
    (newFont : Nat) (parsed : Font) : Nat × FontState :=
  if !s.mem.IsValidAddress errorCodePtr || !s.mem.IsValidAddress memoryFontAddrPtr then
    (0, { s with mem := s.mem.Write_U32 ERROR_FONT_INVALID_PARAMETER errorCodePtr })
  else
    match GetFontLib s libHandle with
    | none => (0, { s with mem := s.mem.Write_U32 ERROR_FONT_INVALID_PARAMETER errorCodePtr })
    | some lib =>
      let s := { s with fontHeap := Function.update s.fontHeap newFont parsed }
      let r := (s.libHeap lib).OpenFont lib s.mem newFont
      match r.1 with
      | some font =>
        let s := { s with mem := r.2, fontMap := Function.update s.fontMap font.Handle (some font) }
        (font.Handle, { s with mem := s.mem.Write_U32 0 errorCodePtr })
      | none =>
        (0, { s with mem := r.2.Write_U32 ERROR_FONT_TOO_MANY_OPEN_FONTS errorCodePtr })

/-- What a font query does besides returning: the calls into the PGF decoder of a `Font`
(addressed by its `Font *`) and the writes of decoder results to guest memory.  The decoder
(`Core/Font/PGF.h`) is outside the sources at hand, so these writes are logged with the
`Font` they take their data from instead of being applied to guest memory. -/
inductive FontEffect where
  /-- Call `pgf->GetFontInfo(&fi)` on the PGF of `font` -/
  | pgfGetFontInfo (font : Nat)
  /-- Call `GetPGF()->GetCharInfo(charCode, &charInfo)` on the PGF of `font` -/
  | pgfGetCharInfo (font charCode : Nat)
  /-- Call `GetPGF()->DrawCharacter(base, bpl, bufWidth, bufHeight, x, y, clipX, clipY,
  clipWidth, clipHeight, pixelformat, charCode, altCharCode, FONT_PGF_CHARGLYPH)` on the PGF
  of `font` -/
  | pgfDrawCharacter (font : Nat) (base bpl bufWidth bufHeight x y : Int)
      (clipX clipY clipWidth clipHeight pixelformat : Int) (charCode : Nat) (altCharCode : Int)
  /-- Call `Memory::WriteStruct(fontInfoPtr, &fi)` with `fi` filled from `font` -/
  | writeFontInfo (fontInfoPtr font : Nat)
  /-- Call `Memory::WriteStruct(charInfoPtr, &charInfo)`; `filledFrom = none` is the record as
  `memset` left it, all zero -/
  | writeCharInfo (charInfoPtr : Nat) (filledFrom : Option Nat)
  /-- The two `Memory::Write_U16` of `charInfo.bitmapWidth` and `charInfo.bitmapHeight` at
  `charRectPtr` and `charRectPtr + 2`, the record filled from `font` -/
  | writeCharRect (charRectPtr font : Nat)
deriving DecidableEq, Repr

def sceFontGetFontInfo (s : FontState) (fontHandle fontInfoPtr : Nat) : Int × List FontEffect :=
  if !s.mem.IsValidAddress fontInfoPtr then (0, [])
  else
    match GetLoadedFont s fontHandle true with
    | none => (0, [])
    | some font =>
      (0, [FontEffect.pgfGetFontInfo font.font_, FontEffect.writeFontInfo fontInfoPtr font.font_])

def sceFontGetCharInfo (s : FontState) (fontHandle charCode charInfoPtr : Nat) :
    Int × List FontEffect :=
  if !s.mem.IsValidAddress charInfoPtr then (-1, [])
  else
    match GetLoadedFont s fontHandle false with
    | some font =>
      (0, [FontEffect.pgfGetCharInfo font.font_ charCode,
           FontEffect.writeCharInfo charInfoPtr (some font.font_)])
    | none => (0, [FontEffect.writeCharInfo charInfoPtr none])

def sceFontGetCharImageRect (s : FontState) (fontHandle charCode charRectPtr : Nat) :
    Int × List FontEffect :=
  if !s.mem.IsValidAddress charRectPtr then (-1, [])
  else
    match GetLoadedFont s fontHandle false with
    | some font =>
      (0, [FontEffect.pgfGetCharInfo font.font_ charCode,
           FontEffect.writeCharRect charRectPtr font.font_])
    | none => (0, [])

/-- `sceFontGetCharGlyphImage`.  The result is `none` when the host dereferences a null
`font->GetFontLib()`. -/
def sceFontGetCharGlyphImage (s : FontState) (fontHandle charCode glyphImagePtr : Nat) :
    Option (Int × List FontEffect) :=
  let pixelFormat : Int := wrapS32 (s.mem.Read_U32 glyphImagePtr)
  let xPos64 : Int := wrapS32 (s.mem.Read_U32 (glyphImagePtr + 4))
  let yPos64 : Int := wrapS32 (s.mem.Read_U32 (glyphImagePtr + 8))
  let bufWidth : Int := s.mem.Read_U16 (glyphImagePtr + 12)
  let bufHeight : Int := s.mem.Read_U16 (glyphImagePtr + 14)
  let bytesPerLine : Int := s.mem.Read_U16 (glyphImagePtr + 16)
  let buffer : Int := wrapS32 (s.mem.Read_U32 (glyphImagePtr + 20))
  match GetLoadedFont s fontHandle false with
  | none => some (0, [])
  | some font =>
    match font.GetFontLib with
    | none => none
    | some fontLib =>
      let altCharCode : Int := (s.libHeap fontLib).altCharCode_
      some (0, [FontEffect.pgfDrawCharacter font.font_ buffer bytesPerLine bufWidth bufHeight
        (Int.fdiv xPos64 64) (Int.fdiv yPos64 64) 0 0 8192 8192 pixelFormat charCode
        altCharCode])

/-- The state `fullFonts` after `sceFontClose` on the handle of its first slot. -/
def closedFonts : FontState := (sceFontClose fullFonts 0x08900004).2

/-- One guest call of the open/close interface. -/
inductive FontOp where
  | openFont (libHandle index mode errorCodePtr : Nat)
  | closeFont (fontHandle : Nat)
deriving DecidableEq, Repr

/-- The state after one call; `none` when `sceFontOpen` dereferences a null `FontLib *`. -/
def stepFont (s : FontState) : FontOp → Option FontState
  | FontOp.openFont libHandle index mode errorCodePtr =>
    (sceFontOpen s libHandle index mode errorCodePtr).map Prod.snd
  | FontOp.closeFont fontHandle => some (sceFontClose s fontHandle).2

/-- The state after a sequence of calls, oldest first. -/
def runFont (s : FontState) : List FontOp → Option FontState
  | [] => some s
  | op :: ops =>
    match stepFont s op with
    | none => none
    | some s1 => runFont s1 ops

/-- The word at guest address `a` lies outside the slot table `A + 4 .. A + 4 + 4 * K`. -/
def outsideSlots (A K a : Nat) : Prop := a + 4 ≤ A + 4 ∨ A + 4 + 4 * K ≤ a

instance (A K a : Nat) : Decidable (outsideSlots A K a) := by
  unfold outsideSlots
  infer_instance

/-- The call does not make the host write into the slot table of the library at `A`: the
error pointer of a `sceFontOpen` lies outside it. -/
def FontOp.sparesSlots (A K : Nat) : FontOp → Bool
  | FontOp.openFont _ _ _ errorCodePtr => decide (outsideSlots A K errorCodePtr)
  | FontOp.closeFont _ => true

/-- The library handle of a `sceFontOpen` is registered in `fontLibMap`. -/
def FontOp.libRegistered (s : FontState) : FontOp → Bool
  | FontOp.openFont libHandle _ _ _ => (GetFontLib s libHandle).isSome
  | FontOp.closeFont _ => true

/-- The state in which the allocation callback of the new library object `p` (created for `K`
fonts) is about to run with the guest block at `A`: the block lies in valid guest memory
inside the 32-bit address space, `p` is not registered yet, no wrapper refers to `p`, and the
slots of the other libraries and the handles of their open wrappers lie outside the block. -/
structure FreshLib (s : FontState) (p A K : Nat) : Prop where
  numFonts : (s.libHeap p).params_.numFonts = K
  fits : A + 4 + 4 * K ≤ 4294967296
  valid : ∀ i, i < K → s.mem.valid (slotAddr A i) = true
  unregistered : ∀ H, s.fontLibMap H ≠ some p
  wrappers : ∀ h f q, s.fontMap h = some f → f.fontLib_ = some q →
    q ≠ p ∧ outsideSlots A K f.handle_
  tables : ∀ q a, q ≠ p → a ∈ (s.libHeap q).fonts_ → outsideSlots A K a

/-- What the open and close calls keep true of the library object `p` at `A` with `K` slots;
`agree` is the agreement of guest flags and host wrappers. -/
structure SlotInv (s : FontState) (p A K : Nat) : Prop where
  ready : LibReady s p A K
  only : ∀ H, s.fontLibMap H = some p → H = A
  own : ∀ h f, s.fontMap h = some f → f.fontLib_ = some p →
    f.handle_ = h ∧ ∃ i, i < K ∧ h = slotAddr A i
  foreign : ∀ h f q, s.fontMap h = some f → f.fontLib_ = some q → q ≠ p →
    outsideSlots A K f.handle_
  tables : ∀ q a, q ≠ p → a ∈ (s.libHeap q).fonts_ → outsideSlots A K a
  agree : ∀ i, i < K →
    (s.mem.Read_U32 (slotAddr A i) = FONT_IS_OPEN ↔
      ∃ f, s.fontMap (slotAddr A i) = some f ∧ f.fontLib_ = some p)

end SceFont

/-! # Theorems -/

/-! ## Lists and machine integers -/

theorem getElem?_mid {α : Type} (pre : List α) (x : α) (xs : List α) :
    (pre ++ x :: xs)[pre.length]? = some x := by
  induction pre with
  | nil => simp
  | cons p ps ih => simpa using ih

theorem set_mid {α : Type} (pre : List α) (x y : α) (xs : List α) :
    (pre ++ x :: xs).set pre.length y = pre ++ y :: xs := by
  induction pre with
  | nil => rfl
  | cons p ps ih => simp

theorem eraseIdx_mid {α : Type} (pre : List α) (x : α) (xs : List α) :
    (pre ++ x :: xs).eraseIdx pre.length = pre ++ xs := by
  induction pre with
  | nil => rfl
  | cons p ps ih => simpa using ih

theorem sizeInc_sizeDec (i : Nat) (h : i < sizeT) : sizeInc (sizeDec i) = i := by
  unfold sizeInc sizeDec sizeT at *
  omega

theorem sizeInc_lt (i : Nat) (h : i + 1 < sizeT) : sizeInc i = i + 1 := by
  unfold sizeInc sizeT at *
  omega

theorem wrapS32_of_range (x : Int) (h1 : -2147483648 ≤ x) (h2 : x ≤ 2147483647) :
    wrapS32 x = x := by
  unfold wrapS32
  omega

namespace SceDisplay

/-! ## The wake-up loop -/

/-- The in-place loop, started at counter `pre.length` on the vector `pre ++ rest`, leaves
`pre` alone and treats `rest` exactly as `wakeAll` does. -/
theorem wakeLoop_append (rest : List WaitVBlankInfo) :
    ∀ (pre : List WaitVBlankInfo) (out : List Effect) (fuel : Nat),
      rest.length ≤ fuel → pre.length + rest.length < sizeT →
      wakeLoop fuel pre.length (pre ++ rest) out
        = (pre ++ (wakeAll rest).1, out ++ (wakeAll rest).2) := by
  induction rest with
  | nil =>
    intro pre out fuel _ _
    cases fuel with
    | zero => simp [wakeLoop, wakeAll]
    | succ f => simp [wakeLoop, wakeAll]
  | cons x xs ih =>
    intro pre out fuel hf hsz
    cases fuel with
    | zero => simp at hf
    | succ f =>
      have hf1 : xs.length ≤ f := by simpa using hf
      have hlen : pre.length + xs.length + 1 < sizeT := by simpa [Nat.add_assoc] using hsz
      rw [wakeLoop, getElem?_mid]
      simp only [set_mid]
      by_cases hc : wrapS32 (x.vcountUnblock - 1) = 0
      · rw [if_pos hc, eraseIdx_mid, sizeInc_sizeDec _ (by omega), ih pre _ f hf1 (by omega)]
        simp [wakeAll, hc]
      · rw [if_neg hc, sizeInc_lt _ (by omega)]
        have h2 := ih (pre ++ [{ x with vcountUnblock := wrapS32 (x.vcountUnblock - 1) }]) out f hf1
          (by simp; omega)
        simp only [List.length_append, List.length_singleton, List.append_assoc,
          List.singleton_append] at h2
        rw [h2]
        simp [wakeAll, hc]

theorem wakeLoop_eq (v : List WaitVBlankInfo) (out : List Effect) (h : v.length < sizeT) :
    wakeLoop v.length 0 v out = ((wakeAll v).1, out ++ (wakeAll v).2) := by
  have := wakeLoop_append v [] out v.length (Nat.le_refl _) (by simpa using h)
  simpa using this

end SceDisplay

namespace SceDisplay

/-! ## Field-by-field effect of the clock events -/

theorem DoFrameTiming_world (w : World) (env : FrameEnv) :
    ∃ c n, (DoFrameTiming w env).2 = { w with curFrameTime := c, nextFrameTime := n } := by
  simp only [DoFrameTiming]
  split_ifs <;> exact ⟨_, _, rfl⟩

theorem DoFrameTiming_snd (w : World) (env : FrameEnv) :
    (DoFrameTiming w env).2 =
      { w with
        curFrameTime := (DoFrameTiming w env).2.curFrameTime
        nextFrameTime := (DoFrameTiming w env).2.nextFrameTime } := by
  obtain ⟨c, n, h⟩ := DoFrameTiming_world w env
  rw [h]

theorem wakeLoop_effects (fuel : Nat) :
    ∀ (i : Nat) (v : List WaitVBlankInfo) (out : List Effect),
      ∃ rs, (wakeLoop fuel i v out).2 = out ++ rs ∧
        ∀ e ∈ rs, ∃ t, e = Effect.resumeThreadFromWait t 0 := by
  induction fuel with
  | zero => intro i v out; exact ⟨[], by simp [wakeLoop]⟩
  | succ f ih =>
    intro i v out
    rw [wakeLoop]
    split
    · exact ⟨[], by simp⟩
    · rename_i x _
      simp only
      split_ifs
      · obtain ⟨rs, h1, h2⟩ := ih (sizeInc (sizeDec i))
          ((v.set i { x with vcountUnblock := wrapS32 (x.vcountUnblock - 1) }).eraseIdx i)
          (out ++ [Effect.resumeThreadFromWait x.threadID 0])
        refine ⟨Effect.resumeThreadFromWait x.threadID 0 :: rs, by simp [h1], ?_⟩
        intro e he
        rcases List.mem_cons.1 he with h | h
        · exact ⟨_, h⟩
        · exact h2 e h
      · exact ih _ _ _

theorem wakeWaitingThreads_shape (w : World) :
    ∃ resumes, (∀ e ∈ resumes, ∃ t, e = Effect.resumeThreadFromWait t 0) ∧
      (wakeLoop w.vblankWaitingThreads.length 0 w.vblankWaitingThreads w.effects).2
        = w.effects ++ resumes ∧
      wakeWaitingThreads w =
        { w with
          vblankWaitingThreads :=
            (wakeLoop w.vblankWaitingThreads.length 0 w.vblankWaitingThreads w.effects).1
          effects := w.effects ++ resumes } := by
  obtain ⟨resumes, hr1, hr2⟩ := wakeLoop_effects w.vblankWaitingThreads.length 0
    w.vblankWaitingThreads w.effects
  exact ⟨resumes, hr2, hr1, by simp [wakeWaitingThreads, hr1]⟩

theorem commitLatchedFramebuf_shape (w : World) :
    commitLatchedFramebuf w =
      { w with
        framebuf := if w.framebufIsLatched then w.latchedFramebuf else w.framebuf
        framebufIsLatched := false
        effects := w.effects ++
          (if w.framebufIsLatched then
            [Effect.setDisplayFramebuffer w.latchedFramebuf.topaddr
              w.latchedFramebuf.pspFramebufLinesize w.latchedFramebuf.pspFramebufFormat]
           else []) } := by
  cases w
  rename_i fb lfb latched _ _ _ _ _ _ _ _ _ _ _ _ _ _ _ _ _ _ _
  cases latched <;> simp [commitLatchedFramebuf, World.emit]

theorem countSkippedFrame_shape (w : World) (skipFrame : Bool) :
    countSkippedFrame w skipFrame =
      { w with
        skipDrawFrame := if skipFrame then true else w.skipDrawFrame
        numSkippedFrames := if skipFrame then wrapS32 (w.numSkippedFrames + 1) else 0 } := by
  cases skipFrame <;> simp [countSkippedFrame]

theorem flipFrame_shape (w : World) (cyclesLate : Int) (skipFlip : Bool) :
    flipFrame w cyclesLate skipFlip =
      { w with
        coreState := if skipFlip then w.coreState
          else if w.coreState = CoreState.CORE_RUNNING then CoreState.CORE_NEXTFRAME
          else w.coreState
        effects := w.effects ++
          (if skipFlip then []
           else [Effect.scheduleEvent (0 - cyclesLate) w.afterFlipEvent 0,
                 Effect.copyDisplayToOutput]) } := by
  cases skipFlip
  · by_cases hc : w.coreState = CoreState.CORE_RUNNING <;> simp [flipFrame, World.emit, hc]
  · simp [flipFrame]

/-- The whole of `hleEnterVblank` as one record update.  `ft` is the answer of
`DoFrameTiming`, `resumes` the calls made by the wake-up loop. -/
theorem hleEnterVblank_shape (w : World) (userdata : Nat) (cyclesLate : Int) (env : FrameEnv) :
    ∃ (ft : FrameTiming) (c n : Rat) (resumes : List Effect),
      (wakeLoop w.vblankWaitingThreads.length 0 w.vblankWaitingThreads
          (w.effects ++ [Effect.fireVblank])).2 = (w.effects ++ [Effect.fireVblank]) ++ resumes ∧
      (∀ e ∈ resumes, ∃ t, e = Effect.resumeThreadFromWait t 0) ∧
      hleEnterVblank w userdata cyclesLate env =
        { w with
          isVblank := 1
          vblankWaitingThreads := (wakeLoop w.vblankWaitingThreads.length 0 w.vblankWaitingThreads
            (w.effects ++ [Effect.fireVblank])).1
          framebuf := if w.framebufIsLatched then w.latchedFramebuf else w.framebuf
          framebufIsLatched := false
          numFrames := wrapS32 (w.numFrames + 1)
          skipDrawFrame := ft.skipFrame
          numSkippedFrames := if ft.skipFrame then wrapS32 (w.numSkippedFrames + 1) else 0
          curFrameTime := c
          nextFrameTime := n
          coreState := if ft.skipFlip then w.coreState
            else if w.coreState = CoreState.CORE_RUNNING then CoreState.CORE_NEXTFRAME
            else w.coreState
          effects := w.effects ++ ([Effect.fireVblank] ++ resumes ++
            [Effect.triggerVblankInterrupt,
              Effect.scheduleEvent (w.vblankCycles - cyclesLate) w.leaveVblankEvent
                (toU64 (wrapS32 (wrapS32 userdata + 1)))] ++
            (if w.framebufIsLatched then
              [Effect.setDisplayFramebuffer w.latchedFramebuf.topaddr
                w.latchedFramebuf.pspFramebufLinesize w.latchedFramebuf.pspFramebufFormat]
             else []) ++
            (if ft.skipFlip then []
             else [Effect.scheduleEvent (0 - cyclesLate) w.afterFlipEvent 0,
                   Effect.copyDisplayToOutput])) } := by
  obtain ⟨resumes, hr2, hr1, hw⟩ :=
    wakeWaitingThreads_shape (World.emit { w with isVblank := 1 } Effect.fireVblank)
  simp only [World.emit] at hr1 hw
  simp only [hleEnterVblank, World.emit, hw, commitLatchedFramebuf_shape]
  rw [DoFrameTiming_snd, countSkippedFrame_shape, flipFrame_shape]
  generalize DoFrameTiming _ env = d
  refine ⟨d.1, d.2.curFrameTime, d.2.nextFrameTime, resumes, hr1, hr2, ?_⟩
  cases hs : d.1.skipFrame <;> simp

end SceDisplay

namespace SceDisplay

/-! ## Waiters of one thread -/

theorem waitersOf_wakeAll (tid : Nat) (v : List WaitVBlankInfo) :
    waitersOf tid (wakeAll v).1 = (wakeAll (waitersOf tid v)).1 ∧
    resumeCount tid (wakeAll v).2 = resumeCount tid (wakeAll (waitersOf tid v)).2 := by
  induction v with
  | nil => simp [wakeAll, waitersOf, resumeCount]
  | cons x xs ih =>
    obtain ⟨ih1, ih2⟩ := ih
    simp only [waitersOf, resumeCount] at ih1 ih2 ⊢
    by_cases hx : x.threadID = tid <;> by_cases hc : wrapS32 (x.vcountUnblock - 1) = 0 <;>
      simp [wakeAll, hx, hc, ih1, ih2, List.filter_cons, Effect.isResumeOf]

theorem wakeAll_length (v : List WaitVBlankInfo) : (wakeAll v).1.length ≤ v.length := by
  induction v with
  | nil => simp [wakeAll]
  | cons x xs ih =>
    by_cases hc : wrapS32 (x.vcountUnblock - 1) = 0 <;> simp [wakeAll, hc] <;> omega

theorem resumeCount_append (tid : Nat) (a b : List Effect) :
    resumeCount tid (a ++ b) = resumeCount tid a + resumeCount tid b := by
  simp [resumeCount]

theorem hleEnterVblank_waiters (w : World) (userdata : Nat) (cyclesLate : Int) (env : FrameEnv)
    (hsz : w.vblankWaitingThreads.length < sizeT) :
    (hleEnterVblank w userdata cyclesLate env).vblankWaitingThreads
        = (wakeAll w.vblankWaitingThreads).1 ∧
    ∀ tid, resumeCount tid (hleEnterVblank w userdata cyclesLate env).effects
        = resumeCount tid w.effects + resumeCount tid (wakeAll w.vblankWaitingThreads).2 := by
  obtain ⟨ft, c, n, resumes, h1, _, h3⟩ := hleEnterVblank_shape w userdata cyclesLate env
  rw [wakeLoop_eq _ _ hsz] at h1 h3
  have hres : resumes = (wakeAll w.vblankWaitingThreads).2 := by
    simpa using h1.symm
  rw [h3]
  refine ⟨rfl, ?_⟩
  intro tid
  subst hres
  cases w.framebufIsLatched <;> cases ft.skipFlip <;>
    simp [resumeCount, Effect.isResumeOf, List.countP_cons]

end SceDisplay

namespace SceDisplay

theorem emit_effects (w : World) (e : Effect) : (w.emit e).effects = w.effects ++ [e] := rfl

theorem emit_vblankWaitingThreads (w : World) (e : Effect) :
    (w.emit e).vblankWaitingThreads = w.vblankWaitingThreads := rfl

/-- An event other than `hleEnterVblank`, not a wait call of thread `tid`, neither touches the
waiters of `tid` nor resumes it, and adds at most one waiter. -/
theorem step_other (w : World) (tid : Nat) (op : Op) (h1 : op.isEnterVblank = false)
    (h2 : op.waitCaller ≠ some tid) :
    waitersOf tid (step w op).vblankWaitingThreads = waitersOf tid w.vblankWaitingThreads ∧
    resumeCount tid (step w op).effects = resumeCount tid w.effects ∧
    (step w op).vblankWaitingThreads.length ≤ w.vblankWaitingThreads.length + 1 := by
  cases op <;>
    simp_all [step, Op.isEnterVblank, Op.waitCaller, hleLeaveVblank, hleAfterFlip,
      sceDisplayIsVblank, sceDisplaySetMode, sceDisplaySetFramebuf, sceDisplayGetFramebuf,
      sceDisplayWaitVblankStart, sceDisplayWaitVblank, sceDisplayWaitVblankStartMulti,
      sceDisplayWaitVblankCB, sceDisplayWaitVblankStartCB, sceDisplayWaitVblankStartMultiCB,
      sceDisplayGetVcount, sceDisplayGetCurrentHcount, sceDisplayGetAccumulatedHcount,
      sceDisplayGetFramePerSec, pushAndWait, World.emit, waitersOf, resumeCount,
      Effect.isResumeOf, List.filter_append] <;>
    (try split_ifs) <;>
    simp_all [World.emit, List.filter_append, Effect.isResumeOf]

end SceDisplay

namespace SceDisplay

theorem countEnter_cons (op : Op) (ops : List Op) :
    countEnter (op :: ops) = countEnter ops + (if op.isEnterVblank then 1 else 0) := by
  simp [countEnter, List.countP_cons]

theorem wakeAll_single_keep (tid : Nat) (c : Int) (h1 : 2 ≤ c) (h2 : c ≤ 2147483647) :
    wakeAll [⟨tid, c⟩] = ([⟨tid, c - 1⟩], []) := by
  have hw : wrapS32 (c - 1) = c - 1 := wrapS32_of_range _ (by omega) (by omega)
  have hne : c - 1 ≠ 0 := by omega
  simp [wakeAll, hw, hne]

theorem wakeAll_single_wake (tid : Nat) :
    wakeAll [⟨tid, 1⟩] = ([], [Effect.resumeThreadFromWait tid 0]) := by
  simp [wakeAll, wrapS32]

/-- A waiter `(tid, c)` survives every event sequence with fewer than `c` vblanks, its count
going down by one per vblank, and its thread is not resumed meanwhile. -/
theorem run_waiting (tid : Nat) (tr : List Op) :
    ∀ (w : World) (c : Int),
      waitersOf tid w.vblankWaitingThreads = [⟨tid, c⟩] →
      (countEnter tr : Int) < c → c ≤ 2147483647 →
      (∀ op ∈ tr, op.waitCaller ≠ some tid) →
      w.vblankWaitingThreads.length + tr.length < sizeT →
      waitersOf tid (run w tr).vblankWaitingThreads = [⟨tid, c - countEnter tr⟩] ∧
      resumeCount tid (run w tr).effects = resumeCount tid w.effects ∧
      (run w tr).vblankWaitingThreads.length ≤ w.vblankWaitingThreads.length + tr.length := by
  induction tr with
  | nil => intro w c hw _ _ _ _; simp [run, countEnter, hw]
  | cons op ops ih =>
    intro w c hw hc hmax hblocked hsz
    have hb1 : op.waitCaller ≠ some tid := hblocked op (List.mem_cons_self _ _)
    have hb2 : ∀ o ∈ ops, o.waitCaller ≠ some tid :=
      fun o ho => hblocked o (List.mem_cons_of_mem _ ho)
    have hlen : w.vblankWaitingThreads.length + ops.length + 1 < sizeT := by
      simpa [Nat.add_assoc] using hsz
    rw [countEnter_cons] at hc ⊢
    simp only [run]
    cases he : op.isEnterVblank with
    | true =>
      rw [he] at hc
      simp only [if_true, Nat.cast_add, Nat.cast_one] at hc ⊢
      have hcn : (0 : Int) ≤ (countEnter ops : Int) := Int.ofNat_nonneg _
      cases op <;> simp [Op.isEnterVblank] at he
      rename_i userdata cyclesLate env
      obtain ⟨hv, hr⟩ := hleEnterVblank_waiters w userdata cyclesLate env (by omega)
      have hk := wakeAll_single_keep tid c (by omega) hmax
      have hv2 : waitersOf tid (step w (Op.enterVblank userdata cyclesLate env)).vblankWaitingThreads
          = [⟨tid, c - 1⟩] := by
        simp only [step]
        rw [hv, (waitersOf_wakeAll tid _).1, hw, hk]
      have hr2 : resumeCount tid (step w (Op.enterVblank userdata cyclesLate env)).effects
          = resumeCount tid w.effects := by
        simp only [step]
        rw [hr tid, (waitersOf_wakeAll tid _).2, hw, hk]
        simp [resumeCount]
      have hl2 : (step w (Op.enterVblank userdata cyclesLate env)).vblankWaitingThreads.length
          ≤ w.vblankWaitingThreads.length := by
        simp only [step]
        rw [hv]
        exact wakeAll_length _
      obtain ⟨i1, i2, i3⟩ := ih _ (c - 1) hv2 (by omega) (by omega) hb2 (by omega)
      refine ⟨?_, ?_, ?_⟩
      · rw [i1]
        congr 2
        omega
      · rw [i2, hr2]
      · simp only [List.length_cons]
        omega
    | false =>
      rw [he] at hc
      simp only [Bool.false_eq_true, if_false, Nat.add_zero] at hc ⊢
      obtain ⟨s1, s2, s3⟩ := step_other w tid op he hb1
      obtain ⟨i1, i2, i3⟩ := ih (step w op) c (by rw [s1, hw]) hc hmax hb2 (by omega)
      refine ⟨i1, by rw [i2, s2], ?_⟩
      simp only [List.length_cons]
      omega

end SceDisplay

namespace SceDisplay

/-! ## C1: `sceDisplayWaitVblankStartMulti` -/

theorem run_append (w : World) (a b : List Op) : run w (a ++ b) = run (run w a) b := by
  induction a generalizing w with
  | nil => rfl
  | cons x xs ih => simp [run, ih]

theorem waitVblankStartMulti_waiting
    (w : World) (tid : Nat) (N : Int) (tr : List Op)
    (hmax : N ≤ 2147483647)
    (hfresh : waitersOf tid w.vblankWaitingThreads = [])
    (hblocked : ∀ op ∈ tr, op.waitCaller ≠ some tid)
    (hsize : w.vblankWaitingThreads.length + tr.length + 1 < sizeT)
    (hcount : (countEnter tr : Int) < N) :
    waitersOf tid (run (sceDisplayWaitVblankStartMulti w tid N).2 tr).vblankWaitingThreads
        = [⟨tid, N - countEnter tr⟩] ∧
    resumeCount tid (run (sceDisplayWaitVblankStartMulti w tid N).2 tr).effects
        = resumeCount tid w.effects ∧
    (run (sceDisplayWaitVblankStartMulti w tid N).2 tr).vblankWaitingThreads.length
        ≤ w.vblankWaitingThreads.length + 1 + tr.length := by
  have h0 : waitersOf tid (sceDisplayWaitVblankStartMulti w tid N).2.vblankWaitingThreads
      = [⟨tid, N⟩] := by
    simp only [waitersOf] at hfresh
    simp [sceDisplayWaitVblankStartMulti, pushAndWait, World.emit, waitersOf,
      List.filter_append, hfresh]
  have hl0 : (sceDisplayWaitVblankStartMulti w tid N).2.vblankWaitingThreads.length
      = w.vblankWaitingThreads.length + 1 := by
    simp [sceDisplayWaitVblankStartMulti, pushAndWait, World.emit]
  have hr0 : resumeCount tid (sceDisplayWaitVblankStartMulti w tid N).2.effects
      = resumeCount tid w.effects := by
    simp [sceDisplayWaitVblankStartMulti, pushAndWait, World.emit, resumeCount,
      Effect.isResumeOf]
  obtain ⟨i1, i2, i3⟩ := run_waiting tid tr _ N h0 hcount hmax hblocked (by omega)
  exact ⟨i1, by rw [i2, hr0], by omega⟩

/-- C1 (amended).  Let a running thread `tid` (no waiter of its own queued) call
`sceDisplayWaitVblankStartMulti(N)` with `1 ≤ N`, in any phase and with any other waiters
queued, and let any events follow in which `tid`, being blocked, issues no further wait call
(the waiter vector staying within the range of its `size_t` index).  After a sequence with
fewer than `N` `hleEnterVblank` events the thread has exactly one waiter, with count `N`
minus the number of vblanks so far, and has not been resumed; after a sequence that ends with
its `N`-th `hleEnterVblank` the waiter is gone and the thread has been resumed exactly
once. -/
theorem waitVblankStartMulti_resumed_on_Nth_vblank
    (w : World) (tid : Nat) (N : Int) (tr : List Op)
    (hN : 1 ≤ N) (hmax : N ≤ 2147483647)
    (hfresh : waitersOf tid w.vblankWaitingThreads = [])
    (hblocked : ∀ op ∈ tr, op.waitCaller ≠ some tid)
    (hsize : w.vblankWaitingThreads.length + tr.length + 1 < sizeT) :
    ((countEnter tr : Int) < N →
      waitersOf tid (run (sceDisplayWaitVblankStartMulti w tid N).2 tr).vblankWaitingThreads
        = [⟨tid, N - countEnter tr⟩] ∧
      resumeCount tid (run (sceDisplayWaitVblankStartMulti w tid N).2 tr).effects
        = resumeCount tid w.effects) ∧
    ((countEnter tr : Int) = N → endsAtVblank tr = true →
      waitersOf tid (run (sceDisplayWaitVblankStartMulti w tid N).2 tr).vblankWaitingThreads
        = [] ∧
      resumeCount tid (run (sceDisplayWaitVblankStartMulti w tid N).2 tr).effects
        = resumeCount tid w.effects + 1) := by
  refine ⟨fun hcount => ?_, fun hcount hend => ?_⟩
  · obtain ⟨i1, i2, _⟩ :=
      waitVblankStartMulti_waiting w tid N tr hmax hfresh hblocked hsize hcount
    exact ⟨i1, i2⟩
  · rcases List.eq_nil_or_concat tr with hnil | ⟨init, op, htr⟩
    · subst hnil
      simp [countEnter] at hcount
      omega
    · subst htr
      have hop : op.isEnterVblank = true := by
        simpa [endsAtVblank, List.getLast?_concat] using hend
      have hci : (countEnter init : Int) = N - 1 := by
        simp only [countEnter, List.concat_eq_append, List.countP_append, List.countP_cons,
          List.countP_nil, hop, if_true] at hcount
        push_cast at hcount
        simp only [countEnter]
        omega
      have hbl : ∀ o ∈ init, o.waitCaller ≠ some tid := fun o ho =>
        hblocked o (by simp [ho])
      have hsz : w.vblankWaitingThreads.length + init.length + 1 < sizeT := by
        simp at hsize
        omega
      obtain ⟨i1, i2, i3⟩ :=
        waitVblankStartMulti_waiting w tid N init hmax hfresh hbl hsz (by omega)
      cases op <;> simp [Op.isEnterVblank] at hop
      rename_i userdata cyclesLate env
      obtain ⟨hv, hr⟩ := hleEnterVblank_waiters
        (run (sceDisplayWaitVblankStartMulti w tid N).2 init) userdata cyclesLate env
        (by simp at hsize; omega)
      have hone : N - (countEnter init : Int) = 1 := by omega
      simp only [List.concat_eq_append, run_append, run, step]
      rw [hv, hr tid, (waitersOf_wakeAll tid _).1, (waitersOf_wakeAll tid _).2, i1, hone,
        wakeAll_single_wake, i2]
      simp [resumeCount, Effect.isResumeOf]

/-- C1, witness: thread 7 waits for 2 vblanks on a freshly initialised display; the sequence
enter, leave, enter ends with its second vblank, after which the waiter is gone and the thread
resumed once. -/
theorem waitVblankStartMulti_resumed_on_Nth_vblank_witness :
    waitersOf 7 (run (sceDisplayWaitVblankStartMulti bootWorld 7 2).2
        [Op.enterVblank 0 0 idleEnv, Op.leaveVblank 1 0,
         Op.enterVblank 1 0 idleEnv]).vblankWaitingThreads = [] ∧
    resumeCount 7 (run (sceDisplayWaitVblankStartMulti bootWorld 7 2).2
        [Op.enterVblank 0 0 idleEnv, Op.leaveVblank 1 0,
         Op.enterVblank 1 0 idleEnv]).effects = resumeCount 7 bootWorld.effects + 1 :=
  (waitVblankStartMulti_resumed_on_Nth_vblank bootWorld 7 2
    [Op.enterVblank 0 0 idleEnv, Op.leaveVblank 1 0, Op.enterVblank 1 0 idleEnv]
    (by decide) (by decide) (by decide) (by decide) (by decide)).2 (by decide) (by decide)

/-- C1, counterexample: with `N = 0` the sequence with zero vblanks does not leave the caller
removed and resumed once; the thread is still queued and has never been resumed after 0, 1, 2
and 3 `hleEnterVblank` events, its count going 0, -1, -2, -3. -/
theorem waitVblankStartMulti_zero_never_resumed :
    ((countEnter [] : Int) = 0 ∧ endsAtVblank [] = true ∧
      ¬ (waitersOf 7 (run (sceDisplayWaitVblankStartMulti bootWorld 7 0).2
            []).vblankWaitingThreads = [] ∧
         resumeCount 7 (run (sceDisplayWaitVblankStartMulti bootWorld 7 0).2 []).effects
            = resumeCount 7 bootWorld.effects + 1)) ∧
    (waitersOf 7 (sceDisplayWaitVblankStartMulti bootWorld 7 0).2.vblankWaitingThreads = [⟨7, 0⟩] ∧
      resumeCount 7 (sceDisplayWaitVblankStartMulti bootWorld 7 0).2.effects = 0) ∧
    (waitersOf 7 (run (sceDisplayWaitVblankStartMulti bootWorld 7 0).2
        [Op.enterVblank 0 0 idleEnv]).vblankWaitingThreads = [⟨7, -1⟩] ∧
      resumeCount 7 (run (sceDisplayWaitVblankStartMulti bootWorld 7 0).2
        [Op.enterVblank 0 0 idleEnv]).effects = 0) ∧
    (waitersOf 7 (run (sceDisplayWaitVblankStartMulti bootWorld 7 0).2
        [Op.enterVblank 0 0 idleEnv, Op.leaveVblank 1 0,
         Op.enterVblank 1 0 idleEnv]).vblankWaitingThreads = [⟨7, -2⟩] ∧
      resumeCount 7 (run (sceDisplayWaitVblankStartMulti bootWorld 7 0).2
        [Op.enterVblank 0 0 idleEnv, Op.leaveVblank 1 0,
         Op.enterVblank 1 0 idleEnv]).effects = 0) ∧
    (waitersOf 7 (run (sceDisplayWaitVblankStartMulti bootWorld 7 0).2
        [Op.enterVblank 0 0 idleEnv, Op.leaveVblank 1 0, Op.enterVblank 1 0 idleEnv,
         Op.leaveVblank 2 0, Op.enterVblank 2 0 idleEnv]).vblankWaitingThreads = [⟨7, -3⟩] ∧
      resumeCount 7 (run (sceDisplayWaitVblankStartMulti bootWorld 7 0).2
        [Op.enterVblank 0 0 idleEnv, Op.leaveVblank 1 0, Op.enterVblank 1 0 idleEnv,
         Op.leaveVblank 2 0, Op.enterVblank 2 0 idleEnv]).effects = 0) := by
  decide

end SceDisplay

namespace SceDisplay

/-! ## C2: `sceDisplayWaitVblank` -/

/-- C2.  `sceDisplayWaitVblank` called while `isVblank` is nonzero returns 1 and changes
nothing (no waiter, no suspension); called while `isVblank` is 0 it returns 0, appends the
one waiter (current thread, count 1) at the end of `vblankWaitingThreads` and suspends the
current thread, without callbacks. -/
theorem sceDisplayWaitVblank_spec (w : World) (cur : Nat) :
    (w.isVblank ≠ 0 → sceDisplayWaitVblank w cur = (1, w)) ∧
    (w.isVblank = 0 →
      (sceDisplayWaitVblank w cur).1 = 0 ∧
      (sceDisplayWaitVblank w cur).2.vblankWaitingThreads
        = w.vblankWaitingThreads ++ [⟨cur, 1⟩] ∧
      (sceDisplayWaitVblank w cur).2.effects
        = w.effects ++ [Effect.waitCurThread cur false]) := by
  constructor
  · intro h
    simp [sceDisplayWaitVblank, h]
  · intro h
    simp [sceDisplayWaitVblank, h, pushAndWait, World.emit]

/-- C2, witness: thread 7 on a freshly initialised display (active phase) and on the same
display after its first `hleEnterVblank` (vblank phase). -/
theorem sceDisplayWaitVblank_spec_witness :
    ((sceDisplayWaitVblank bootWorld 7).1 = 0 ∧
      (sceDisplayWaitVblank bootWorld 7).2.vblankWaitingThreads
        = bootWorld.vblankWaitingThreads ++ [⟨7, 1⟩] ∧
      (sceDisplayWaitVblank bootWorld 7).2.effects
        = bootWorld.effects ++ [Effect.waitCurThread 7 false]) ∧
    sceDisplayWaitVblank (hleEnterVblank bootWorld 0 0 idleEnv) 7
      = (1, hleEnterVblank bootWorld 0 0 idleEnv) :=
  ⟨(sceDisplayWaitVblank_spec bootWorld 7).2 (by decide),
   (sceDisplayWaitVblank_spec (hleEnterVblank bootWorld 0 0 idleEnv) 7).1 (by decide)⟩

/-! ## C3 - C6: `sceDisplaySetFramebuf` -/

theorem hleEnterVblank_framebuf (w : World) (userdata : Nat) (cyclesLate : Int) (env : FrameEnv) :
    (hleEnterVblank w userdata cyclesLate env).framebuf
        = (if w.framebufIsLatched then w.latchedFramebuf else w.framebuf) ∧
    (hleEnterVblank w userdata cyclesLate env).framebufIsLatched = false ∧
    (hleEnterVblank w userdata cyclesLate env).latchedFramebuf = w.latchedFramebuf ∧
    (hleEnterVblank w userdata cyclesLate env).vCount = w.vCount ∧
    (hleEnterVblank w userdata cyclesLate env).hCount = w.hCount ∧
    (hleEnterVblank w userdata cyclesLate env).isVblank = 1 := by
  obtain ⟨ft, c, n, resumes, _, _, h3⟩ := hleEnterVblank_shape w userdata cyclesLate env
  rw [h3]
  exact ⟨rfl, rfl, rfl, rfl, rfl, rfl⟩

/-- Unless it is `hleEnterVblank` or an immediate `sceDisplaySetFramebuf`, an event leaves
the active descriptor alone. -/
theorem step_framebuf (w : World) (op : Op) (h1 : op.isEnterVblank = false)
    (h2 : op.isImmediateSetFramebuf = false) : (step w op).framebuf = w.framebuf := by
  cases op <;>
    simp_all [step, Op.isEnterVblank, Op.isImmediateSetFramebuf, hleLeaveVblank, hleAfterFlip,
      sceDisplayIsVblank, sceDisplaySetMode, sceDisplaySetFramebuf, sceDisplayGetFramebuf,
      sceDisplayWaitVblankStart, sceDisplayWaitVblank, sceDisplayWaitVblankStartMulti,
      sceDisplayWaitVblankCB, sceDisplayWaitVblankStartCB, sceDisplayWaitVblankStartMultiCB,
      sceDisplayGetVcount, sceDisplayGetCurrentHcount, sceDisplayGetAccumulatedHcount,
      sceDisplayGetFramePerSec, pushAndWait, World.emit] <;>
    (try split_ifs) <;> simp_all [World.emit]

theorem run_framebuf (tr : List Op) :
    ∀ (w : World), (∀ op ∈ tr, op.isEnterVblank = false ∧ op.isImmediateSetFramebuf = false) →
      (run w tr).framebuf = w.framebuf := by
  induction tr with
  | nil => intro w _; rfl
  | cons op ops ih =>
    intro w h
    simp only [run]
    rw [ih _ (fun o ho => h o (List.mem_cons_of_mem _ ho))]
    exact step_framebuf w op (h op (List.mem_cons_self _ _)).1 (h op (List.mem_cons_self _ _)).2

/-- C3.  For every address, stride and format, `sceDisplaySetFramebuf` with
`sync = PSP_DISPLAY_SETBUF_NEXTFRAME` leaves the active descriptor `framebuf` unchanged, and
it stays unchanged through every further sequence of events that contains neither an
`hleEnterVblank` nor an immediate `sceDisplaySetFramebuf`. -/
theorem setFramebuf_nextFrame_keeps_framebuf (w : World) (topaddr : Nat)
    (linesize pixelformat sync : Int) (tr : List Op)
    (hsync : sync = PSP_DISPLAY_SETBUF_NEXTFRAME)
    (htr : ∀ op ∈ tr, op.isEnterVblank = false ∧ op.isImmediateSetFramebuf = false) :
    (sceDisplaySetFramebuf w topaddr linesize pixelformat sync).2.framebuf = w.framebuf ∧
    (run (sceDisplaySetFramebuf w topaddr linesize pixelformat sync).2 tr).framebuf
      = w.framebuf := by
  have h0 : (sceDisplaySetFramebuf w topaddr linesize pixelformat sync).2.framebuf
      = w.framebuf := by
    subst hsync
    by_cases ht : topaddr = 0 <;>
      simp [sceDisplaySetFramebuf, PSP_DISPLAY_SETBUF_NEXTFRAME, PSP_DISPLAY_SETBUF_IMMEDIATE, ht]
  exact ⟨h0, by rw [run_framebuf tr _ htr, h0]⟩

/-- C3, witness: a deferred buffer change on a fresh display followed by a counter read, a
leave-vblank event, a second deferred change, a wait call and a framebuffer query. -/
theorem setFramebuf_nextFrame_keeps_framebuf_witness :
    (sceDisplaySetFramebuf bootWorld 0x04100000 512 1 1).2.framebuf = bootWorld.framebuf ∧
    (run (sceDisplaySetFramebuf bootWorld 0x04100000 512 1 1).2
      [Op.getCurrentHcount, Op.leaveVblank 1 0, Op.setFramebuf 0x04200000 512 3 1,
       Op.waitVblankStart 3, Op.getFramebuf 0x08000000 0x08000004 0x08000008 1]).framebuf
      = bootWorld.framebuf :=
  setFramebuf_nextFrame_keeps_framebuf bootWorld 0x04100000 512 1 1
    [Op.getCurrentHcount, Op.leaveVblank 1 0, Op.setFramebuf 0x04200000 512 3 1,
     Op.waitVblankStart 3, Op.getFramebuf 0x08000000 0x08000004 0x08000008 1]
    (by decide) (by decide)

/-- C4.  For every nonzero address, `sceDisplaySetFramebuf` with
`sync = PSP_DISPLAY_SETBUF_IMMEDIATE` returns 0, sets `framebuf` to exactly
(address, format, stride), makes exactly one outgoing call, `gpu->SetDisplayFramebuffer`
with those values, and leaves `latchedFramebuf` and `framebufIsLatched` unchanged. -/
theorem setFramebuf_immediate (w : World) (topaddr : Nat) (linesize pixelformat : Int)
    (h : topaddr ≠ 0) :
    (sceDisplaySetFramebuf w topaddr linesize pixelformat PSP_DISPLAY_SETBUF_IMMEDIATE).1 = 0 ∧
    (sceDisplaySetFramebuf w topaddr linesize pixelformat PSP_DISPLAY_SETBUF_IMMEDIATE).2.framebuf
      = ⟨topaddr, pixelformat, linesize⟩ ∧
    (sceDisplaySetFramebuf w topaddr linesize pixelformat PSP_DISPLAY_SETBUF_IMMEDIATE).2.effects
      = w.effects ++ [Effect.setDisplayFramebuffer topaddr linesize pixelformat] ∧
    (sceDisplaySetFramebuf w topaddr linesize pixelformat
      PSP_DISPLAY_SETBUF_IMMEDIATE).2.latchedFramebuf = w.latchedFramebuf ∧
    (sceDisplaySetFramebuf w topaddr linesize pixelformat
      PSP_DISPLAY_SETBUF_IMMEDIATE).2.framebufIsLatched = w.framebufIsLatched := by
  simp [sceDisplaySetFramebuf, h, World.emit]

/-- C4, witness: an immediate switch of a fresh display to a 512-wide 5551 buffer. -/
theorem setFramebuf_immediate_witness :
    (sceDisplaySetFramebuf bootWorld 0x04100000 512 1 PSP_DISPLAY_SETBUF_IMMEDIATE).1 = 0 ∧
    (sceDisplaySetFramebuf bootWorld 0x04100000 512 1 PSP_DISPLAY_SETBUF_IMMEDIATE).2.framebuf
      = ⟨0x04100000, 1, 512⟩ ∧
    (sceDisplaySetFramebuf bootWorld 0x04100000 512 1 PSP_DISPLAY_SETBUF_IMMEDIATE).2.effects
      = bootWorld.effects ++ [Effect.setDisplayFramebuffer 0x04100000 512 1] ∧
    (sceDisplaySetFramebuf bootWorld 0x04100000 512 1
      PSP_DISPLAY_SETBUF_IMMEDIATE).2.latchedFramebuf = bootWorld.latchedFramebuf ∧
    (sceDisplaySetFramebuf bootWorld 0x04100000 512 1
      PSP_DISPLAY_SETBUF_IMMEDIATE).2.framebufIsLatched = bootWorld.framebufIsLatched :=
  setFramebuf_immediate bootWorld 0x04100000 512 1 (by decide)

end SceDisplay

namespace SceDisplay

theorem step_latched (w : World) (op : Op) (h1 : op.isEnterVblank = false)
    (h2 : op.isSetFramebuf = false) :
    (step w op).latchedFramebuf = w.latchedFramebuf ∧
    (step w op).framebufIsLatched = w.framebufIsLatched := by
  cases op <;>
    simp_all [step, Op.isEnterVblank, Op.isSetFramebuf, hleLeaveVblank, hleAfterFlip,
      sceDisplayIsVblank, sceDisplaySetMode, sceDisplayGetFramebuf,
      sceDisplayWaitVblankStart, sceDisplayWaitVblank, sceDisplayWaitVblankStartMulti,
      sceDisplayWaitVblankCB, sceDisplayWaitVblankStartCB, sceDisplayWaitVblankStartMultiCB,
      sceDisplayGetVcount, sceDisplayGetCurrentHcount, sceDisplayGetAccumulatedHcount,
      sceDisplayGetFramePerSec, pushAndWait, World.emit] <;>
    (try split_ifs) <;> simp_all [World.emit]

theorem run_latched (tr : List Op) :
    ∀ (w : World), (∀ op ∈ tr, op.isEnterVblank = false ∧ op.isSetFramebuf = false) →
      (run w tr).latchedFramebuf = w.latchedFramebuf ∧
      (run w tr).framebufIsLatched = w.framebufIsLatched := by
  induction tr with
  | nil => intro w _; exact ⟨rfl, rfl⟩
  | cons op ops ih =>
    intro w h
    simp only [run]
    obtain ⟨i1, i2⟩ := ih (step w op) (fun o ho => h o (List.mem_cons_of_mem _ ho))
    obtain ⟨s1, s2⟩ := step_latched w op (h op (List.mem_cons_self _ _)).1
      (h op (List.mem_cons_self _ _)).2
    exact ⟨by rw [i1, s1], by rw [i2, s2]⟩

/-- The `gpu->SetDisplayFramebuffer` calls made by one `hleEnterVblank`. -/
theorem hleEnterVblank_notifications (w : World) (userdata : Nat) (cyclesLate : Int)
    (env : FrameEnv) :
    (newEffects w (hleEnterVblank w userdata cyclesLate env)).filter
        Effect.isSetDisplayFramebuffer
      = if w.framebufIsLatched then
          [Effect.setDisplayFramebuffer w.latchedFramebuf.topaddr
            w.latchedFramebuf.pspFramebufLinesize w.latchedFramebuf.pspFramebufFormat]
        else [] := by
  obtain ⟨ft, c, n, resumes, _, h2, h3⟩ := hleEnterVblank_shape w userdata cyclesLate env
  have hres : resumes.filter Effect.isSetDisplayFramebuffer = [] := by
    rw [List.filter_eq_nil_iff]
    intro e he
    obtain ⟨t, rfl⟩ := h2 e he
    simp [Effect.isSetDisplayFramebuffer]
  rw [h3]
  simp only [newEffects, List.drop_left]
  cases w.framebufIsLatched <;> cases ft.skipFlip <;>
    simp [List.filter_append, hres, Effect.isSetDisplayFramebuffer, List.filter_cons]

/-! ## C5: commit of the latched descriptor -/

/-- C5.  After `sceDisplaySetFramebuf` with a nonzero address and
`sync = PSP_DISPLAY_SETBUF_NEXTFRAME`, followed by any events other than `hleEnterVblank` and
`sceDisplaySetFramebuf`, the next `hleEnterVblank` makes `framebuf` equal to
(address, format, stride), clears `framebufIsLatched`, and notifies the backend exactly once,
with the committed descriptor.  If `framebufIsLatched` is false on entry, `hleEnterVblank`
leaves `framebuf` unchanged and makes no `gpu->SetDisplayFramebuffer` call. -/
theorem latched_framebuf_committed_at_vblank (w : World) (topaddr : Nat)
    (linesize pixelformat sync : Int) (tr : List Op) (userdata : Nat) (cyclesLate : Int)
    (env : FrameEnv)
    (haddr : topaddr ≠ 0) (hsync : sync = PSP_DISPLAY_SETBUF_NEXTFRAME)
    (htr : ∀ op ∈ tr, op.isEnterVblank = false ∧ op.isSetFramebuf = false) :
    ((hleEnterVblank (run (sceDisplaySetFramebuf w topaddr linesize pixelformat sync).2 tr)
        userdata cyclesLate env).framebuf = ⟨topaddr, pixelformat, linesize⟩ ∧
      (hleEnterVblank (run (sceDisplaySetFramebuf w topaddr linesize pixelformat sync).2 tr)
        userdata cyclesLate env).framebufIsLatched = false ∧
      (newEffects (run (sceDisplaySetFramebuf w topaddr linesize pixelformat sync).2 tr)
        (hleEnterVblank (run (sceDisplaySetFramebuf w topaddr linesize pixelformat sync).2 tr)
          userdata cyclesLate env)).filter Effect.isSetDisplayFramebuffer
        = [Effect.setDisplayFramebuffer topaddr linesize pixelformat]) ∧
    (w.framebufIsLatched = false →
      (hleEnterVblank w userdata cyclesLate env).framebuf = w.framebuf ∧
      (newEffects w (hleEnterVblank w userdata cyclesLate env)).filter
        Effect.isSetDisplayFramebuffer = []) := by
  constructor
  · have h0 : (sceDisplaySetFramebuf w topaddr linesize pixelformat sync).2.latchedFramebuf
          = ⟨topaddr, pixelformat, linesize⟩ ∧
        (sceDisplaySetFramebuf w topaddr linesize pixelformat sync).2.framebufIsLatched
          = true := by
      subst hsync
      simp [sceDisplaySetFramebuf, PSP_DISPLAY_SETBUF_NEXTFRAME, PSP_DISPLAY_SETBUF_IMMEDIATE,
        haddr]
    obtain ⟨r1, r2⟩ := run_latched tr _ htr
    rw [h0.1] at r1
    rw [h0.2] at r2
    obtain ⟨e1, e2, _⟩ := hleEnterVblank_framebuf
      (run (sceDisplaySetFramebuf w topaddr linesize pixelformat sync).2 tr) userdata cyclesLate
      env
    refine ⟨?_, e2, ?_⟩
    · rw [e1, r2, r1]
      simp
    · rw [hleEnterVblank_notifications, r2, r1]
      simp
  · intro hl
    obtain ⟨e1, _⟩ := hleEnterVblank_framebuf w userdata cyclesLate env
    refine ⟨?_, ?_⟩
    · rw [e1, hl]
      simp
    · rw [hleEnterVblank_notifications, hl]
      simp

/-- C5, witness: a deferred change on a fresh display, two unrelated calls, then the vblank;
the fresh display itself has nothing latched. -/
theorem latched_framebuf_committed_at_vblank_witness :
    ((hleEnterVblank (run (sceDisplaySetFramebuf bootWorld 0x04100000 512 1 1).2
        [Op.getCurrentHcount, Op.waitVblankStart 3]) 0 0 idleEnv).framebuf
        = ⟨0x04100000, 1, 512⟩ ∧
      (hleEnterVblank (run (sceDisplaySetFramebuf bootWorld 0x04100000 512 1 1).2
        [Op.getCurrentHcount, Op.waitVblankStart 3]) 0 0 idleEnv).framebufIsLatched = false ∧
      (newEffects (run (sceDisplaySetFramebuf bootWorld 0x04100000 512 1 1).2
          [Op.getCurrentHcount, Op.waitVblankStart 3])
        (hleEnterVblank (run (sceDisplaySetFramebuf bootWorld 0x04100000 512 1 1).2
          [Op.getCurrentHcount, Op.waitVblankStart 3]) 0 0 idleEnv)).filter
          Effect.isSetDisplayFramebuffer
        = [Effect.setDisplayFramebuffer 0x04100000 512 1]) ∧
    ((hleEnterVblank bootWorld 0 0 idleEnv).framebuf = bootWorld.framebuf ∧
      (newEffects bootWorld (hleEnterVblank bootWorld 0 0 idleEnv)).filter
        Effect.isSetDisplayFramebuffer = []) :=
  ⟨(latched_framebuf_committed_at_vblank bootWorld 0x04100000 512 1 1
      [Op.getCurrentHcount, Op.waitVblankStart 3] 0 0 idleEnv
      (by decide) (by decide) (by decide)).1,
   (latched_framebuf_committed_at_vblank bootWorld 0x04100000 512 1 1
      [Op.getCurrentHcount, Op.waitVblankStart 3] 0 0 idleEnv
      (by decide) (by decide) (by decide)).2 (by decide)⟩

/-! ## C6: the null address -/

/-- C6.  For every stride, format and sync mode, `sceDisplaySetFramebuf` with address 0
returns 0 and changes nothing at all: `framebuf`, `latchedFramebuf` and `framebufIsLatched`
keep their values and no call (in particular no backend notification) is made. -/
theorem setFramebuf_null_address (w : World) (linesize pixelformat sync : Int) :
    sceDisplaySetFramebuf w 0 linesize pixelformat sync = (0, w) ∧
    (sceDisplaySetFramebuf w 0 linesize pixelformat sync).1 = 0 ∧
    (sceDisplaySetFramebuf w 0 linesize pixelformat sync).2.framebuf = w.framebuf ∧
    (sceDisplaySetFramebuf w 0 linesize pixelformat sync).2.latchedFramebuf
      = w.latchedFramebuf ∧
    (sceDisplaySetFramebuf w 0 linesize pixelformat sync).2.framebufIsLatched
      = w.framebufIsLatched ∧
    (sceDisplaySetFramebuf w 0 linesize pixelformat sync).2.effects = w.effects := by
  have h : sceDisplaySetFramebuf w 0 linesize pixelformat sync = (0, w) := by
    simp [sceDisplaySetFramebuf]
  rw [h]
  exact ⟨rfl, rfl, rfl, rfl, rfl, rfl⟩

/-! ## C7: the counters -/

theorem step_vCount (w : World) (op : Op) :
    (step w op).vCount = if op.isLeaveVblank then wrapS32 (w.vCount + 1) else w.vCount := by
  cases op
  case enterVblank userdata cyclesLate env =>
    simp [step, Op.isLeaveVblank, (hleEnterVblank_framebuf w userdata cyclesLate env).2.2.2.1]
  all_goals
    simp [step, Op.isLeaveVblank, hleLeaveVblank, hleAfterFlip,
      sceDisplayIsVblank, sceDisplaySetMode, sceDisplaySetFramebuf, sceDisplayGetFramebuf,
      sceDisplayWaitVblankStart, sceDisplayWaitVblank, sceDisplayWaitVblankStartMulti,
      sceDisplayWaitVblankCB, sceDisplayWaitVblankStartCB, sceDisplayWaitVblankStartMultiCB,
      sceDisplayGetVcount, sceDisplayGetCurrentHcount, sceDisplayGetAccumulatedHcount,
      sceDisplayGetFramePerSec, pushAndWait, World.emit] <;>
    (try split_ifs) <;> simp_all [World.emit]

theorem run_vCount (tr : List Op) :
    ∀ (w : World), -2147483648 ≤ w.vCount → w.vCount + countLeave tr ≤ 2147483647 →
      (run w tr).vCount = w.vCount + countLeave tr := by
  induction tr with
  | nil => intro w _ _; simp [run, countLeave]
  | cons op ops ih =>
    intro w hmin hmax
    have hcl : countLeave (op :: ops) = countLeave ops + (if op.isLeaveVblank then 1 else 0) := by
      simp [countLeave, List.countP_cons]
    rw [hcl] at hmax ⊢
    simp only [run]
    have hs := step_vCount w op
    cases hl : op.isLeaveVblank with
    | true =>
      rw [hl] at hs hmax
      simp only [if_true, Nat.cast_add, Nat.cast_one] at hs hmax ⊢
      have hw : wrapS32 (w.vCount + 1) = w.vCount + 1 := wrapS32_of_range _ (by omega) (by omega)
      rw [hw] at hs
      rw [ih (step w op) (by omega) (by omega), hs]
      omega
    | false =>
      rw [hl] at hs hmax
      simp only [Bool.false_eq_true, if_false, Nat.add_zero] at hs hmax ⊢
      rw [ih (step w op) (by omega) (by omega), hs]

/-- C7.  With `vCount` a C `int` that does not overflow: over every sequence of clock events
and guest calls `vCount` grows by exactly the number of `hleLeaveVblank` events in it;
`hleEnterVblank` does not change it, `hleLeaveVblank` adds 1, so it grows by exactly 1 over
a full enter + leave cycle with any guest calls in between; and `hCount` is 0 right after
every `hleLeaveVblank`, whatever ran before it. -/
theorem vCount_counts_leaveVblank (w : World) (tr guestA guestB : List Op)
    (userdataE userdataL : Nat) (cyclesLateE cyclesLateL : Int) (env : FrameEnv)
    (hmin : -2147483648 ≤ w.vCount) (hmax : w.vCount + countLeave tr ≤ 2147483647)
    (hcycle : w.vCount + 1 ≤ 2147483647)
    (hguest : ∀ op ∈ guestA ++ guestB, op.isLeaveVblank = false) :
    (run w tr).vCount = w.vCount + countLeave tr ∧
    (hleEnterVblank w userdataE cyclesLateE env).vCount = w.vCount ∧
    (hleLeaveVblank w userdataL cyclesLateL).vCount = w.vCount + 1 ∧
    (run w (Op.enterVblank userdataE cyclesLateE env :: guestA ++
        Op.leaveVblank userdataL cyclesLateL :: guestB)).vCount = w.vCount + 1 ∧
    (hleLeaveVblank (run w tr) userdataL cyclesLateL).hCount = 0 := by
  have hw : wrapS32 (w.vCount + 1) = w.vCount + 1 := wrapS32_of_range _ (by omega) (by omega)
  have hcount : countLeave (Op.enterVblank userdataE cyclesLateE env :: guestA ++
      Op.leaveVblank userdataL cyclesLateL :: guestB) = 1 := by
    have h1 : List.countP Op.isLeaveVblank guestA = 0 :=
      List.countP_eq_zero.2 (fun o ho => by simp [hguest o (by simp [ho])])
    have h2 : List.countP Op.isLeaveVblank guestB = 0 :=
      List.countP_eq_zero.2 (fun o ho => by simp [hguest o (by simp [ho])])
    simp [countLeave, List.countP_cons, List.countP_append, Op.isLeaveVblank, h1, h2]
  refine ⟨run_vCount tr w hmin hmax, (hleEnterVblank_framebuf w _ _ _).2.2.2.1, ?_, ?_, ?_⟩
  · simp [hleLeaveVblank, World.emit, hw]
  · rw [run_vCount _ w hmin (by rw [hcount]; exact_mod_cast hcycle), hcount]
    simp
  · simp [hleLeaveVblank, World.emit]

/-- C7, witness: two full cycles on a fresh display with horizontal-count reads in between. -/
theorem vCount_counts_leaveVblank_witness :
    (run bootWorld [Op.enterVblank 0 0 idleEnv, Op.getCurrentHcount, Op.leaveVblank 1 0,
        Op.getCurrentHcount, Op.getCurrentHcount, Op.enterVblank 1 0 idleEnv,
        Op.leaveVblank 2 0]).vCount
      = bootWorld.vCount + countLeave [Op.enterVblank 0 0 idleEnv, Op.getCurrentHcount,
        Op.leaveVblank 1 0, Op.getCurrentHcount, Op.getCurrentHcount,
        Op.enterVblank 1 0 idleEnv, Op.leaveVblank 2 0] ∧
    (hleEnterVblank bootWorld 0 0 idleEnv).vCount = bootWorld.vCount ∧
    (hleLeaveVblank bootWorld 1 0).vCount = bootWorld.vCount + 1 ∧
    (run bootWorld (Op.enterVblank 0 0 idleEnv :: [Op.getCurrentHcount] ++
        Op.leaveVblank 1 0 :: [Op.getCurrentHcount, Op.getVcount])).vCount
      = bootWorld.vCount + 1 ∧
    (hleLeaveVblank (run bootWorld [Op.enterVblank 0 0 idleEnv, Op.getCurrentHcount,
        Op.leaveVblank 1 0, Op.getCurrentHcount, Op.getCurrentHcount,
        Op.enterVblank 1 0 idleEnv, Op.leaveVblank 2 0]) 1 0).hCount = 0 :=
  vCount_counts_leaveVblank bootWorld
    [Op.enterVblank 0 0 idleEnv, Op.getCurrentHcount, Op.leaveVblank 1 0,
     Op.getCurrentHcount, Op.getCurrentHcount, Op.enterVblank 1 0 idleEnv, Op.leaveVblank 2 0]
    [Op.getCurrentHcount] [Op.getCurrentHcount, Op.getVcount] 0 1 0 0 idleEnv
    (by decide) (by decide) (by decide) (by decide)

end SceDisplay

/-! ## Guest memory -/

namespace Memory

theorem valid_Write_U32 (m : Memory) (data address : Nat) :
    (m.Write_U32 data address).valid = m.valid := by
  unfold Write_U32
  split <;> rfl

theorem Read_Write_same (m : Memory) (data address : Nat) (hv : m.valid address = true)
    (hd : data < 4294967296) : (m.Write_U32 data address).Read_U32 address = data := by
  simp [Read_U32, Write_U32, hv]
  omega

theorem Read_Write_disjoint (m : Memory) (data a b : Nat) (h : b + 4 ≤ a ∨ a + 4 ≤ b) :
    (m.Write_U32 data a).Read_U32 b = m.Read_U32 b := by
  unfold Write_U32
  split
  · simp only [Read_U32]
    have h0 : b ≠ a := by omega
    have h1 : b ≠ a + 1 := by omega
    have h2 : b ≠ a + 2 := by omega
    have h3 : b ≠ a + 3 := by omega
    have h4 : b + 1 ≠ a := by omega
    have h5 : b + 1 ≠ a + 1 := by omega
    have h6 : b + 1 ≠ a + 2 := by omega
    have h7 : b + 1 ≠ a + 3 := by omega
    have h8 : b + 2 ≠ a := by omega
    have h9 : b + 2 ≠ a + 1 := by omega
    have h10 : b + 2 ≠ a + 2 := by omega
    have h11 : b + 2 ≠ a + 3 := by omega
    have h12 : b + 3 ≠ a := by omega
    have h13 : b + 3 ≠ a + 1 := by omega
    have h14 : b + 3 ≠ a + 2 := by omega
    have h15 : b + 3 ≠ a + 3 := by omega
    simp [h0, h1, h2, h3, h4, h5, h6, h7, h8, h9, h10, h11, h12, h13, h14, h15]
  · rfl

end Memory

namespace SceFont

/-! ## The slot table -/

theorem slotAddr_eq (A K i : Nat) (hfit : A + 4 + 4 * K ≤ 4294967296) (hi : i < K) :
    slotAddr A i = A + 4 + 4 * i := by
  unfold slotAddr
  omega

theorem Read_Write_zero (m : Memory) (a : Nat) : (m.Write_U32 0 a).Read_U32 a = 0 := by
  unfold Memory.Write_U32 Memory.Read_U32
  cases h : m.valid a <;> simp [h]

/-- The loop of `AllocDone` after `k` of its `n` iterations. -/
theorem allocDone_fold (A n : Nat) (hfit : A + 4 + 4 * n ≤ 4294967296) (fonts : List Nat)
    (m : Memory) (hlen : fonts.length = n) :
    ∀ k, k ≤ n →
      ((List.range k).foldl (allocDoneStep A) (fonts, m)).1
          = (List.range k).map (slotAddr A) ++ fonts.drop k ∧
      ((List.range k).foldl (allocDoneStep A) (fonts, m)).2.valid = m.valid ∧
      (∀ i, i < k → ((List.range k).foldl (allocDoneStep A) (fonts, m)).2.Read_U32 (slotAddr A i)
          = FONT_IS_CLOSED) ∧
      (∀ b, (b + 4 ≤ A + 4 ∨ A + 4 + 4 * n ≤ b) →
        ((List.range k).foldl (allocDoneStep A) (fonts, m)).2.Read_U32 b = m.Read_U32 b) := by
  intro k
  induction k with
  | zero => intro _; simp
  | succ k ih =>
    intro hk
    obtain ⟨i1, i2, i3, i4⟩ := ih (by omega)
    rw [List.range_succ, List.foldl_append]
    simp only [List.foldl_cons, List.foldl_nil, allocDoneStep]
    have hsk : slotAddr A k = A + 4 + 4 * k := slotAddr_eq A n k hfit (by omega)
    refine ⟨?_, ?_, ?_, ?_⟩
    · rw [i1]
      have hd : fonts.drop k = fonts.getD k 0 :: fonts.drop (k + 1) := by
        have hk' : k < fonts.length := by omega
        rw [List.drop_eq_getElem_cons hk']
        simp [List.getD_eq_getElem?_getD, hk']
      rw [hd]
      have hl : ((List.range k).map (slotAddr A)).length = k := by simp
      have := set_mid ((List.range k).map (slotAddr A)) (fonts.getD k 0) (slotAddr A k)
        (fonts.drop (k + 1))
      rw [hl] at this
      rw [this]
      simp [List.map_append]
    · rw [Memory.valid_Write_U32, i2]
    · intro i hi
      by_cases hik : i = k
      · subst hik
        exact Read_Write_zero _ _
      · have hsi : slotAddr A i = A + 4 + 4 * i := slotAddr_eq A n i hfit (by omega)
        rw [Memory.Read_Write_disjoint _ _ _ _ (by omega)]
        exact i3 i (by omega)
    · intro b hb
      rw [Memory.Read_Write_disjoint _ _ _ _ (by omega)]
      exact i4 b hb

theorem resizeU32_length (v : List Nat) (n : Nat) : (resizeU32 v n).length = n := by
  simp [resizeU32]
  omega

theorem toU32_wrapS32 (a : Nat) (h : a < 4294967296) : toU32 (wrapS32 a) = a := by
  unfold toU32 wrapS32
  omega

end SceFont

namespace SceFont

theorem freeFontIndexFrom_first (m : Memory) :
    ∀ (l : List Nat) (off j : Nat), j < l.length →
      m.Read_U32 (l.getD j 0) = FONT_IS_CLOSED →
      (∀ i, i < j → m.Read_U32 (l.getD i 0) ≠ FONT_IS_CLOSED) →
      freeFontIndexFrom m l off = wrapS32 ((off + j : Nat) : Int) := by
  intro l
  induction l with
  | nil => intro off j hj; simp at hj
  | cons a rest ih =>
    intro off j hj hz hb
    cases j with
    | zero =>
      have : m.Read_U32 a = FONT_IS_CLOSED := by simpa using hz
      simp [freeFontIndexFrom, this]
    | succ j =>
      have h0 : m.Read_U32 a ≠ FONT_IS_CLOSED := by simpa using hb 0 (by omega)
      have hrec := ih (off + 1) j (by simpa using hj) (by simpa using hz)
        (fun i hi => by simpa using hb (i + 1) (by omega))
      simp only [freeFontIndexFrom, h0, if_false]
      rw [hrec]
      congr 2
      omega

theorem freeFontIndexFrom_none (m : Memory) :
    ∀ (l : List Nat) (off : Nat),
      (∀ i, i < l.length → m.Read_U32 (l.getD i 0) ≠ FONT_IS_CLOSED) →
      freeFontIndexFrom m l off = -1 := by
  intro l
  induction l with
  | nil => intro off _; rfl
  | cons a rest ih =>
    intro off hb
    have h0 : m.Read_U32 a ≠ FONT_IS_CLOSED := by simpa using hb 0 (by simp)
    simp only [freeFontIndexFrom, h0, if_false]
    exact ih (off + 1) (fun i hi => by simpa using hb (i + 1) (by simpa using hi))

theorem slots_getD (A K i : Nat) (hi : i < K) :
    ((List.range K).map (slotAddr A)).getD i 0 = slotAddr A i := by
  simp [List.getD_eq_getElem?_getD, hi]

/-- `PostAllocCallback::run` on a library object created for `K` fonts. -/
theorem postAlloc_ready (s0 : FontState) (p A K : Nat)
    (hK : (s0.libHeap p).params_.numFonts = K)
    (hfit : A + 4 + 4 * K ≤ 4294967296)
    (hvalid : ∀ i, i < K → s0.mem.valid (slotAddr A i) = true) :
    (PostAllocCallback.run s0 p A).2 = A ∧
    LibReady (PostAllocCallback.run s0 p A).1 p A K ∧
    (∀ i, i < K → (PostAllocCallback.run s0 p A).1.mem.Read_U32 (slotAddr A i) = FONT_IS_CLOSED) ∧
    (PostAllocCallback.run s0 p A).1.internalFonts = s0.internalFonts ∧
    (PostAllocCallback.run s0 p A).1.mem.valid = s0.mem.valid ∧
    (PostAllocCallback.run s0 p A).1.fontLibMap = Function.update s0.fontLibMap A (some p) ∧
    (PostAllocCallback.run s0 p A).1.fontMap = s0.fontMap := by
  have hA : A < 4294967296 := by omega
  have hlen := resizeU32_length (s0.libHeap p).fonts_ (s0.libHeap p).params_.numFonts
  rw [hK] at hlen
  obtain ⟨f1, f2, f3, _⟩ := allocDone_fold A K hfit
    (resizeU32 (s0.libHeap p).fonts_ K) s0.mem hlen K (Nat.le_refl _)
  have hdrop : (resizeU32 (s0.libHeap p).fonts_ K).drop K = [] := by
    apply List.drop_eq_nil_of_le
    omega
  rw [hdrop, List.append_nil] at f1
  simp only [PostAllocCallback.run, FontLib.AllocDone, FontLib.handle, hK, hlen,
    Function.update_same, toU32_wrapS32 A hA]
  refine ⟨trivial, ⟨?_, ?_, hfit, ?_⟩, ?_, trivial, ?_, trivial, trivial⟩
  · simp
  · simpa using f1
  · intro i hi
    rw [f2]
    exact hvalid i hi
  · exact f3
  · exact f2

end SceFont

namespace SceFont

/-! ## One `sceFontOpen` call -/

/-- With slot `j` the first closed slot, `sceFontOpen` returns the address of slot `j`, marks
it open, registers the wrapper, stores 0 at the error pointer and touches no other slot. -/
theorem sceFontOpen_free (s : FontState) (p A K : Nat) (hr : LibReady s p A K) (a : OpenArgs)
    (ha : a.ok s A K) (j : Nat) (hj : j < K)
    (hz : s.mem.Read_U32 (slotAddr A j) = FONT_IS_CLOSED)
    (hb : ∀ i, i < j → s.mem.Read_U32 (slotAddr A i) ≠ FONT_IS_CLOSED) :
    ∃ s1, sceFontOpen s A a.index a.mode a.errorCodePtr = some (slotAddr A j, s1) ∧
      s1.mem.Read_U32 a.errorCodePtr = 0 ∧
      s1.mem.Read_U32 (slotAddr A j) = FONT_IS_OPEN ∧
      (∀ i, i < K → i ≠ j → s1.mem.Read_U32 (slotAddr A i) = s.mem.Read_U32 (slotAddr A i)) ∧
      s1.mem.valid = s.mem.valid ∧ s1.libHeap = s.libHeap ∧ s1.fontLibMap = s.fontLibMap ∧
      s1.internalFonts = s.internalFonts ∧ s1.fontHeap = s.fontHeap ∧
      s1.fontMap = Function.update s.fontMap (slotAddr A j)
        (some ⟨s.internalFonts.getD a.index 0, some p, slotAddr A j⟩) := by
  obtain ⟨hidx, herr, hdis⟩ := ha
  obtain ⟨hreg, hslots, hfit, hval⟩ := hr
  have hsj : slotAddr A j = A + 4 + 4 * j := slotAddr_eq A K j hfit hj
  have hfree : freeFontIndexFrom s.mem (s.libHeap p).fonts_ 0 = (j : Int) := by
    rw [hslots, freeFontIndexFrom_first s.mem _ 0 j (by simpa using hj)
      (by rw [slots_getD A K j hj]; exact hz)
      (fun i hi => by rw [slots_getD A K i (by omega)]; exact hb i hi)]
    rw [Nat.zero_add]
    exact wrapS32_of_range _ (by omega) (by omega)
  have hnidx : ¬ (s.internalFonts.length ≤ a.index) := by omega
  have hnneg : ¬ ((j : Int) < 0) := by omega
  have hget : (s.libHeap p).fonts_.getD j 0 = slotAddr A j := by
    rw [hslots, slots_getD A K j hj]
  refine ⟨{ s with
      mem := (s.mem.Write_U32 FONT_IS_OPEN (slotAddr A j)).Write_U32 0 a.errorCodePtr
      fontMap := Function.update s.fontMap (slotAddr A j)
        (some ⟨s.internalFonts.getD a.index 0, some p, slotAddr A j⟩) },
    ?_, ?_, ?_, ?_, ?_, ?_, ?_, ?_, ?_, ?_⟩
  · have hge : ¬ (a.index ≥ s.internalFonts.length) := hnidx
    simp only [sceFontOpen, Memory.IsValidAddress, herr, GetFontLib, hreg, FontLib.OpenFont,
      hfree, hget, LoadedFont.Handle, hge, hnneg, Int.toNat_ofNat, Bool.not_true,
      Bool.false_eq_true, if_false]
  · simp only
    rw [Memory.Read_Write_same _ _ _ (by rw [Memory.valid_Write_U32]; exact herr) (by omega)]
  · simp only
    rw [Memory.Read_Write_disjoint _ _ _ _ (by omega),
      Memory.Read_Write_same _ _ _ (hval j hj) (by unfold FONT_IS_OPEN; omega)]
  · intro i hi hij
    have hsi : slotAddr A i = A + 4 + 4 * i := slotAddr_eq A K i hfit hi
    simp only
    rw [Memory.Read_Write_disjoint _ _ _ _ (by omega),
      Memory.Read_Write_disjoint _ _ _ _ (by omega)]
  · simp only
    rw [Memory.valid_Write_U32, Memory.valid_Write_U32]
  all_goals rfl

/-- With no closed slot, `sceFontOpen` returns 0, stores `ERROR_FONT_TOO_MANY_OPEN_FONTS` at
the error pointer and changes neither the slots nor the tables. -/
theorem sceFontOpen_full (s : FontState) (p A K : Nat) (hr : LibReady s p A K) (a : OpenArgs)
    (ha : a.ok s A K)
    (hb : ∀ i, i < K → s.mem.Read_U32 (slotAddr A i) ≠ FONT_IS_CLOSED) :
    ∃ s1, sceFontOpen s A a.index a.mode a.errorCodePtr = some (0, s1) ∧
      s1.mem.Read_U32 a.errorCodePtr = ERROR_FONT_TOO_MANY_OPEN_FONTS ∧
      (∀ i, i < K → s1.mem.Read_U32 (slotAddr A i) = s.mem.Read_U32 (slotAddr A i)) ∧
      s1.mem.valid = s.mem.valid ∧ s1.libHeap = s.libHeap ∧ s1.fontLibMap = s.fontLibMap ∧
      s1.internalFonts = s.internalFonts ∧ s1.fontHeap = s.fontHeap ∧
      s1.fontMap = s.fontMap := by
  obtain ⟨hidx, herr, hdis⟩ := ha
  obtain ⟨hreg, hslots, hfit, hval⟩ := hr
  have hfree : freeFontIndexFrom s.mem (s.libHeap p).fonts_ 0 = -1 := by
    rw [hslots]
    apply freeFontIndexFrom_none
    intro i hi
    have hi' : i < K := by simpa using hi
    rw [slots_getD A K i hi']
    exact hb i hi'
  have hnidx : ¬ (s.internalFonts.length ≤ a.index) := by omega
  refine ⟨{ s with mem := s.mem.Write_U32 ERROR_FONT_TOO_MANY_OPEN_FONTS a.errorCodePtr },
    ?_, ?_, ?_, ?_, ?_, ?_, ?_, ?_, ?_⟩
  · have hge : ¬ (a.index ≥ s.internalFonts.length) := hnidx
    simp only [sceFontOpen, Memory.IsValidAddress, herr, GetFontLib, hreg, FontLib.OpenFont,
      hfree, hge, Bool.not_true, Bool.false_eq_true, if_false]
    rfl
  · simp only
    rw [Memory.Read_Write_same _ _ _ herr (by unfold ERROR_FONT_TOO_MANY_OPEN_FONTS; omega)]
  · intro i hi
    have hsi : slotAddr A i = A + 4 + 4 * i := slotAddr_eq A K i hfit hi
    simp only
    rw [Memory.Read_Write_disjoint _ _ _ _ (by omega)]
  · simp only
    rw [Memory.valid_Write_U32]
  all_goals rfl

end SceFont

namespace SceFont

/-! ## C8: `K` opens, then `ERROR_FONT_TOO_MANY_OPEN_FONTS` -/

theorem LibReady.transfer {s s1 : FontState} {p A K : Nat} (hr : LibReady s p A K)
    (h1 : s1.mem.valid = s.mem.valid) (h2 : s1.libHeap = s.libHeap)
    (h3 : s1.fontLibMap = s.fontLibMap) : LibReady s1 p A K :=
  ⟨by rw [h3]; exact hr.registered, by rw [h2]; exact hr.slots, hr.fits,
    fun i hi => by rw [h1]; exact hr.valid i hi⟩

theorem OpenArgs.ok_transfer {s s1 : FontState} {A K : Nat} {a : OpenArgs} (ha : a.ok s A K)
    (h1 : s1.mem.valid = s.mem.valid) (h2 : s1.internalFonts = s.internalFonts) :
    a.ok s1 A K := by
  unfold OpenArgs.ok at *
  rw [h1, h2]
  exact ha

theorem slotAddr_injective (A K i j : Nat) (hfit : A + 4 + 4 * K ≤ 4294967296) (hi : i < K)
    (hj : j < K) (h : slotAddr A i = slotAddr A j) : i = j := by
  rw [slotAddr_eq A K i hfit hi, slotAddr_eq A K j hfit hj] at h
  omega

/-- Opening into a library whose slots below `j` are open and whose slots from `j` on are
closed: the calls return the slot addresses `j, j+1, ...` in turn, each with error code 0, and
leave every slot open. -/
theorem openAll_from (p A K : Nat) :
    ∀ (args : List OpenArgs) (j : Nat) (s : FontState),
      LibReady s p A K → j + args.length = K → (∀ a ∈ args, a.ok s A K) →
      (∀ i, i < j → s.mem.Read_U32 (slotAddr A i) = FONT_IS_OPEN) →
      (∀ i, i < j → (s.fontMap (slotAddr A i)).map (fun f => (f.fontLib_, f.handle_))
          = some (some p, slotAddr A i)) →
      (∀ i, j ≤ i → i < K → s.mem.Read_U32 (slotAddr A i) = FONT_IS_CLOSED) →
      ∃ s1, openAll s A args
          = some ((List.range' j args.length).map (fun i => (slotAddr A i, 0)), s1) ∧
        AllOpen s1 p A K ∧ s1.mem.valid = s.mem.valid ∧
        s1.internalFonts = s.internalFonts := by
  intro args
  induction args with
  | nil =>
    intro j s hr hj _ hopen hwrap _
    have hjK : j = K := by simpa using hj
    subst hjK
    exact ⟨s, by simp [openAll], ⟨hr, hopen, hwrap⟩, rfl, rfl⟩
  | cons a rest ih =>
    intro j s hr hj hargs hopen hwrap hclosed
    have hjK : j < K := by simp at hj; omega
    have hne : FONT_IS_OPEN ≠ FONT_IS_CLOSED := by decide
    obtain ⟨s1, e1, e2, e3, e4, e5, e6, e7, e8, _, e10⟩ :=
      sceFontOpen_free s p A K hr a (hargs a (List.mem_cons_self _ _)) j hjK
        (hclosed j (Nat.le_refl _) hjK) (fun i hi => by rw [hopen i hi]; exact hne)
    have hr1 : LibReady s1 p A K := hr.transfer e5 e6 e7
    obtain ⟨s2, o1, o2, o3, o4⟩ := ih (j + 1) s1 hr1 (by simp at hj; omega)
      (fun b hb => OpenArgs.ok_transfer (hargs b (List.mem_cons_of_mem _ hb)) e5 e8)
      (fun i hi => by
        by_cases hij : i = j
        · subst hij; exact e3
        · rw [e4 i (by omega) hij]; exact hopen i (by omega))
      (fun i hi => by
        by_cases hij : i = j
        · subst hij
          rw [e10]
          simp
        · have hs : slotAddr A i ≠ slotAddr A j := fun h =>
            hij (slotAddr_injective A K i j hr.fits (by omega) hjK h)
          rw [e10, Function.update_noteq hs]
          exact hwrap i (by omega))
      (fun i hi hiK => by
        rw [e4 i hiK (by omega)]
        exact hclosed i (by omega) hiK)
    refine ⟨s2, ?_, o2, by rw [o3, e5], by rw [o4, e8]⟩
    simp only [openAll, e1, o1, e2, List.length_cons, List.range'_succ, List.map_cons]

theorem openAll_append (A : Nat) (l b : List OpenArgs) :
    ∀ s, openAll s A (l ++ b)
      = (openAll s A l).bind (fun r => (openAll r.2 A b).map (fun q => (r.1 ++ q.1, q.2))) := by
  induction l with
  | nil =>
    intro s
    cases hx : openAll s A b <;> simp [openAll, hx]
  | cons x xs ih =>
    intro s
    simp only [openAll, List.cons_append]
    cases hb : sceFontOpen s A x.index x.mode x.errorCodePtr with
    | none => simp
    | some r =>
      simp only [List.append_eq]
      rw [ih r.2]
      cases hxs : openAll r.2 A xs with
      | none => simp
      | some q =>
        simp only [Option.some_bind]
        cases hq : openAll q.2 A b <;> simp

/-- C8 (amended).  Take a library object created for `K` fonts, let its post-allocation callback run
with the guest block at `A` (the `4 + 4K` bytes lie in valid guest memory, inside the address
space), and let `K` `sceFontOpen` calls follow and then one more, each with a catalog index in
range and a valid error pointer outside the slot table.  The `K` calls return the handles
`A+4, A+8, ..., A+4K`, each with error code 0; these handles are nonzero and pairwise
distinct; the `(K+1)`-th call returns 0 with `ERROR_FONT_TOO_MANY_OPEN_FONTS` (0x80460009)
at its error pointer. -/
theorem fontOpen_succeeds_K_times_then_too_many (s0 : FontState) (p A K : Nat)
    (args : List OpenArgs) (extra : OpenArgs)
    (hK : (s0.libHeap p).params_.numFonts = K)
    (hfit : A + 4 + 4 * K ≤ 4294967296)
    (hvalid : ∀ i, i < K → s0.mem.valid (slotAddr A i) = true)
    (hlen : args.length = K)
    (hargs : ∀ a ∈ args, a.ok s0 A K) (hextra : extra.ok s0 A K) :
    (openAll (PostAllocCallback.run s0 p A).1 A (args ++ [extra])).map Prod.fst
      = some ((List.range K).map (fun i => (A + 4 + 4 * i, 0))
          ++ [(0, ERROR_FONT_TOO_MANY_OPEN_FONTS)]) ∧
    (∀ i, i < K → A + 4 + 4 * i ≠ 0) ∧
    ((List.range K).map (fun i => A + 4 + 4 * i)).Nodup ∧
    ERROR_FONT_TOO_MANY_OPEN_FONTS = 0x80460009 := by
  obtain ⟨_, r1, r2, r3, r4, _, r6⟩ := postAlloc_ready s0 p A K hK hfit hvalid
  obtain ⟨s1, o1, o2, o3, o4⟩ := openAll_from p A K args 0 (PostAllocCallback.run s0 p A).1 r1
    (by simpa using hlen)
    (fun a ha => OpenArgs.ok_transfer (hargs a ha) r4 r3)
    (fun i hi => by omega) (fun i hi => by omega) (fun i _ hi => r2 i hi)
  have hne : FONT_IS_OPEN ≠ FONT_IS_CLOSED := by decide
  obtain ⟨s2, t1, t2, _⟩ := sceFontOpen_full s1 p A K o2.ready extra
    (OpenArgs.ok_transfer hextra (by rw [o3, r4]) (by rw [o4, r3]))
    (fun i hi => by rw [o2.flags i hi]; exact hne)
  refine ⟨?_, ?_, ?_, rfl⟩
  · rw [openAll_append, o1]
    simp only [openAll, t1, t2, Option.map_some', Option.some_bind, hlen]
    congr 2
    rw [List.range_eq_range']
    apply List.map_congr_left
    intro i hi
    have hiK : i < K := by
      simp [List.mem_range'] at hi
      omega
    rw [slotAddr_eq A K i hfit hiK]
  · intro i _
    omega
  · rw [List.nodup_map_iff_inj_on (List.nodup_range K)]
    intro i _ j _ h
    omega

end SceFont

namespace SceFont

/-- C8, witness: the two-slot library of `bootFonts`, allocated at `0x08900000`, opened three
times with the error pointer at `0x08800000`. -/
theorem fontOpen_succeeds_K_times_then_too_many_witness :
    (openAll (PostAllocCallback.run bootFonts 200 0x08900000).1 0x08900000
        ([⟨0, 0, 0x08800000⟩, ⟨1, 0, 0x08800000⟩] ++ [⟨0, 0, 0x08800000⟩])).map Prod.fst
      = some ((List.range 2).map (fun i => (0x08900000 + 4 + 4 * i, 0))
          ++ [(0, ERROR_FONT_TOO_MANY_OPEN_FONTS)]) ∧
    (∀ i, i < 2 → 0x08900000 + 4 + 4 * i ≠ 0) ∧
    ((List.range 2).map (fun i => 0x08900000 + 4 + 4 * i)).Nodup ∧
    ERROR_FONT_TOO_MANY_OPEN_FONTS = 0x80460009 :=
  fontOpen_succeeds_K_times_then_too_many bootFonts 200 0x08900000 2
    [⟨0, 0, 0x08800000⟩, ⟨1, 0, 0x08800000⟩] ⟨0, 0, 0x08800000⟩
    (by decide) (by decide) (by decide) (by decide) (by decide) (by decide)

end SceFont

namespace SceFont

/-! ## C9: closing one slot -/

theorem closeFontLoop_not_mem (handle : Nat) :
    ∀ (l : List Nat) (m : Memory), handle ∉ l → closeFontLoop m handle l = m := by
  intro l
  induction l with
  | nil => intro m _; rfl
  | cons a rest ih =>
    intro m h
    have ha : a ≠ handle := fun e => h (by simp [e])
    have hr : handle ∉ rest := fun e => h (List.mem_cons_of_mem _ e)
    simp [closeFontLoop, ha, ih m hr]

theorem closeFontLoop_nodup (handle : Nat) :
    ∀ (l : List Nat) (m : Memory), l.Nodup → handle ∈ l →
      closeFontLoop m handle l = m.Write_U32 FONT_IS_CLOSED handle := by
  intro l
  induction l with
  | nil => intro m _ h; simp at h
  | cons a rest ih =>
    intro m hn h
    obtain ⟨hna, hnr⟩ := List.nodup_cons.1 hn
    by_cases ha : a = handle
    · subst ha
      simp [closeFontLoop, closeFontLoop_not_mem a rest _ hna]
    · have hr : handle ∈ rest := by
        rcases List.mem_cons.1 h with e | e
        · exact absurd e.symm ha
        · exact e
      simp [closeFontLoop, ha, ih m hnr hr]

theorem slots_nodup (A K : Nat) (hfit : A + 4 + 4 * K ≤ 4294967296) :
    ((List.range K).map (slotAddr A)).Nodup := by
  rw [List.nodup_map_iff_inj_on (List.nodup_range K)]
  intro i hi j hj h
  exact slotAddr_injective A K i j hfit (List.mem_range.1 hi) (List.mem_range.1 hj) h

/-- `sceFontClose` on the handle of slot `j` of a library with every slot open. -/
theorem sceFontClose_slot (s : FontState) (p A K : Nat) (hall : AllOpen s p A K) (j : Nat)
    (hj : j < K) :
    (sceFontClose s (slotAddr A j)).1 = 0 ∧
    LibReady (sceFontClose s (slotAddr A j)).2 p A K ∧
    (sceFontClose s (slotAddr A j)).2.mem.Read_U32 (slotAddr A j) = FONT_IS_CLOSED ∧
    (∀ i, i < K → i ≠ j → (sceFontClose s (slotAddr A j)).2.mem.Read_U32 (slotAddr A i)
        = FONT_IS_OPEN) ∧
    (sceFontClose s (slotAddr A j)).2.mem.valid = s.mem.valid ∧
    (sceFontClose s (slotAddr A j)).2.internalFonts = s.internalFonts := by
  obtain ⟨hr, hflags, hwrap⟩ := hall
  have hw := hwrap j hj
  cases hf : s.fontMap (slotAddr A j) with
  | none => simp [hf] at hw
  | some f =>
    rw [hf] at hw
    simp only [Option.map_some', Option.some.injEq, Prod.mk.injEq] at hw
    obtain ⟨hlib, hh⟩ := hw
    have hmem : slotAddr A j ∈ (List.range K).map (slotAddr A) :=
      List.mem_map.2 ⟨j, List.mem_range.2 hj, rfl⟩
    have hclose : sceFontClose s (slotAddr A j)
        = (0, { s with
            mem := s.mem.Write_U32 FONT_IS_CLOSED (slotAddr A j)
            fontMap := Function.update s.fontMap (slotAddr A j) (some f.Close) }) := by
      simp only [sceFontClose, GetLoadedFont, hf, LoadedFont.IsOpen, hlib, Option.isSome_some,
        Bool.true_or, if_true, LoadedFont.GetFontLib, FontLib.CloseFont, LoadedFont.Handle, hh,
        hr.slots, closeFontLoop_nodup _ _ _ (slots_nodup A K hr.fits) hmem]
    rw [hclose]
    have hsj : slotAddr A j = A + 4 + 4 * j := slotAddr_eq A K j hr.fits hj
    refine ⟨rfl, ?_, ?_, ?_, ?_, rfl⟩
    · exact hr.transfer (Memory.valid_Write_U32 _ _ _) rfl rfl
    · exact Read_Write_zero _ _
    · intro i hi hij
      have hsi : slotAddr A i = A + 4 + 4 * i := slotAddr_eq A K i hr.fits hi
      simp only
      rw [Memory.Read_Write_disjoint _ _ _ _ (by omega)]
      exact hflags i hi
    · exact Memory.valid_Write_U32 _ _ _

/-- C9 (amended).  On a library whose `K` slots are all open, `sceFontClose` on the handle
`h` of any slot returns 0; of the next two `sceFontOpen` calls, each with a catalog index in
range and a valid error pointer outside the slot table, the first succeeds (error code 0) and
returns that same handle `h`, and the second returns 0 with
`ERROR_FONT_TOO_MANY_OPEN_FONTS`. -/
theorem fontClose_allows_exactly_one_more_open (s : FontState) (p A K j : Nat)
    (first second : OpenArgs)
    (hall : AllOpen s p A K) (hj : j < K)
    (hfirst : first.ok s A K) (hsecond : second.ok s A K) :
    (sceFontClose s (slotAddr A j)).1 = 0 ∧
    (openAll (sceFontClose s (slotAddr A j)).2 A [first, second]).map Prod.fst
      = some [(slotAddr A j, 0), (0, ERROR_FONT_TOO_MANY_OPEN_FONTS)] := by
  obtain ⟨c1, c2, c3, c4, c5, c6⟩ := sceFontClose_slot s p A K hall j hj
  have hne : FONT_IS_OPEN ≠ FONT_IS_CLOSED := by decide
  obtain ⟨s2, e1, e2, e3, e4, e5, e6, e7, e8, _, _⟩ :=
    sceFontOpen_free _ p A K c2 first (OpenArgs.ok_transfer hfirst c5 c6) j hj c3
      (fun i hi => by rw [c4 i (by omega) (by omega)]; exact hne)
  obtain ⟨s3, t1, t2, _⟩ :=
    sceFontOpen_full s2 p A K (c2.transfer e5 e6 e7) second
      (OpenArgs.ok_transfer hsecond (by rw [e5, c5]) (by rw [e8, c6]))
      (fun i hi => by
        by_cases hij : i = j
        · subst hij; rw [e3]; exact hne
        · rw [e4 i hi hij, c4 i hi hij]; exact hne)
  refine ⟨c1, ?_⟩
  simp [openAll, e1, e2, t1, t2]

/-- C9, witness: the two-slot library with both slots open; the handle of its first slot is
closed and the library opened twice more. -/
theorem fontClose_allows_exactly_one_more_open_witness :
    (sceFontClose fullFonts (slotAddr 0x08900000 0)).1 = 0 ∧
    (openAll (sceFontClose fullFonts (slotAddr 0x08900000 0)).2 0x08900000
        [⟨1, 0, 0x08800000⟩, ⟨0, 0, 0x08800010⟩]).map Prod.fst
      = some [(slotAddr 0x08900000 0, 0), (0, ERROR_FONT_TOO_MANY_OPEN_FONTS)] :=
  fontClose_allows_exactly_one_more_open fullFonts 200 0x08900000 2 0
    ⟨1, 0, 0x08800000⟩ ⟨0, 0, 0x08800010⟩
    ⟨⟨by decide, by decide, by decide, by decide⟩, by decide, by decide⟩
    (by decide) (by decide) (by decide)

end SceFont

/-! ## Order of `float` values -/

namespace F32

theorem gt_irrefl (x : F32) : gt x x = false := by
  cases x with
  | nan => rfl
  | inf a => cases a <;> rfl
  | fin q => simp [gt]

theorem gt_trans {a b c : F32} (h1 : gt a b = true) (h2 : gt b c = true) : gt a c = true := by
  cases a with
  | nan => simp [gt] at h1
  | inf x =>
    cases b with
    | nan => simp [gt] at h1
    | inf y =>
      cases c with
      | nan => simp [gt] at h2
      | inf z => cases x <;> cases y <;> cases z <;> simp_all [gt]
      | fin r => cases x <;> cases y <;> simp_all [gt]
    | fin q =>
      cases c with
      | nan => simp [gt] at h2
      | inf z => cases x <;> cases z <;> simp_all [gt]
      | fin r => cases x <;> simp_all [gt]
  | fin p =>
    cases b with
    | nan => simp [gt] at h1
    | inf y =>
      cases c with
      | nan => simp [gt] at h2
      | inf z => cases y <;> cases z <;> simp_all [gt]
      | fin r => cases y <;> simp_all [gt]
    | fin q =>
      cases c with
      | nan => simp [gt] at h2
      | inf z => cases z <;> simp_all [gt]
      | fin r =>
        simp only [gt, decide_eq_true_eq] at h1 h2 ⊢
        exact lt_trans h2 h1

/-- Among values that are not NaN, what is not below `a` is above whatever `a` is above. -/
theorem gt_of_not_gt {a b c : F32} (h1 : gt a b = false) (h2 : gt a c = true) (hb : b ≠ nan) :
    gt b c = true := by
  cases a with
  | nan => simp [gt] at h2
  | inf x =>
    cases b with
    | nan => exact absurd rfl hb
    | inf y =>
      cases c with
      | nan => simp [gt] at h2
      | inf z => cases x <;> cases y <;> cases z <;> simp_all [gt]
      | fin r => cases x <;> cases y <;> simp_all [gt]
    | fin q =>
      cases c with
      | nan => simp [gt] at h2
      | inf z => cases x <;> cases z <;> simp_all [gt]
      | fin r => cases x <;> simp_all [gt]
  | fin p =>
    cases b with
    | nan => exact absurd rfl hb
    | inf y =>
      cases c with
      | nan => simp [gt] at h2
      | inf z => cases y <;> cases z <;> simp_all [gt]
      | fin r => cases y <;> simp_all [gt]
    | fin q =>
      cases c with
      | nan => simp [gt] at h2
      | inf z => cases z <;> simp_all [gt]
      | fin r =>
        simp only [gt, decide_eq_true_eq, decide_eq_false_iff_not, not_lt] at h1 h2 ⊢
        exact lt_of_lt_of_le h2 h1

theorem gt_nan_left (x : F32) : gt nan x = false := by
  cases x <;> rfl

theorem gt_nan_right (x : F32) : gt x nan = false := by
  cases x <;> rfl

theorem round_ne_nan (q : Rat) : round q ≠ nan := by
  unfold round
  simp only
  split_ifs <;> simp

theorem abs_eq_nan {x : F32} : abs x = nan ↔ x = nan := by
  cases x <;> simp [abs]

theorem sub_nan_left (x : F32) : sub nan x = nan := by
  cases x <;> rfl

/-- The difference of a value that is not NaN and a finite value is not NaN. -/
theorem sub_fin_ne_nan {x : F32} (q : Rat) (hx : x ≠ nan) : sub x (fin q) ≠ nan := by
  cases x with
  | nan => exact absurd rfl hx
  | inf a => simp [sub]
  | fin p => simp only [sub]; exact round_ne_nan _

end F32

namespace SceFont

/-! ## C10: `sceFontFindOptimumFont` with only a horizontal size requested -/

theorem GetOptimumFont_hOnly (heap : Nat → Font) (req : PGFFontStyle) (o c : Nat)
    (hH : req.fontH.isZero = false) (hV : req.fontV.isZero = true) :
    GetOptimumFont heap req (some o) c
      = if F32.gt (hDeviation heap req o) (hDeviation heap req c) = true then c else o := by
  simp [GetOptimumFont, hDeviation, hH, hV]

theorem getD_append_left (pre rest : List Nat) (i : Nat) (h : i < pre.length) :
    (pre ++ rest).getD i 0 = pre.getD i 0 := by
  simp [List.getD_eq_getElem?_getD, List.getElem?_append_left h]

theorem getD_append_length (pre rest : List Nat) (c : Nat) :
    (pre ++ c :: rest).getD pre.length 0 = c := by
  rw [List.getD_eq_getElem?_getD, getElem?_mid]
  rfl

theorem getD_mem (l : List Nat) (i : Nat) (h : i < l.length) : l.getD i 0 ∈ l := by
  rw [List.getD_eq_getElem?_getD, List.getElem?_eq_getElem h]
  exact List.getElem_mem h

/-- With finite catalog sizes the computed deviations are either all NaN (the request is NaN)
or none of them is. -/
theorem hDeviation_nan (heap : Nat → Font) (req : PGFFontStyle) (cat : List Nat)
    (hfinite : ∀ f ∈ cat, ∃ q, (heap f).GetFontStyle.fontH = F32.fin q) :
    (∀ f ∈ cat, hDeviation heap req f ≠ F32.nan) ∨
    (∀ f ∈ cat, hDeviation heap req f = F32.nan) := by
  by_cases hr : req.fontH = F32.nan
  · right
    intro f _
    simp [hDeviation, fabsf, hr, F32.sub_nan_left, F32.abs]
  · left
    intro f hf
    obtain ⟨q, hq⟩ := hfinite f hf
    simp only [hDeviation, fabsf, hq, ne_eq, F32.abs_eq_nan]
    exact F32.sub_fin_ne_nan q hr

/-- The loop of `sceFontFindOptimumFont`, entered with the best entry of the part `pre` of the
catalog already scanned, ends with the best entry of the whole catalog. -/
theorem optimumFontLoop_hOnly (heap : Nat → Font) (req : PGFFontStyle)
    (hH : req.fontH.isZero = false) (hV : req.fontV.isZero = true) :
    ∀ (rest pre : List Nat) (k : Nat),
      ((∀ f ∈ pre ++ rest, hDeviation heap req f ≠ F32.nan) ∨
       (∀ f ∈ pre ++ rest, hDeviation heap req f = F32.nan)) →
      IsFirstNearestH heap req pre k →
      ∃ k', IsFirstNearestH heap req (pre ++ rest) k' ∧
        optimumFontLoop heap req (some (pre.getD k 0)) rest = some ((pre ++ rest).getD k' 0) := by
  intro rest
  induction rest with
  | nil =>
    intro pre k _ hk
    exact ⟨k, by simpa using hk, by simp [optimumFontLoop]⟩
  | cons c rest ih =>
    intro pre k hnan hk
    obtain ⟨hk1, hk2, hk3⟩ := hk
    have hsplit : pre ++ c :: rest = (pre ++ [c]) ++ rest := by simp
    have hnan2 : (∀ f ∈ (pre ++ [c]) ++ rest, hDeviation heap req f ≠ F32.nan) ∨
        (∀ f ∈ (pre ++ [c]) ++ rest, hDeviation heap req f = F32.nan) := by
      rw [← hsplit]; exact hnan
    have hc : (pre ++ [c]).getD pre.length 0 = c := getD_append_length pre [] c
    simp only [optimumFontLoop, Font.MatchesStyle, if_true, GetOptimumFont_hOnly heap req _ _ hH hV]
    by_cases hgt : F32.gt (hDeviation heap req (pre.getD k 0)) (hDeviation heap req c) = true
    · rw [if_pos hgt]
      have hnn : ∀ f ∈ pre ++ c :: rest, hDeviation heap req f ≠ F32.nan := by
        rcases hnan with h | h
        · exact h
        · have hcn := h c (by simp)
          rw [hcn, F32.gt_nan_right] at hgt
          cases hgt
      have hnew : IsFirstNearestH heap req (pre ++ [c]) pre.length := by
        refine ⟨by simp, ?_, ?_⟩
        · intro i hi
          rw [hc]
          by_cases hip : i < pre.length
          · rw [getD_append_left pre [c] i hip]
            cases hci : F32.gt (hDeviation heap req c) (hDeviation heap req (pre.getD i 0)) with
            | false => rfl
            | true =>
              have := F32.gt_trans hgt hci
              rw [hk2 i hip] at this
              cases this
          · have : i = pre.length := by simp at hi; omega
            rw [this, hc]
            exact F32.gt_irrefl _
        · intro i hi
          rw [hc, getD_append_left pre [c] i hi]
          exact F32.gt_of_not_gt (hk2 i hi) hgt
            (hnn _ (List.mem_append_left _ (getD_mem pre i hi)))
      obtain ⟨k', h1, h2⟩ := ih (pre ++ [c]) pre.length hnan2 hnew
      rw [hc] at h2
      exact ⟨k', by rw [hsplit]; exact h1, by rw [hsplit]; exact h2⟩
    · rw [if_neg hgt]
      have hle : F32.gt (hDeviation heap req (pre.getD k 0)) (hDeviation heap req c) = false := by
        simpa using hgt
      have hkk : (pre ++ [c]).getD k 0 = pre.getD k 0 := getD_append_left pre [c] k hk1
      have hnew : IsFirstNearestH heap req (pre ++ [c]) k := by
        refine ⟨by simp; omega, ?_, ?_⟩
        · intro i hi
          rw [hkk]
          by_cases hip : i < pre.length
          · rw [getD_append_left pre [c] i hip]
            exact hk2 i hip
          · have : i = pre.length := by simp at hi; omega
            rw [this, hc]
            exact hle
        · intro i hi
          rw [hkk, getD_append_left pre [c] i (by omega)]
          exact hk3 i hi
      obtain ⟨k', h1, h2⟩ := ih (pre ++ [c]) k hnan2 hnew
      rw [hkk] at h2
      exact ⟨k', by rw [hsplit]; exact h1, by rw [hsplit]; exact h2⟩

/-- The loop of `GetInternalFontIndex` returns the first position that holds the pointer. -/
theorem internalFontIndexFrom_first (font : Nat) :
    ∀ (l : List Nat) (off k : Nat), k < l.length → l.getD k 0 = font →
      ∃ i, i ≤ k ∧ l.getD i 0 = font ∧ internalFontIndexFrom font l off = wrapS32 ((off + i : Nat) : Int) := by
  intro l
  induction l with
  | nil => intro off k hk; simp at hk
  | cons a rest ih =>
    intro off k hk hf
    by_cases ha : a = font
    · exact ⟨0, by omega, by simpa using ha, by simp [internalFontIndexFrom, ha]⟩
    · cases k with
      | zero => exact absurd (by simpa using hf) ha
      | succ k =>
        obtain ⟨i, h1, h2, h3⟩ := ih (off + 1) k (by simpa using hk) (by simpa using hf)
        refine ⟨i + 1, by omega, by simpa using h2, ?_⟩
        simp only [internalFontIndexFrom, ha, if_false]
        rw [h3]
        congr 2
        omega

/-- C10 (amended).  For every non-empty loaded catalog whose horizontal sizes are finite
`float` values and every requested style with `fontH != 0` and `fontV == 0`, a
`sceFontFindOptimumFont` call that passes its pointer checks returns the smallest catalog
index whose horizontal deviation, as the code computes it in `float` arithmetic (`fabsf` of
the rounded difference), is minimal: it is greater than the deviation of no entry, and the
deviation of every earlier entry is greater than it (vertical sizes play no part).  In
particular, for the catalog with sizes `0x288` and `0x1c0` and the requested size `0x200` (all
three in the registry's 1/64 units) it returns 1, the index of the `0x1c0` entry. -/
theorem findOptimumFont_nearest_fontH (s : FontState) (libHandlePtr fontStylePtr errorCodePtr : Nat)
    (req : PGFFontStyle)
    (hcat : s.internalFonts ≠ []) (hsmall : s.internalFonts.length ≤ 2147483647)
    (hfinite : ∀ f ∈ s.internalFonts, ∃ q, (s.fontHeap f).GetFontStyle.fontH = F32.fin q)
    (hH : req.fontH.isZero = false) (hV : req.fontV.isZero = true)
    (hptr : fontStylePtr ≠ 0) (herr : s.mem.valid errorCodePtr = true) :
    (∃ k : Nat,
      (sceFontFindOptimumFont s libHandlePtr fontStylePtr errorCodePtr req).1 = (k : Int) ∧
      IsFirstNearestH s.fontHeap req s.internalFonts k) ∧
    (sceFontFindOptimumFont bootFonts 0 0x08800100 0x08800000
      { fontH := F32.div64 (F32.ofInt 0x200), fontV := F32.fin 0,
        fontHRes := F32.fin 0, fontVRes := F32.fin 0 }).1 = 1 := by
  constructor
  · cases hl : s.internalFonts with
    | nil => exact absurd hl hcat
    | cons f rest =>
      have h0 : IsFirstNearestH s.fontHeap req [f] 0 := by
        refine ⟨by simp, ?_, ?_⟩
        · intro i hi
          have : i = 0 := by simpa using hi
          rw [this]
          exact F32.gt_irrefl _
        · intro i hi
          omega
      have hnan := hDeviation_nan s.fontHeap req s.internalFonts hfinite
      rw [hl] at hnan
      obtain ⟨k, hk, hloop⟩ := optimumFontLoop_hOnly s.fontHeap req hH hV rest [f] 0 hnan h0
      simp only [List.singleton_append] at hk hloop
      have hf0 : [f].getD 0 0 = f := rfl
      rw [hf0] at hloop
      obtain ⟨i, hi1, hi2, hi3⟩ := internalFontIndexFrom_first ((f :: rest).getD k 0) (f :: rest) 0 k
        hk.1 rfl
      have hik : i = k := by
        by_contra hne
        have hlt : i < k := by omega
        have := hk.2.2 i hlt
        rw [hi2, F32.gt_irrefl] at this
        cases this
      subst hik
      refine ⟨i, ?_, by rw [← hl] at hk ⊢; exact hk⟩
      have hlen : (f :: rest).length ≤ 2147483647 := by rw [← hl]; exact hsmall
      have hkl := hk.1
      simp only [sceFontFindOptimumFont, hptr, if_false, Memory.IsValidAddress, herr,
        Bool.not_true, Bool.false_eq_true, hl, optimumFontLoop, Font.MatchesStyle, if_true,
        GetOptimumFont, hloop, GetInternalFontIndex, hi3, Nat.zero_add]
      exact wrapS32_of_range _ (by omega) (by omega)
  · decide!

/-- In `bootFonts` the catalog sizes are finite. -/
theorem bootFonts_finite :
    ∀ f ∈ bootFonts.internalFonts, ∃ q, (bootFonts.fontHeap f).GetFontStyle.fontH = F32.fin q := by
  intro f hf
  have h : f = 100 ∨ f = 101 := by simpa [bootFonts] using hf
  rcases h with h | h
  · subst h; exact ⟨81 / 8, by decide!⟩
  · subst h; exact ⟨7, by decide!⟩

/-- C10, witness: the two-entry catalog of `bootFonts` asked for the size `0x200`, and asked
for the size `0x300`, which is nearer to the first entry. -/
theorem findOptimumFont_nearest_fontH_witness :
    ((∃ k : Nat,
      (sceFontFindOptimumFont bootFonts 0 0x08800100 0x08800000
        { fontH := F32.fin 12, fontV := F32.fin 0, fontHRes := F32.fin 0,
          fontVRes := F32.fin 0 }).1 = (k : Int) ∧
      IsFirstNearestH bootFonts.fontHeap
        { fontH := F32.fin 12, fontV := F32.fin 0, fontHRes := F32.fin 0, fontVRes := F32.fin 0 }
        bootFonts.internalFonts k) ∧
    (sceFontFindOptimumFont bootFonts 0 0x08800100 0x08800000
      { fontH := F32.div64 (F32.ofInt 0x200), fontV := F32.fin 0,
        fontHRes := F32.fin 0, fontVRes := F32.fin 0 }).1 = 1) ∧
    (sceFontFindOptimumFont bootFonts 0 0x08800100 0x08800000
      { fontH := F32.fin 12, fontV := F32.fin 0, fontHRes := F32.fin 0,
        fontVRes := F32.fin 0 }).1 = 0 :=
  ⟨findOptimumFont_nearest_fontH bootFonts 0 0x08800100 0x08800000
      { fontH := F32.fin 12, fontV := F32.fin 0, fontHRes := F32.fin 0, fontVRes := F32.fin 0 }
      (by decide) (by decide) bootFonts_finite (by decide!) (by decide!) (by decide)
      (by decide),
    by decide!⟩

/-- C10 as stated fails: in `bootFonts` (sizes 10.125 and 7) the request `fontH = -2^28`,
`fontV = 0` is exactly nearer to the second entry, but both `float` differences round to
`-2^28`, the computed deviations tie and `sceFontFindOptimumFont` returns index 0. -/
theorem findOptimumFont_rounding_ties :
    (bootFonts.fontHeap 100).GetFontStyle.fontH = F32.fin (81 / 8) ∧
    (bootFonts.fontHeap 101).GetFontStyle.fontH = F32.fin 7 ∧
    exactDeviation (F32.fin (-268435456)) (F32.fin (81 / 8)) = some (268435456 + 81 / 8) ∧
    exactDeviation (F32.fin (-268435456)) (F32.fin 7) = some (268435456 + 7) ∧
    ((268435456 : Rat) + 7 < 268435456 + 81 / 8) ∧
    hDeviation bootFonts.fontHeap ⟨F32.fin (-268435456), F32.fin 0, F32.fin 0, F32.fin 0⟩ 100
      = F32.fin 268435456 ∧
    hDeviation bootFonts.fontHeap ⟨F32.fin (-268435456), F32.fin 0, F32.fin 0, F32.fin 0⟩ 101
      = F32.fin 268435456 ∧
    (sceFontFindOptimumFont bootFonts 0 0x08800100 0x08800000
      ⟨F32.fin (-268435456), F32.fin 0, F32.fin 0, F32.fin 0⟩).1 = 0 := by
  decide!

end SceFont

namespace SceFont

/-! ## C11: `GetOptimumFont` -/

/-- C11 (amended).  For every requested style, current best font and candidate font,
`GetOptimumFont` returns the candidate exactly when, on at least one axis being compared, the
deviation of the current best is greater than the deviation of the candidate, both as the
code computes them in `float` arithmetic (`fabsf` of the rounded difference, compared with
`>`, which is false as soon as one side is NaN); H is compared when the requested H is not
zero or the requested V is zero, V when the requested V is not zero or the requested H is
zero.  In all other cases, in particular when the computed deviations tie on both axes, it
returns the current best. -/
theorem GetOptimumFont_better_on_some_axis (heap : Nat → Font) (req : PGFFontStyle)
    (optimum candidate : Nat) :
    GetOptimumFont heap req (some optimum) candidate
      = (if (comparesH req = true ∧
              F32.gt (hDeviation heap req optimum) (hDeviation heap req candidate) = true) ∨
            (comparesV req = true ∧
              F32.gt (vDeviation heap req optimum) (vDeviation heap req candidate) = true)
         then candidate else optimum) ∧
    (hDeviation heap req candidate = hDeviation heap req optimum →
      vDeviation heap req candidate = vDeviation heap req optimum →
      GetOptimumFont heap req (some optimum) candidate = optimum) := by
  have h : GetOptimumFont heap req (some optimum) candidate
      = (if (comparesH req = true ∧
              F32.gt (hDeviation heap req optimum) (hDeviation heap req candidate) = true) ∨
            (comparesV req = true ∧
              F32.gt (vDeviation heap req optimum) (vDeviation heap req candidate) = true)
         then candidate else optimum) := by
    simp only [GetOptimumFont, comparesH, comparesV, hDeviation, vDeviation,
      Bool.and_eq_true]
    split_ifs <;> first | rfl | tauto
  refine ⟨h, ?_⟩
  intro e1 e2
  rw [h, e1, e2, F32.gt_irrefl, F32.gt_irrefl]
  simp

/-- C11, witness: the two fonts of `twoAxisHeap` against themselves tie on both axes. -/
theorem GetOptimumFont_better_on_some_axis_witness :
    GetOptimumFont twoAxisHeap ⟨F32.fin 8, F32.fin 8, F32.fin 0, F32.fin 0⟩ (some 1) 1 = 1 :=
  (GetOptimumFont_better_on_some_axis twoAxisHeap
    ⟨F32.fin 8, F32.fin 8, F32.fin 0, F32.fin 0⟩ 1 1).2 rfl rfl

/-- C11, counterexample: request (8, 8), current best with sizes (10, 8), candidate with sizes
(9, 20).  Both axes are compared; the candidate is worse on V (deviation 12 against 0), so it
is not strictly smaller on every compared axis, yet `GetOptimumFont` returns the candidate,
because it is nearer on H. -/
theorem GetOptimumFont_returns_candidate_worse_on_V :
    comparesH ⟨F32.fin 8, F32.fin 8, F32.fin 0, F32.fin 0⟩ = true ∧
    comparesV ⟨F32.fin 8, F32.fin 8, F32.fin 0, F32.fin 0⟩ = true ∧
    vDeviation twoAxisHeap ⟨F32.fin 8, F32.fin 8, F32.fin 0, F32.fin 0⟩ 1 = F32.fin 0 ∧
    vDeviation twoAxisHeap ⟨F32.fin 8, F32.fin 8, F32.fin 0, F32.fin 0⟩ 2 = F32.fin 12 ∧
    F32.gt (vDeviation twoAxisHeap ⟨F32.fin 8, F32.fin 8, F32.fin 0, F32.fin 0⟩ 1)
      (vDeviation twoAxisHeap ⟨F32.fin 8, F32.fin 8, F32.fin 0, F32.fin 0⟩ 2) = false ∧
    GetOptimumFont twoAxisHeap ⟨F32.fin 8, F32.fin 8, F32.fin 0, F32.fin 0⟩ (some 1) 2 = 2 := by
  decide!

end SceFont

namespace SceDisplay

/-! ## C12: at most four skipped frames in a row -/

theorem hleEnterVblank_eq_frameTiming (w : World) (userdata : Nat) (cyclesLate : Int)
    (env : FrameEnv) :
    hleEnterVblank w userdata cyclesLate env
      = flipFrame
          (countSkippedFrame (DoFrameTiming (beforeFrameTiming w userdata cyclesLate) env).2
            (frameTimingAt w userdata cyclesLate env).skipFrame)
          cyclesLate (frameTimingAt w userdata cyclesLate env).skipFlip := rfl

theorem beforeFrameTiming_numSkippedFrames (w : World) (userdata : Nat) (cyclesLate : Int) :
    (beforeFrameTiming w userdata cyclesLate).numSkippedFrames = w.numSkippedFrames := by
  obtain ⟨resumes, _, _, hw⟩ :=
    wakeWaitingThreads_shape (World.emit { w with isVblank := 1 } Effect.fireVblank)
  simp only [beforeFrameTiming, World.emit] at hw ⊢
  rw [hw]
  simp only [commitLatchedFramebuf_shape]

/-- `DoFrameTiming` skips only below the cap, and its two skip answers agree. -/
theorem DoFrameTiming_cap (w : World) (env : FrameEnv) :
    (4 ≤ w.numSkippedFrames →
      (DoFrameTiming w env).1.skipFrame = false ∧ (DoFrameTiming w env).1.skipFlip = false) ∧
    (DoFrameTiming w env).1.skipFlip = (DoFrameTiming w env).1.skipFrame ∧
    (DoFrameTiming w env).2.numSkippedFrames = w.numSkippedFrames := by
  simp only [DoFrameTiming]
  split_ifs <;> simp_all

theorem hleEnterVblank_numSkippedFrames (w : World) (userdata : Nat) (cyclesLate : Int)
    (env : FrameEnv) :
    (hleEnterVblank w userdata cyclesLate env).numSkippedFrames
      = if (frameTimingAt w userdata cyclesLate env).skipFrame
        then wrapS32 (w.numSkippedFrames + 1) else 0 := by
  rw [hleEnterVblank_eq_frameTiming, flipFrame_shape, countSkippedFrame_shape]
  simp only
  rw [(DoFrameTiming_cap _ env).2.2, beforeFrameTiming_numSkippedFrames]

theorem step_numSkippedFrames (w : World) (op : Op) (h : op.isEnterVblank = false) :
    (step w op).numSkippedFrames = w.numSkippedFrames := by
  cases op <;>
    simp_all [step, Op.isEnterVblank, hleLeaveVblank, hleAfterFlip,
      sceDisplayIsVblank, sceDisplaySetMode, sceDisplaySetFramebuf, sceDisplayGetFramebuf,
      sceDisplayWaitVblankStart, sceDisplayWaitVblank, sceDisplayWaitVblankStartMulti,
      sceDisplayWaitVblankCB, sceDisplayWaitVblankStartCB, sceDisplayWaitVblankStartMultiCB,
      sceDisplayGetVcount, sceDisplayGetCurrentHcount, sceDisplayGetAccumulatedHcount,
      sceDisplayGetFramePerSec, pushAndWait, World.emit] <;>
    (try split_ifs) <;> simp_all [World.emit]

/-- With `numSkippedFrames` between 0 and 4 it counts the frames skipped in a row, and the log
of every event sequence respects the cap. -/
theorem timingLog_capped (tr : List Op) :
    ∀ (w : World) (n : Nat), w.numSkippedFrames = (n : Int) → n ≤ 4 →
      skipCapped n (timingLog w tr) := by
  induction tr with
  | nil => intro w n _ _; simp [timingLog, skipCapped]
  | cons op ops ih =>
    intro w n hn hle
    cases op
    case enterVblank userdata cyclesLate env =>
      simp only [timingLog, skipCapped]
      have hcap := (DoFrameTiming_cap (beforeFrameTiming w userdata cyclesLate) env).1
      rw [beforeFrameTiming_numSkippedFrames, hn] at hcap
      have hnum := hleEnterVblank_numSkippedFrames w userdata cyclesLate env
      refine ⟨fun h4 => hcap (by exact_mod_cast h4), ?_⟩
      cases hs : (frameTimingAt w userdata cyclesLate env).skipFrame with
      | true =>
        rw [hs] at hnum
        simp only [if_true] at hnum ⊢
        have hlt : n < 4 := by
          by_contra hge
          have h4 : (4 : Int) ≤ (n : Int) := by exact_mod_cast (Nat.le_of_not_lt hge)
          have := (hcap h4).1
          simp only [frameTimingAt] at hs
          rw [hs] at this
          exact Bool.noConfusion this
        apply ih _ (n + 1) _ (by omega)
        rw [hnum, hn]
        push_cast
        exact wrapS32_of_range _ (by omega) (by omega)
      | false =>
        rw [hs] at hnum
        simp only [Bool.false_eq_true, if_false] at hnum ⊢
        exact ih _ 0 (by rw [hnum]; rfl) (by omega)
    all_goals
      simp only [timingLog]
      refine ih _ n ?_ hle
      rw [step_numSkippedFrames]
      · exact hn
      · rfl

theorem skipCapped_append (pre : List FrameTiming) :
    ∀ (n : Nat) (rest : List FrameTiming), skipCapped n (pre ++ rest) →
      ∃ m, skipCapped m rest := by
  induction pre with
  | nil => intro n rest h; exact ⟨n, h⟩
  | cons e es ih =>
    intro n rest h
    exact ih _ rest h.2

/-- C12.  Start from `__DisplayInit` and let any sequence of clock events and guest calls
follow, with any wall-clock readings and any throttle and frame-skip settings.  Whenever the
`DoFrameTiming` calls of four `hleEnterVblank` events in a row answered `skipFrame`, the call
of the next `hleEnterVblank` answers `skipFrame = skipFlip = false`. -/
theorem never_five_skipped_frames_in_a_row (w0 : World) (enterId leaveId flipId : Int)
    (tr : List Op) (pre post : List FrameTiming) (a b c d e : FrameTiming)
    (hlog : timingLog (__DisplayInit w0 enterId leaveId flipId) tr
      = pre ++ a :: b :: c :: d :: e :: post)
    (ha : a.skipFrame = true) (hb : b.skipFrame = true) (hc : c.skipFrame = true)
    (hd : d.skipFrame = true) :
    e.skipFrame = false ∧ e.skipFlip = false := by
  have h0 : (__DisplayInit w0 enterId leaveId flipId).numSkippedFrames = ((0 : Nat) : Int) := by
    simp [__DisplayInit, World.emit]
  have hcap := timingLog_capped tr _ 0 h0 (by omega)
  rw [hlog] at hcap
  obtain ⟨m, hm⟩ := skipCapped_append pre 0 _ hcap
  simp only [skipCapped, ha, hb, hc, hd, if_true] at hm
  exact hm.2.2.2.2.1 (by omega)

/-- C12, witness: in `lateFrames` the first frame is shown, the next four are skipped and the
sixth, although just as late, is not. -/
theorem never_five_skipped_frames_in_a_row_witness :
    timingLog (__DisplayInit (World.static Memory.blank 162 3537) 0 1 2) lateFrames
      = [⟨false, false, false⟩] ++ ⟨false, true, true⟩ :: ⟨false, true, true⟩ ::
          ⟨false, true, true⟩ :: ⟨false, true, true⟩ :: ⟨false, false, false⟩ :: [] ∧
    (⟨false, false, false⟩ : FrameTiming).skipFrame = false ∧
    (⟨false, false, false⟩ : FrameTiming).skipFlip = false :=
  ⟨by decide!,
   never_five_skipped_frames_in_a_row (World.static Memory.blank 162 3537) 0 1 2 lateFrames
    [⟨false, false, false⟩] [] ⟨false, true, true⟩ ⟨false, true, true⟩ ⟨false, true, true⟩
    ⟨false, true, true⟩ ⟨false, false, false⟩ (by decide!) rfl rfl rfl rfl⟩

end SceDisplay

namespace SceDisplay

/-! ## C13: the frame schedule when falling behind -/

/-- C13 (amended).  When throttling is on and `DoFrameTiming` is entered with an initialised
(nonzero) `nextFrameTime` that the wall clock `now` exceeds by more than 5.5/60 s, the
`nextFrameTime` it leaves behind is `max (nextFrameTime + 1/60) (now - 5.5/60)`: it lies
between 4.5 and 5.5 frames behind `now`, so it is not within one frame of `now` (times as
exact rationals, the wall clock standing still during the call). -/
theorem DoFrameTiming_falling_behind (w : World) (env : FrameEnv)
    (hthr : env.platformThrottle = true) (hhl : env.headLess = false)
    (hnz : w.nextFrameTime ≠ 0) (hlate : w.nextFrameTime + (11 / 2) / 60 < env.now) :
    (DoFrameTiming w env).2.nextFrameTime
      = max (w.nextFrameTime + 1 / 60) (env.now - (11 / 2) / 60) ∧
    env.now - (11 / 2) / 60 ≤ (DoFrameTiming w env).2.nextFrameTime ∧
    (DoFrameTiming w env).2.nextFrameTime < env.now - (9 / 2) / 60 ∧
    ¬ (|env.now - (DoFrameTiming w env).2.nextFrameTime| ≤ 1 / 60) := by
  have hnl : ¬ (env.now < w.nextFrameTime) := by
    intro h
    linarith
  have h1 : (DoFrameTiming w env).2.nextFrameTime
      = max (w.nextFrameTime + 1 / 60) (env.now - (11 / 2) / 60) := by
    simp [DoFrameTiming, hthr, hhl, hnz, hnl]
  have h2 : env.now - (11 / 2) / 60 ≤ (DoFrameTiming w env).2.nextFrameTime := by
    rw [h1]
    exact le_max_right _ _
  have h3 : (DoFrameTiming w env).2.nextFrameTime < env.now - (9 / 2) / 60 := by
    rw [h1]
    apply max_lt <;> linarith
  refine ⟨h1, h2, h3, ?_⟩
  intro h
  have := (abs_le.1 h).2
  linarith

/-- C13, witness: the schedule standing at 1 s, the wall clock at 2 s. -/
theorem DoFrameTiming_falling_behind_witness :
    (DoFrameTiming scheduledWorld (throttleEnv 2)).2.nextFrameTime
      = max (scheduledWorld.nextFrameTime + 1 / 60) ((throttleEnv 2).now - (11 / 2) / 60) ∧
    (throttleEnv 2).now - (11 / 2) / 60
      ≤ (DoFrameTiming scheduledWorld (throttleEnv 2)).2.nextFrameTime ∧
    (DoFrameTiming scheduledWorld (throttleEnv 2)).2.nextFrameTime
      < (throttleEnv 2).now - (9 / 2) / 60 ∧
    ¬ (|(throttleEnv 2).now - (DoFrameTiming scheduledWorld (throttleEnv 2)).2.nextFrameTime|
        ≤ 1 / 60) :=
  DoFrameTiming_falling_behind scheduledWorld (throttleEnv 2) rfl rfl (by decide!) (by decide!)

/-- C13, counterexample: throttling on, `nextFrameTime = 1`, wall clock at 2, which is more
than 5.5/60 ahead.  `DoFrameTiming` leaves `nextFrameTime = 2 - 5.5/60`, that is 5.5 frames
behind the clock and not within one frame of it. -/
theorem DoFrameTiming_resyncs_five_frames_behind :
    scheduledWorld.nextFrameTime + (11 / 2) / 60 < (throttleEnv 2).now ∧
    (DoFrameTiming scheduledWorld (throttleEnv 2)).1.throttle = true ∧
    (DoFrameTiming scheduledWorld (throttleEnv 2)).2.nextFrameTime = 2 - (11 / 2) / 60 ∧
    ¬ (|(throttleEnv 2).now - (DoFrameTiming scheduledWorld (throttleEnv 2)).2.nextFrameTime|
        ≤ 1 / 60) := by
  decide!

end SceDisplay

namespace SceDisplay

/-! ## C16: the wake-up loop over a whole waiter list -/

theorem wakeAll_filter (v : List WaitVBlankInfo)
    (hrange : ∀ x ∈ v, -2147483648 < x.vcountUnblock ∧ x.vcountUnblock ≤ 2147483647) :
    (wakeAll v).1 = (v.filter (fun x => !decide (x.vcountUnblock = 1))).map
        (fun x => ⟨x.threadID, x.vcountUnblock - 1⟩) ∧
    (wakeAll v).2 = (v.filter (fun x => decide (x.vcountUnblock = 1))).map
        (fun x => Effect.resumeThreadFromWait x.threadID 0) := by
  induction v with
  | nil => simp [wakeAll]
  | cons x xs ih =>
    obtain ⟨i1, i2⟩ := ih (fun y hy => hrange y (List.mem_cons_of_mem _ hy))
    obtain ⟨h1, h2⟩ := hrange x (List.mem_cons_self _ _)
    have hw : wrapS32 (x.vcountUnblock - 1) = x.vcountUnblock - 1 :=
      wrapS32_of_range _ (by omega) (by omega)
    by_cases hc : x.vcountUnblock = 1
    · have h0 : wrapS32 (x.vcountUnblock - 1) = 0 := by rw [hw]; omega
      simp only [wakeAll, h0, if_true, i1, i2]
      simp [hc]
    · have h0 : x.vcountUnblock - 1 ≠ 0 := by omega
      simp only [wakeAll, i1, i2, hw, if_neg h0]
      simp [hc]

/-- C16.  For every waiter list `L` (counts C `int`s that do not underflow when decremented),
`hleEnterVblank` resumes exactly the threads of the waiters of `L` whose count was 1, each
once, with return value 0 and in their order in `L`, and leaves `vblankWaitingThreads` equal
to the remaining waiters of `L` in their original order, each with its count decreased by
exactly 1. -/
theorem hleEnterVblank_wakes_count_one (w : World) (userdata : Nat) (cyclesLate : Int)
    (env : FrameEnv)
    (hsize : w.vblankWaitingThreads.length < sizeT)
    (hrange : ∀ x ∈ w.vblankWaitingThreads,
      -2147483648 < x.vcountUnblock ∧ x.vcountUnblock ≤ 2147483647) :
    (newEffects w (hleEnterVblank w userdata cyclesLate env)).filter Effect.isResume
      = (w.vblankWaitingThreads.filter (fun x => decide (x.vcountUnblock = 1))).map
          (fun x => Effect.resumeThreadFromWait x.threadID 0) ∧
    (hleEnterVblank w userdata cyclesLate env).vblankWaitingThreads
      = (w.vblankWaitingThreads.filter (fun x => !decide (x.vcountUnblock = 1))).map
          (fun x => ⟨x.threadID, x.vcountUnblock - 1⟩) := by
  obtain ⟨ft, c, n, resumes, h1, h2, h3⟩ := hleEnterVblank_shape w userdata cyclesLate env
  rw [wakeLoop_eq _ _ hsize] at h1 h3
  have hres : resumes = (wakeAll w.vblankWaitingThreads).2 := by
    simpa using h1.symm
  obtain ⟨f1, f2⟩ := wakeAll_filter w.vblankWaitingThreads hrange
  have hall : resumes.filter Effect.isResume = resumes := by
    rw [List.filter_eq_self]
    intro e he
    obtain ⟨t, rfl⟩ := h2 e he
    rfl
  rw [h3]
  refine ⟨?_, f1⟩
  simp only [newEffects, List.drop_left]
  rw [← f2, ← hres]
  cases w.framebufIsLatched <;> cases ft.skipFlip <;>
    simp [List.filter_append, hall, Effect.isResume, List.filter_cons]

/-- C16, witness: waiters with counts 1, 2, 1, 1, 0 (two neighbours erased one after the
other): threads 1, 3 and 4 are resumed in that order, threads 2 and 5 stay with counts 1
and -1. -/
theorem hleEnterVblank_wakes_count_one_witness :
    (newEffects queuedWorld (hleEnterVblank queuedWorld 0 0 idleEnv)).filter Effect.isResume
      = (queuedWorld.vblankWaitingThreads.filter (fun x => decide (x.vcountUnblock = 1))).map
          (fun x => Effect.resumeThreadFromWait x.threadID 0) ∧
    (hleEnterVblank queuedWorld 0 0 idleEnv).vblankWaitingThreads
      = (queuedWorld.vblankWaitingThreads.filter (fun x => !decide (x.vcountUnblock = 1))).map
          (fun x => ⟨x.threadID, x.vcountUnblock - 1⟩) :=
  hleEnterVblank_wakes_count_one queuedWorld 0 0 idleEnv (by decide) (by decide)

end SceDisplay

namespace SceDisplay

/-! ## C14: snapshot and restore -/

theorem DoArray_write (v : List WaitVBlankInfo) :
    ∀ (d : List Item), PointerWrap.DoArray ⟨Mode.MODE_WRITE, d⟩ v
      = some (v, ⟨Mode.MODE_WRITE, d ++ waiterItems v⟩) := by
  induction v with
  | nil => intro d; simp [PointerWrap.DoArray, waiterItems]
  | cons x xs ih =>
    intro d
    simp [PointerWrap.DoArray, WaitVBlankInfo.DoState, PointerWrap.DoU32, PointerWrap.DoInt,
      PointerWrap.Do, ih, waiterItems]

theorem DoArray_read (v : List WaitVBlankInfo) :
    ∀ (old : List WaitVBlankInfo) (rest : List Item), old.length = v.length →
      PointerWrap.DoArray ⟨Mode.MODE_READ, waiterItems v ++ rest⟩ old
        = some (v, ⟨Mode.MODE_READ, rest⟩) := by
  induction v with
  | nil =>
    intro old rest h
    have : old = [] := List.length_eq_zero.1 h
    subst this
    simp [PointerWrap.DoArray, waiterItems]
  | cons x xs ih =>
    intro old rest h
    cases old with
    | nil => simp at h
    | cons o os =>
      have hl : os.length = xs.length := by simpa using h
      simp [PointerWrap.DoArray, WaitVBlankInfo.DoState, PointerWrap.DoU32, PointerWrap.DoInt,
        PointerWrap.Do, waiterItems, Item.toU32, Item.toInt, ih os rest hl]

theorem resizeWaiters_length (x : List WaitVBlankInfo) (n : Nat) (d : WaitVBlankInfo) :
    (resizeWaiters x n d).length = n := by
  simp [resizeWaiters]
  omega

theorem resizeWaiters_self (x : List WaitVBlankInfo) (d : WaitVBlankInfo) :
    resizeWaiters x x.length d = x := by
  simp [resizeWaiters]

/-- In write mode `__DisplayDoState` appends `snapshotItems` to the stream. -/
theorem displayDoState_write (w : World) (d : List Item)
    (hlen : w.vblankWaitingThreads.length < 4294967296) :
    (__DisplayDoState w ⟨Mode.MODE_WRITE, d⟩).map Prod.snd
      = some ⟨Mode.MODE_WRITE, d ++ snapshotItems w⟩ := by
  have hmod : w.vblankWaitingThreads.length % 4294967296 = w.vblankWaitingThreads.length :=
    Nat.mod_eq_of_lt hlen
  have hs : doStateStatics w ⟨Mode.MODE_WRITE, d⟩
      = some (⟨w.framebuf, w.latchedFramebuf, w.framebufIsLatched, w.hCount, w.hCountTotal,
          w.vCount, w.isVblank, w.hasSetMode, w.vblankWaitingThreads⟩,
        ⟨Mode.MODE_WRITE, d ++ ([Item.frameBuffer w.framebuf, Item.frameBuffer w.latchedFramebuf,
          Item.bool w.framebufIsLatched, Item.int w.hCount, Item.int w.hCountTotal,
          Item.int w.vCount, Item.int w.isVblank, Item.bool w.hasSetMode,
          Item.u32 (w.vblankWaitingThreads.length % 4294967296)] ++
          waiterItems w.vblankWaitingThreads)⟩) := by
    simp [doStateStatics, PointerWrap.DoFrameBuffer, PointerWrap.DoBool, PointerWrap.DoInt,
      PointerWrap.DoVector, PointerWrap.DoU32, PointerWrap.Do, hmod, resizeWaiters_self,
      DoArray_write]
  simp only [__DisplayDoState, hs]
  simp [doStateEvents, doStateGpu, PointerWrap.DoMarker, PointerWrap.DoExternal,
    PointerWrap.DoBool, PointerWrap.DoInt, PointerWrap.DoU32, PointerWrap.Do, snapshotItems]

/-- In read mode the first block of `__DisplayDoState` reads back what was written. -/
theorem doStateStatics_read (w t : World) (rest : List Item)
    (hlen : w.vblankWaitingThreads.length < 4294967296) :
    doStateStatics t ⟨Mode.MODE_READ,
        [Item.frameBuffer w.framebuf, Item.frameBuffer w.latchedFramebuf,
          Item.bool w.framebufIsLatched, Item.int w.hCount, Item.int w.hCountTotal,
          Item.int w.vCount, Item.int w.isVblank, Item.bool w.hasSetMode,
          Item.u32 (w.vblankWaitingThreads.length % 4294967296)] ++
          (waiterItems w.vblankWaitingThreads ++ rest)⟩
      = some (⟨w.framebuf, w.latchedFramebuf, w.framebufIsLatched, w.hCount, w.hCountTotal,
          w.vCount, w.isVblank, w.hasSetMode, w.vblankWaitingThreads⟩,
        ⟨Mode.MODE_READ, rest⟩) := by
  have hmod : w.vblankWaitingThreads.length % 4294967296 = w.vblankWaitingThreads.length :=
    Nat.mod_eq_of_lt hlen
  have harr := DoArray_read w.vblankWaitingThreads
    (resizeWaiters t.vblankWaitingThreads w.vblankWaitingThreads.length ⟨0, 1⟩) rest
    (resizeWaiters_length _ _ _)
  simp [doStateStatics, PointerWrap.DoFrameBuffer, PointerWrap.DoBool, PointerWrap.DoInt,
    PointerWrap.DoVector, PointerWrap.DoU32, PointerWrap.Do, hmod, harr,
    Item.toFrameBuffer, Item.toBool, Item.toInt, Item.toU32]

/-- In read mode `__DisplayDoState` consumes `snapshotItems w` and installs the saved fields. -/
theorem displayDoState_read (w t : World) (rest : List Item)
    (hlen : w.vblankWaitingThreads.length < 4294967296) :
    ∃ w2, __DisplayDoState t ⟨Mode.MODE_READ, snapshotItems w ++ rest⟩
        = some (w2, ⟨Mode.MODE_READ, rest⟩) ∧
      w2.framebuf = w.framebuf ∧ w2.latchedFramebuf = w.latchedFramebuf ∧
      w2.framebufIsLatched = w.framebufIsLatched ∧
      w2.vblankWaitingThreads = w.vblankWaitingThreads ∧
      w2.isVblank = w.isVblank ∧ w2.hCount = w.hCount ∧ w2.hCountTotal = w.hCountTotal ∧
      w2.vCount = w.vCount ∧ w2.hasSetMode = w.hasSetMode ∧
      w2.enterVblankEvent = w.enterVblankEvent ∧ w2.leaveVblankEvent = w.leaveVblankEvent ∧
      w2.afterFlipEvent = w.afterFlipEvent := by
  have hs := doStateStatics_read w t
    ([Item.int w.enterVblankEvent, Item.int w.leaveVblankEvent, Item.int w.afterFlipEvent,
      Item.external "gstate", Item.bool w.skipDrawFrame, Item.int w.numFrames,
      Item.external "gpu", Item.u32 0x42] ++ rest) hlen
  have hd : snapshotItems w ++ rest =
      [Item.frameBuffer w.framebuf, Item.frameBuffer w.latchedFramebuf,
          Item.bool w.framebufIsLatched, Item.int w.hCount, Item.int w.hCountTotal,
          Item.int w.vCount, Item.int w.isVblank, Item.bool w.hasSetMode,
          Item.u32 (w.vblankWaitingThreads.length % 4294967296)] ++
          (waiterItems w.vblankWaitingThreads ++
            ([Item.int w.enterVblankEvent, Item.int w.leaveVblankEvent,
              Item.int w.afterFlipEvent, Item.external "gstate", Item.bool w.skipDrawFrame,
              Item.int w.numFrames, Item.external "gpu", Item.u32 0x42] ++ rest)) := by
    simp [snapshotItems]
  rw [hd]
  simp only [__DisplayDoState, hs]
  simp [doStateEvents, doStateGpu, PointerWrap.DoMarker, PointerWrap.DoExternal,
    PointerWrap.DoBool, PointerWrap.DoInt, PointerWrap.DoU32, PointerWrap.Do,
    Item.toBool, Item.toInt, Item.toU32, Item.toExternal]

/-- C14: a snapshot written by `__DisplayDoState` from a display state with fewer than 2^32
waiters and read back into any other display state restores the current and the latched
framebuffer descriptor, the latch flag, the waiter list, the in-vblank flag, the horizontal and
vertical counters, the mode-has-been-set flag and the three event identifiers. -/
theorem displayDoState_round_trip (source target : World)
    (hlen : source.vblankWaitingThreads.length < 4294967296) :
    ∃ restored, roundTrip source target = some restored ∧
      restored.framebuf = source.framebuf ∧
      restored.latchedFramebuf = source.latchedFramebuf ∧
      restored.framebufIsLatched = source.framebufIsLatched ∧
      restored.vblankWaitingThreads = source.vblankWaitingThreads ∧
      restored.isVblank = source.isVblank ∧
      restored.hCount = source.hCount ∧ restored.hCountTotal = source.hCountTotal ∧
      restored.vCount = source.vCount ∧
      restored.hasSetMode = source.hasSetMode ∧
      restored.enterVblankEvent = source.enterVblankEvent ∧
      restored.leaveVblankEvent = source.leaveVblankEvent ∧
      restored.afterFlipEvent = source.afterFlipEvent := by
  have hw := displayDoState_write source [] hlen
  obtain ⟨w2, hr, hf⟩ := displayDoState_read source target [] hlen
  cases hwr : __DisplayDoState source ⟨Mode.MODE_WRITE, []⟩ with
  | none => rw [hwr] at hw; simp at hw
  | some written =>
    rw [hwr] at hw
    have hdata : written.2.data = snapshotItems source := by
      simp only [Option.map_some', Option.some.injEq] at hw
      rw [hw]; simp
    refine ⟨w2, ?_, hf⟩
    simp only [roundTrip, hwr, hdata]
    rw [List.append_nil] at hr
    rw [hr]; rfl

/-- C14 at a concrete pair: the queue of `queuedWorld` restored over a freshly booted display. -/
theorem displayDoState_round_trip_witness :
    ∃ restored, roundTrip queuedWorld bootWorld = some restored ∧
      restored.framebuf = queuedWorld.framebuf ∧
      restored.latchedFramebuf = queuedWorld.latchedFramebuf ∧
      restored.framebufIsLatched = queuedWorld.framebufIsLatched ∧
      restored.vblankWaitingThreads = queuedWorld.vblankWaitingThreads ∧
      restored.isVblank = queuedWorld.isVblank ∧
      restored.hCount = queuedWorld.hCount ∧ restored.hCountTotal = queuedWorld.hCountTotal ∧
      restored.vCount = queuedWorld.vCount ∧
      restored.hasSetMode = queuedWorld.hasSetMode ∧
      restored.enterVblankEvent = queuedWorld.enterVblankEvent ∧
      restored.leaveVblankEvent = queuedWorld.leaveVblankEvent ∧
      restored.afterFlipEvent = queuedWorld.afterFlipEvent :=
  displayDoState_round_trip queuedWorld bootWorld (by decide)

end SceDisplay

namespace SceDisplay

/-! ## C15: event names at registration and at restore -/

/-- C15: `__DisplayInit` registers the after-flip handler under the name "AfterFlip", while
`__DisplayDoState` (here: a snapshot of the booted display restored over itself) re-registers
it under "AfterFlipEVent"; the enter-vblank and leave-vblank names and all three handler
functions agree. -/
theorem displayDoState_afterFlip_name_differs :
    registrations bootWorld.effects =
      [("EnterVBlank", "hleEnterVblank"), ("LeaveVBlank", "hleLeaveVblank"),
       ("AfterFlip", "hleAfterFlip")] ∧
    (roundTrip bootWorld bootWorld).map (fun w => registrations (newEffects bootWorld w)) =
      some [("EnterVBlank", "hleEnterVblank"), ("LeaveVBlank", "hleLeaveVblank"),
       ("AfterFlipEVent", "hleAfterFlip")] ∧
    "AfterFlip" ≠ "AfterFlipEVent" := by
  decide

end SceDisplay

namespace SceFont

/-! ## C17: `sceFontNewLib` -/

/-- C17 (as amended): with valid `paramPtr` and `errorCodePtr`, `sceFontNewLib` returns
`0xDEADDEAD` and issues exactly one guest call, to the allocator named in the parameters it
read, bound to the new library, whose single argument is `4 + 4 * numFonts` reduced modulo
2^32; this is `4 + 4 * numFonts` itself when `numFonts` is at most `0x3FFFFFFE`. -/
theorem sceFontNewLib_alloc_call (s : FontState) (paramPtr errorCodePtr newLib : Nat)
    (hp : s.mem.IsValidAddress paramPtr = true)
    (he : s.mem.IsValidAddress errorCodePtr = true) :
    (sceFontNewLib s paramPtr errorCodePtr newLib).1 = 0xDEADDEAD ∧
    ((sceFontNewLib s paramPtr errorCodePtr newLib).2.1.libHeap newLib).params_
      = readFontNewLibParams (sceFontNewLib s paramPtr errorCodePtr newLib).2.1.mem paramPtr ∧
    (sceFontNewLib s paramPtr errorCodePtr newLib).2.2
      = [⟨((sceFontNewLib s paramPtr errorCodePtr newLib).2.1.libHeap newLib).params_.allocFuncAddr,
          some newLib,
          [(4 + 4 * ((sceFontNewLib s paramPtr errorCodePtr newLib).2.1.libHeap
              newLib).params_.numFonts) % 4294967296]⟩] ∧
    (((sceFontNewLib s paramPtr errorCodePtr newLib).2.1.libHeap newLib).params_.numFonts
        ≤ 0x3FFFFFFE →
      (sceFontNewLib s paramPtr errorCodePtr newLib).2.2.map DirectMipsCall.args
        = [[4 + 4 * ((sceFontNewLib s paramPtr errorCodePtr newLib).2.1.libHeap
              newLib).params_.numFonts]]) := by
  have hs : sceFontNewLib s paramPtr errorCodePtr newLib
      = (0xDEADDEAD, (FontLib.construct { s with mem := s.mem.Write_U32 0 errorCodePtr }
          newLib paramPtr).1,
        (FontLib.construct { s with mem := s.mem.Write_U32 0 errorCodePtr }
          newLib paramPtr).2) := by
    simp [sceFontNewLib, hp, he]
  rw [hs]
  simp only [FontLib.construct, Function.update_same]
  refine ⟨trivial, trivial, trivial, ?_⟩
  intro hle
  simp only [List.map_cons, List.map_nil]
  rw [Nat.mod_eq_of_lt (by omega)]

/-- C17 at a concrete input: four fonts are requested (at most `0x3FFFFFFE`), so the single
argument of the allocator call is `4 + 4 * numFonts`. -/
theorem sceFontNewLib_alloc_call_witness :
    (sceFontNewLib { bootFonts with mem := fourParamsMem } 0x08800000 0x08800100 300).1
      = 0xDEADDEAD ∧
    ((sceFontNewLib { bootFonts with mem := fourParamsMem } 0x08800000 0x08800100
        300).2.1.libHeap 300).params_.numFonts ≤ 0x3FFFFFFE ∧
    (sceFontNewLib { bootFonts with mem := fourParamsMem } 0x08800000 0x08800100
        300).2.2.map DirectMipsCall.args
      = [[4 + 4 * ((sceFontNewLib { bootFonts with mem := fourParamsMem } 0x08800000 0x08800100
              300).2.1.libHeap 300).params_.numFonts]] :=
  ⟨(sceFontNewLib_alloc_call { bootFonts with mem := fourParamsMem }
      0x08800000 0x08800100 300 (by decide) (by decide)).1,
   by decide,
   (sceFontNewLib_alloc_call { bootFonts with mem := fourParamsMem }
      0x08800000 0x08800100 300 (by decide) (by decide)).2.2.2 (by decide)⟩

/-- C17 as stated fails: with `numFonts = 0x3FFFFFFF` in the guest parameters the allocator
is asked for 0 bytes, not for `4 + 4 * 0x3FFFFFFF`. -/
theorem sceFontNewLib_alloc_size_wraps :
    ((sceFontNewLib { bootFonts with mem := hugeParamsMem } 0x08800000 0x08800100
        300).2.1.libHeap 300).params_.numFonts = 0x3FFFFFFF ∧
    (sceFontNewLib { bootFonts with mem := hugeParamsMem } 0x08800000 0x08800100 300).2.2
      = [⟨0x08804000, some 300, [0]⟩] ∧
    (0 : Nat) ≠ 4 + 4 * 0x3FFFFFFF := by
  decide

end SceFont

namespace SceFont

/-! ## C18: `PostAllocCallback::run` -/

/-- C18: when `PostAllocCallback::run` runs with guest return value `A` for a library created
for `K` fonts (the block `A .. A + 4 + 4 * K` inside the 32-bit address space, its slot words
valid guest memory), afterwards the handle of the library is `A`, it has exactly `K` slots
with slot `i` at `A + 4 + 4 * i`, guest memory reads `FONT_IS_CLOSED` at every slot address,
`fontLibMap` maps `A` to the library, and the value set as the return value of the call is
`A`. -/
theorem postAllocCallback_sets_up_library (s : FontState) (p A K : Nat)
    (hK : (s.libHeap p).params_.numFonts = K)
    (hfit : A + 4 + 4 * K ≤ 4294967296)
    (hvalid : ∀ i, i < K → s.mem.valid (A + 4 + 4 * i) = true) :
    ((PostAllocCallback.run s p A).1.libHeap p).handle = A ∧
    ((PostAllocCallback.run s p A).1.libHeap p).fonts_.length = K ∧
    (∀ i, i < K → ((PostAllocCallback.run s p A).1.libHeap p).fonts_.getD i 0 = A + 4 + 4 * i) ∧
    (∀ i, i < K → (PostAllocCallback.run s p A).1.mem.valid (A + 4 + 4 * i) = true ∧
      (PostAllocCallback.run s p A).1.mem.Read_U32 (A + 4 + 4 * i) = FONT_IS_CLOSED) ∧
    GetFontLib (PostAllocCallback.run s p A).1 A = some p ∧
    (PostAllocCallback.run s p A).2 = A := by
  have hv : ∀ i, i < K → s.mem.valid (slotAddr A i) = true := by
    intro i hi
    rw [slotAddr_eq A K i hfit hi]
    exact hvalid i hi
  obtain ⟨h1, hready, hclosed, _, hval, _, _⟩ := postAlloc_ready s p A K hK hfit hv
  have hh : ((PostAllocCallback.run s p A).1.libHeap p).handle = (PostAllocCallback.run s p A).2 :=
    rfl
  refine ⟨hh.trans h1, ?_, ?_, ?_, hready.registered, h1⟩
  · rw [hready.slots]; simp
  · intro i hi
    rw [hready.slots, slots_getD A K i hi, slotAddr_eq A K i hfit hi]
  · intro i hi
    have e := slotAddr_eq A K i hfit hi
    refine ⟨?_, ?_⟩
    · rw [hval]; exact hvalid i hi
    · rw [← e]; exact hclosed i hi

/-- C18 at a concrete input: the library of `bootFonts` (two fonts) with the guest block at
`0x08900000`. -/
theorem postAllocCallback_sets_up_library_witness :
    ((PostAllocCallback.run bootFonts 200 0x08900000).1.libHeap 200).handle = 0x08900000 ∧
    ((PostAllocCallback.run bootFonts 200 0x08900000).1.libHeap 200).fonts_.length = 2 ∧
    (∀ i, i < 2 → ((PostAllocCallback.run bootFonts 200 0x08900000).1.libHeap 200).fonts_.getD i 0
      = 0x08900000 + 4 + 4 * i) ∧
    (∀ i, i < 2 →
      (PostAllocCallback.run bootFonts 200 0x08900000).1.mem.valid (0x08900000 + 4 + 4 * i) = true ∧
      (PostAllocCallback.run bootFonts 200 0x08900000).1.mem.Read_U32 (0x08900000 + 4 + 4 * i)
        = FONT_IS_CLOSED) ∧
    GetFontLib (PostAllocCallback.run bootFonts 200 0x08900000).1 0x08900000 = some 200 ∧
    (PostAllocCallback.run bootFonts 200 0x08900000).2 = 0x08900000 :=
  postAllocCallback_sets_up_library bootFonts 200 0x08900000 2 (by decide) (by decide)
    (by decide)

end SceFont

namespace SceFont

/-! ## C19: `sceFontDoneLib` -/

/-- The loop of `FontLib::Done` over a slot list without repetitions, when every slot that
reads `FONT_IS_OPEN` has a wrapper: it runs to the end, erases these wrappers and touches
nothing else. -/
theorem doneLoop_spec :
    ∀ (l : List Nat) (s : FontState), l.Nodup →
      (∀ a, a ∈ l → s.mem.Read_U32 a = FONT_IS_OPEN → (s.fontMap a).isSome = true) →
      ∃ s1, doneLoop s l = some s1 ∧ s1.mem = s.mem ∧ s1.libHeap = s.libHeap ∧
        s1.fontLibMap = s.fontLibMap ∧ s1.internalFonts = s.internalFonts ∧
        s1.fontHeap = s.fontHeap ∧
        (∀ a, a ∈ l → s.mem.Read_U32 a = FONT_IS_OPEN → s1.fontMap a = none) ∧
        (∀ a, ¬ (a ∈ l ∧ s.mem.Read_U32 a = FONT_IS_OPEN) → s1.fontMap a = s.fontMap a) := by
  intro l
  induction l with
  | nil =>
    intro s _ _
    exact ⟨s, rfl, rfl, rfl, rfl, rfl, rfl, fun a h => by simp at h, fun a _ => rfl⟩
  | cons x rest ih =>
    intro s hn hw
    obtain ⟨hx, hrest⟩ := List.nodup_cons.1 hn
    by_cases ho : s.mem.Read_U32 x = FONT_IS_OPEN
    · have hsome := hw x (List.mem_cons_self _ _) ho
      cases hf : s.fontMap x with
      | none => rw [hf] at hsome; simp at hsome
      | some f =>
        have hw2 : ∀ a, a ∈ rest →
            ({ s with fontMap := Function.update s.fontMap x none } : FontState).mem.Read_U32 a
              = FONT_IS_OPEN →
            (({ s with fontMap := Function.update s.fontMap x none } : FontState).fontMap
              a).isSome = true := by
          intro a ha hoa
          have hax : a ≠ x := fun e => hx (e ▸ ha)
          simp only [Function.update_noteq hax]
          exact hw a (List.mem_cons_of_mem _ ha) hoa
        obtain ⟨s1, h1, h2, h3, h4, h5, h6, h7, h8⟩ := ih _ hrest hw2
        refine ⟨s1, ?_, h2, h3, h4, h5, h6, ?_, ?_⟩
        · simp only [doneLoop, ho, if_true, hf]
          exact h1
        · intro a ha hoa
          rcases List.mem_cons.1 ha with e | hr
          · subst e
            rw [h8 a (fun hh => hx hh.1)]
            simp
          · exact h7 a hr hoa
        · intro a hna
          have hax : a ≠ x := fun e => hna ⟨e ▸ List.mem_cons_self _ _, e ▸ ho⟩
          rw [h8 a (fun hh => hna ⟨List.mem_cons_of_mem _ hh.1, hh.2⟩)]
          simp [Function.update_noteq hax]
    · have hw2 : ∀ a, a ∈ rest → s.mem.Read_U32 a = FONT_IS_OPEN →
          (s.fontMap a).isSome = true :=
        fun a ha hoa => hw a (List.mem_cons_of_mem _ ha) hoa
      obtain ⟨s1, h1, h2, h3, h4, h5, h6, h7, h8⟩ := ih s hrest hw2
      refine ⟨s1, ?_, h2, h3, h4, h5, h6, ?_, ?_⟩
      · simp only [doneLoop, ho, if_false]
        exact h1
      · intro a ha hoa
        rcases List.mem_cons.1 ha with e | hr
        · subst e; exact absurd hoa ho
        · exact h7 a hr hoa
      · intro a hna
        exact h8 a (fun hh => hna ⟨List.mem_cons_of_mem _ hh.1, hh.2⟩)

/-- C19 (as amended): for a handle `h` registered for the library object `p` (its slot list
without repetitions, a wrapper in `fontMap` for every slot that reads `FONT_IS_OPEN`),
`sceFontDoneLib(h)` returns 0, issues one guest call to the free function with the handle of
the library, zeroes `handle_`, empties the slot list and erases the wrappers of the open slots
from `fontMap`; it leaves guest memory and `fontLibMap` unchanged, so `GetFontLib(h)` still
resolves to `p`. -/
theorem sceFontDoneLib_keeps_registration (s : FontState) (h p : Nat)
    (hreg : GetFontLib s h = some p)
    (hnodup : (s.libHeap p).fonts_.Nodup)
    (hwrap : ∀ a, a ∈ (s.libHeap p).fonts_ → s.mem.Read_U32 a = FONT_IS_OPEN →
      (s.fontMap a).isSome = true) :
    ∃ s2, sceFontDoneLib s h
        = some (0, s2, [⟨(s.libHeap p).params_.freeFuncAddr, none, [(s.libHeap p).handle]⟩]) ∧
      GetFontLib s2 h = some p ∧
      s2.fontLibMap = s.fontLibMap ∧
      s2.mem = s.mem ∧
      (s2.libHeap p).handle_ = 0 ∧
      (s2.libHeap p).fonts_ = [] ∧
      (∀ a, a ∈ (s.libHeap p).fonts_ → s.mem.Read_U32 a = FONT_IS_OPEN → s2.fontMap a = none) := by
  obtain ⟨s1, h1, h2, h3, h4, _, _, h7, _⟩ := doneLoop_spec _ s hnodup hwrap
  let lib : FontLib := { s1.libHeap p with handle_ := 0, fonts_ := [] }
  refine ⟨{ s1 with libHeap := Function.update s1.libHeap p lib }, ?_, ?_, h4, h2, ?_, ?_, h7⟩
  · simp only [sceFontDoneLib, hreg, FontLib.Done, h1, Option.map_some', h3, FontLib.handle,
      lib]
  · simp only [GetFontLib] at hreg ⊢
    rw [h4]; exact hreg
  · simp
  · simp

/-- C19 at a concrete input: the library of `fullFonts`, both slots open. -/
theorem sceFontDoneLib_keeps_registration_witness :
    ∃ s2, sceFontDoneLib fullFonts 0x08900000
        = some (0, s2, [⟨(fullFonts.libHeap 200).params_.freeFuncAddr, none,
            [(fullFonts.libHeap 200).handle]⟩]) ∧
      GetFontLib s2 0x08900000 = some 200 ∧
      s2.fontLibMap = fullFonts.fontLibMap ∧
      s2.mem = fullFonts.mem ∧
      (s2.libHeap 200).handle_ = 0 ∧
      (s2.libHeap 200).fonts_ = [] ∧
      (∀ a, a ∈ (fullFonts.libHeap 200).fonts_ → fullFonts.mem.Read_U32 a = FONT_IS_OPEN →
        s2.fontMap a = none) :=
  sceFontDoneLib_keeps_registration fullFonts 0x08900000 200 (by decide) (by decide)
    (by decide)

/-- C19 as stated fails: after `sceFontDoneLib` on the registered handle of `fullFonts`,
`GetFontLib` still resolves the handle to the library object. -/
theorem sceFontDoneLib_handle_still_resolves :
    GetFontLib fullFonts 0x08900000 = some 200 ∧
    (sceFontDoneLib fullFonts 0x08900000).map (fun r => r.1) = some 0 ∧
    (sceFontDoneLib fullFonts 0x08900000).map (fun r => GetFontLib r.2.1 0x08900000)
      = some (some 200) := by
  decide

end SceFont

namespace SceFont

/-! ## C20: `sceFontClose` -/

theorem Write_U32_twice (m : Memory) (data address : Nat) :
    (m.Write_U32 data address).Write_U32 data address = m.Write_U32 data address := by
  by_cases hv : m.valid address = true
  · simp only [Memory.Write_U32, hv, if_true]
    congr 1
    funext x
    by_cases h0 : x = address
    · simp [h0]
    · by_cases h1 : x = address + 1
      · simp [h1]
      · by_cases h2 : x = address + 2
        · simp [h2]
        · by_cases h3 : x = address + 3
          · simp [h3]
          · simp [h0, h1, h2, h3]
  · simp [Memory.Write_U32, hv]

/-- The loop of `FontLib::CloseFont` on a slot list that holds the handle amounts to one
write of `FONT_IS_CLOSED` at the handle. -/
theorem closeFontLoop_mem (handle : Nat) :
    ∀ (l : List Nat) (m : Memory), handle ∈ l →
      closeFontLoop m handle l = m.Write_U32 FONT_IS_CLOSED handle := by
  intro l
  induction l with
  | nil => intro m h; simp at h
  | cons a rest ih =>
    intro m h
    by_cases ha : a = handle
    · subst ha
      by_cases hr : a ∈ rest
      · simp only [closeFontLoop, if_true]
        rw [ih _ hr, Write_U32_twice]
      · simp only [closeFontLoop, if_true]
        rw [closeFontLoop_not_mem a rest _ hr]
    · have hr : handle ∈ rest := by
        rcases List.mem_cons.1 h with e | e
        · exact absurd e.symm ha
        · exact e
      simp only [closeFontLoop, ha, if_false]
      exact ih m hr

end SceFont

namespace SceFont

/-! ## C22: `sceFontOpen` on a library handle that is not registered -/

/-- C22: with a valid error pointer and a catalog index in range, `sceFontOpen` on a library
handle that `GetFontLib` does not resolve reaches `fontLib->OpenFont(...)` with the null
pointer; `sceFontOpenUserMemory`, given the same handle, returns 0 and reports
`ERROR_FONT_INVALID_PARAMETER` through the error pointer. -/
theorem sceFontOpen_unregistered_library (s : FontState)
    (libHandle index mode errorCodePtr : Nat)
    (hlib : GetFontLib s libHandle = none)
    (herr : s.mem.IsValidAddress errorCodePtr = true)
    (hidx : index < s.internalFonts.length) :
    sceFontOpen s libHandle index mode errorCodePtr = none ∧
    (∀ (memoryFontAddrPtr memoryFontLength newFont : Nat) (parsed : Font),
      s.mem.IsValidAddress memoryFontAddrPtr = true →
      sceFontOpenUserMemory s libHandle memoryFontAddrPtr memoryFontLength errorCodePtr
          newFont parsed
        = (0, { s with mem := s.mem.Write_U32 ERROR_FONT_INVALID_PARAMETER errorCodePtr })) := by
  constructor
  · have h2 : ¬ (index ≥ s.internalFonts.length) := by omega
    simp [sceFontOpen, herr, h2, hlib]
  · intro a l n f ha
    simp [sceFontOpenUserMemory, herr, ha, hlib]

/-- C22 at a concrete input: in `bootFonts` no library is registered. -/
theorem sceFontOpen_unregistered_library_witness :
    sceFontOpen bootFonts 0x08900000 0 0 0x08800000 = none ∧
    (∀ (memoryFontAddrPtr memoryFontLength newFont : Nat) (parsed : Font),
      bootFonts.mem.IsValidAddress memoryFontAddrPtr = true →
      sceFontOpenUserMemory bootFonts 0x08900000 memoryFontAddrPtr memoryFontLength 0x08800000
          newFont parsed
        = (0, { bootFonts with
            mem := bootFonts.mem.Write_U32 ERROR_FONT_INVALID_PARAMETER 0x08800000 })) :=
  sceFontOpen_unregistered_library bootFonts 0x08900000 0 0 0x08800000 (by decide) (by decide)
    (by decide)

end SceFont

namespace SceFont

/-! ## C21: queries on a closed font -/

/-- C21 (as amended): after `sceFontClose` on an open font handle `h` (wrapper `f`),
`sceFontGetFontInfo(h)` still resolves the font and answers from its PGF, while
`sceFontGetCharInfo`, `sceFontGetCharImageRect` and `sceFontGetCharGlyphImage` do not
consult the font: with valid pointers they return 0, the first writing the all-zero record,
the other two doing nothing. -/
theorem queries_after_sceFontClose (s : FontState) (h : Nat) (f : LoadedFont) (p : Nat)
    (hf : s.fontMap h = some f) (hp : f.fontLib_ = some p) :
    GetLoadedFont (sceFontClose s h).2 h true = some { f with fontLib_ := none } ∧
    GetLoadedFont (sceFontClose s h).2 h false = none ∧
    (∀ fontInfoPtr, s.mem.IsValidAddress fontInfoPtr = true →
      sceFontGetFontInfo (sceFontClose s h).2 h fontInfoPtr
        = (0, [FontEffect.pgfGetFontInfo f.font_,
               FontEffect.writeFontInfo fontInfoPtr f.font_])) ∧
    (∀ charCode charInfoPtr, s.mem.IsValidAddress charInfoPtr = true →
      sceFontGetCharInfo (sceFontClose s h).2 h charCode charInfoPtr
        = (0, [FontEffect.writeCharInfo charInfoPtr none])) ∧
    (∀ charCode charRectPtr, s.mem.IsValidAddress charRectPtr = true →
      sceFontGetCharImageRect (sceFontClose s h).2 h charCode charRectPtr = (0, [])) ∧
    (∀ charCode glyphImagePtr,
      sceFontGetCharGlyphImage (sceFontClose s h).2 h charCode glyphImagePtr = some (0, [])) := by
  have hclose : sceFontClose s h
      = (0, { s with
          mem := closeFontLoop s.mem f.handle_ (s.libHeap p).fonts_
          fontMap := Function.update s.fontMap h (some f.Close) }) := by
    simp only [sceFontClose, GetLoadedFont, hf, LoadedFont.IsOpen, hp, Option.isSome_some,
      Bool.true_or, if_true, LoadedFont.GetFontLib, FontLib.CloseFont, LoadedFont.Handle]
  have hvalid : ∀ m a l, (closeFontLoop m a l).valid = m.valid := by
    intro m a l
    induction l generalizing m with
    | nil => rfl
    | cons x xs ih =>
      simp only [closeFontLoop]
      split_ifs
      · rw [ih, Memory.valid_Write_U32]
      · exact ih m
  have h1 : GetLoadedFont (sceFontClose s h).2 h true = some { f with fontLib_ := none } := by
    rw [hclose]
    simp [GetLoadedFont, LoadedFont.Close]
  have h2 : GetLoadedFont (sceFontClose s h).2 h false = none := by
    rw [hclose]
    simp [GetLoadedFont, LoadedFont.Close, LoadedFont.IsOpen]
  have hv : (sceFontClose s h).2.mem.valid = s.mem.valid := by
    rw [hclose]
    exact hvalid _ _ _
  refine ⟨h1, h2, ?_, ?_, ?_, ?_⟩
  · intro ptr hptr
    simp only [sceFontGetFontInfo, Memory.IsValidAddress, hv, h1] at hptr ⊢
    simp [hptr]
  · intro c ptr hptr
    simp only [sceFontGetCharInfo, Memory.IsValidAddress, hv, h2] at hptr ⊢
    simp [hptr]
  · intro c ptr hptr
    simp only [sceFontGetCharImageRect, Memory.IsValidAddress, hv, h2] at hptr ⊢
    simp [hptr]
  · intro c ptr
    simp only [sceFontGetCharGlyphImage, h2]

/-- C21 at a concrete input: the first slot of `fullFonts`, holding the font at address 100. -/
theorem queries_after_sceFontClose_witness :
    GetLoadedFont (sceFontClose fullFonts 0x08900004).2 0x08900004 true
      = some { (⟨100, some 200, 0x08900004⟩ : LoadedFont) with fontLib_ := none } ∧
    GetLoadedFont (sceFontClose fullFonts 0x08900004).2 0x08900004 false = none ∧
    (∀ fontInfoPtr, fullFonts.mem.IsValidAddress fontInfoPtr = true →
      sceFontGetFontInfo (sceFontClose fullFonts 0x08900004).2 0x08900004 fontInfoPtr
        = (0, [FontEffect.pgfGetFontInfo (⟨100, some 200, 0x08900004⟩ : LoadedFont).font_,
               FontEffect.writeFontInfo fontInfoPtr
                 (⟨100, some 200, 0x08900004⟩ : LoadedFont).font_])) ∧
    (∀ charCode charInfoPtr, fullFonts.mem.IsValidAddress charInfoPtr = true →
      sceFontGetCharInfo (sceFontClose fullFonts 0x08900004).2 0x08900004 charCode charInfoPtr
        = (0, [FontEffect.writeCharInfo charInfoPtr none])) ∧
    (∀ charCode charRectPtr, fullFonts.mem.IsValidAddress charRectPtr = true →
      sceFontGetCharImageRect (sceFontClose fullFonts 0x08900004).2 0x08900004 charCode
        charRectPtr = (0, [])) ∧
    (∀ charCode glyphImagePtr,
      sceFontGetCharGlyphImage (sceFontClose fullFonts 0x08900004).2 0x08900004 charCode
        glyphImagePtr = some (0, [])) :=
  queries_after_sceFontClose fullFonts 0x08900004 ⟨100, some 200, 0x08900004⟩ 200
    (by decide) (by decide)

/-- C21 as stated fails: on the closed handle of `closedFonts` the character queries do not
resolve the font.  `sceFontGetCharInfo` writes the all-zero record without consulting a PGF,
`sceFontGetCharImageRect` and `sceFontGetCharGlyphImage` do nothing, exactly as for the
handle `0x08900010`, which was never opened; on the handle that is still open they answer from
the font at address 101. -/
theorem char_queries_reject_closed_font :
    (closedFonts.fontMap 0x08900004).map LoadedFont.IsOpen = some false ∧
    closedFonts.fontMap 0x08900010 = none ∧
    sceFontGetFontInfo closedFonts 0x08900004 0x08800000
      = (0, [FontEffect.pgfGetFontInfo 100, FontEffect.writeFontInfo 0x08800000 100]) ∧
    sceFontGetCharInfo closedFonts 0x08900004 65 0x08800000
      = (0, [FontEffect.writeCharInfo 0x08800000 none]) ∧
    sceFontGetCharInfo closedFonts 0x08900010 65 0x08800000
      = (0, [FontEffect.writeCharInfo 0x08800000 none]) ∧
    sceFontGetCharInfo closedFonts 0x08900008 65 0x08800000
      = (0, [FontEffect.pgfGetCharInfo 101 65, FontEffect.writeCharInfo 0x08800000 (some 101)]) ∧
    sceFontGetCharImageRect closedFonts 0x08900004 65 0x08800000 = (0, []) ∧
    sceFontGetCharImageRect closedFonts 0x08900010 65 0x08800000 = (0, []) ∧
    sceFontGetCharImageRect closedFonts 0x08900008 65 0x08800000
      = (0, [FontEffect.pgfGetCharInfo 101 65, FontEffect.writeCharRect 0x08800000 101]) ∧
    sceFontGetCharGlyphImage closedFonts 0x08900004 65 0x08800000 = some (0, []) ∧
    sceFontGetCharGlyphImage closedFonts 0x08900010 65 0x08800000 = some (0, []) ∧
    sceFontGetCharGlyphImage closedFonts 0x08900008 65 0x08800000
      = some (0, [FontEffect.pgfDrawCharacter 101 0 0 0 0 0 0 0 0 8192 8192 0 65 0]) := by
  decide

end SceFont

namespace SceDisplay

/-! ## C23: the wait calls that always block -/

/-- C23: in every display state, whatever the value of `isVblank`, `sceDisplayWaitVblankStart`
and `sceDisplayWaitVblankStartCB` return 0, append exactly one waiter (the calling thread,
count 1) at the end of `vblankWaitingThreads`, suspend the calling thread with one
`__KernelWaitCurThread` call and change nothing else; the two differ only in the
`processCallbacks` flag of that call (`false` for the plain call, `true` for the CB one). -/
theorem waitVblankStart_always_blocks (w : World) (cur : Nat) :
    sceDisplayWaitVblankStart w cur
      = (0, { w with
          vblankWaitingThreads := w.vblankWaitingThreads ++ [⟨cur, 1⟩]
          effects := w.effects ++ [Effect.waitCurThread cur false] }) ∧
    sceDisplayWaitVblankStartCB w cur
      = (0, { w with
          vblankWaitingThreads := w.vblankWaitingThreads ++ [⟨cur, 1⟩]
          effects := w.effects ++ [Effect.waitCurThread cur true] }) ∧
    (∀ phase : Int, (sceDisplayWaitVblankStart { w with isVblank := phase } cur).1 = 0 ∧
      (sceDisplayWaitVblankStart { w with isVblank := phase } cur).2.vblankWaitingThreads
        = w.vblankWaitingThreads ++ [⟨cur, 1⟩] ∧
      (sceDisplayWaitVblankStartCB { w with isVblank := phase } cur).1 = 0 ∧
      (sceDisplayWaitVblankStartCB { w with isVblank := phase } cur).2.vblankWaitingThreads
        = w.vblankWaitingThreads ++ [⟨cur, 1⟩]) :=
  ⟨rfl, rfl, fun _ => ⟨rfl, rfl, rfl, rfl⟩⟩

end SceDisplay

namespace SceDisplay

/-! ## C25: `sceDisplayWaitVblankStartMulti` with a count of zero or less -/

theorem wakeAll_single_nonpositive (tid : Nat) (c : Int) (h1 : c ≤ 0) (h2 : -2147483648 < c) :
    wakeAll [⟨tid, c⟩] = ([⟨tid, c - 1⟩], []) := by
  have hw : wrapS32 (c - 1) = c - 1 := wrapS32_of_range _ (by omega) (by omega)
  have hne : c - 1 ≠ 0 := by omega
  simp [wakeAll, hw, hne]

/-- A waiter `(tid, c)` with `c ≤ 0` survives every event sequence, its count going down by
one per vblank as long as the `int` does not underflow, and its thread is not resumed
meanwhile. -/
theorem run_waiting_nonpositive (tid : Nat) (tr : List Op) :
    ∀ (w : World) (c : Int),
      waitersOf tid w.vblankWaitingThreads = [⟨tid, c⟩] →
      c ≤ 0 → -2147483648 ≤ c - (countEnter tr : Int) →
      (∀ op ∈ tr, op.waitCaller ≠ some tid) →
      w.vblankWaitingThreads.length + tr.length < sizeT →
      waitersOf tid (run w tr).vblankWaitingThreads = [⟨tid, c - countEnter tr⟩] ∧
      resumeCount tid (run w tr).effects = resumeCount tid w.effects ∧
      (run w tr).vblankWaitingThreads.length ≤ w.vblankWaitingThreads.length + tr.length := by
  induction tr with
  | nil => intro w c hw _ _ _ _; simp [run, countEnter, hw]
  | cons op ops ih =>
    intro w c hw hc hmin hblocked hsz
    have hb1 : op.waitCaller ≠ some tid := hblocked op (List.mem_cons_self _ _)
    have hb2 : ∀ o ∈ ops, o.waitCaller ≠ some tid :=
      fun o ho => hblocked o (List.mem_cons_of_mem _ ho)
    have hlen : w.vblankWaitingThreads.length + ops.length + 1 < sizeT := by
      simpa [Nat.add_assoc] using hsz
    rw [countEnter_cons] at hmin ⊢
    simp only [run]
    cases he : op.isEnterVblank with
    | true =>
      rw [he] at hmin
      simp only [if_true, Nat.cast_add, Nat.cast_one] at hmin ⊢
      have hcn : (0 : Int) ≤ (countEnter ops : Int) := Int.ofNat_nonneg _
      cases op <;> simp [Op.isEnterVblank] at he
      rename_i userdata cyclesLate env
      obtain ⟨hv, hr⟩ := hleEnterVblank_waiters w userdata cyclesLate env (by omega)
      have hk := wakeAll_single_nonpositive tid c hc (by omega)
      have hv2 : waitersOf tid (step w (Op.enterVblank userdata cyclesLate env)).vblankWaitingThreads
          = [⟨tid, c - 1⟩] := by
        simp only [step]
        rw [hv, (waitersOf_wakeAll tid _).1, hw, hk]
      have hr2 : resumeCount tid (step w (Op.enterVblank userdata cyclesLate env)).effects
          = resumeCount tid w.effects := by
        simp only [step]
        rw [hr tid, (waitersOf_wakeAll tid _).2, hw, hk]
        simp [resumeCount]
      have hl2 : (step w (Op.enterVblank userdata cyclesLate env)).vblankWaitingThreads.length
          ≤ w.vblankWaitingThreads.length := by
        simp only [step]
        rw [hv]
        exact wakeAll_length _
      obtain ⟨i1, i2, i3⟩ := ih _ (c - 1) hv2 (by omega) (by omega) hb2 (by omega)
      refine ⟨?_, ?_, ?_⟩
      · rw [i1]
        congr 2
        omega
      · rw [i2, hr2]
      · simp only [List.length_cons]
        omega
    | false =>
      rw [he] at hmin
      simp only [Bool.false_eq_true, if_false, Nat.add_zero] at hmin ⊢
      obtain ⟨s1, s2, s3⟩ := step_other w tid op he hb1
      obtain ⟨i1, i2, i3⟩ := ih (step w op) c (by rw [s1, hw]) hc hmin hb2 (by omega)
      refine ⟨i1, by rw [i2, s2], ?_⟩
      simp only [List.length_cons]
      omega

/-- C25: let a running thread `tid` (no waiter of its own queued) call
`sceDisplayWaitVblankStartMulti(N)` with `N ≤ 0`, in any phase and with any other waiters
queued, and let any events follow in which `tid`, being blocked, issues no further wait call
(the waiter vector staying within the range of its `size_t` index).  If the sequence holds
`k` `hleEnterVblank` events and `N - k` does not underflow a 32-bit `int`, then afterwards the
thread still has exactly one waiter, with count `N - k`, and has not been resumed. -/
theorem waitVblankStartMulti_nonpositive_never_resumed
    (w : World) (tid : Nat) (N : Int) (tr : List Op)
    (hN : N ≤ 0) (hmin : -2147483648 ≤ N - (countEnter tr : Int))
    (hfresh : waitersOf tid w.vblankWaitingThreads = [])
    (hblocked : ∀ op ∈ tr, op.waitCaller ≠ some tid)
    (hsize : w.vblankWaitingThreads.length + tr.length + 1 < sizeT) :
    waitersOf tid (run (sceDisplayWaitVblankStartMulti w tid N).2 tr).vblankWaitingThreads
        = [⟨tid, N - countEnter tr⟩] ∧
    resumeCount tid (run (sceDisplayWaitVblankStartMulti w tid N).2 tr).effects
        = resumeCount tid w.effects := by
  have h0 : waitersOf tid (sceDisplayWaitVblankStartMulti w tid N).2.vblankWaitingThreads
      = [⟨tid, N⟩] := by
    simp only [waitersOf] at hfresh
    simp [sceDisplayWaitVblankStartMulti, pushAndWait, World.emit, waitersOf,
      List.filter_append, hfresh]
  have hl0 : (sceDisplayWaitVblankStartMulti w tid N).2.vblankWaitingThreads.length
      = w.vblankWaitingThreads.length + 1 := by
    simp [sceDisplayWaitVblankStartMulti, pushAndWait, World.emit]
  have hr0 : resumeCount tid (sceDisplayWaitVblankStartMulti w tid N).2.effects
      = resumeCount tid w.effects := by
    simp [sceDisplayWaitVblankStartMulti, pushAndWait, World.emit, resumeCount,
      Effect.isResumeOf]
  obtain ⟨i1, i2, _⟩ := run_waiting_nonpositive tid tr _ N h0 hN hmin hblocked (by omega)
  exact ⟨i1, by rw [i2, hr0]⟩

/-- C25 at a concrete input: thread 7 waits for -1 vblanks on a freshly initialised display;
after three vblanks its waiter is still queued, with count -4, and it has not been resumed. -/
theorem waitVblankStartMulti_nonpositive_never_resumed_witness :
    waitersOf 7 (run (sceDisplayWaitVblankStartMulti bootWorld 7 (-1)).2
        [Op.enterVblank 0 0 idleEnv, Op.leaveVblank 1 0, Op.enterVblank 1 0 idleEnv,
         Op.leaveVblank 2 0, Op.enterVblank 2 0 idleEnv]).vblankWaitingThreads
      = [⟨7, -1 - countEnter [Op.enterVblank 0 0 idleEnv, Op.leaveVblank 1 0,
          Op.enterVblank 1 0 idleEnv, Op.leaveVblank 2 0, Op.enterVblank 2 0 idleEnv]⟩] ∧
    resumeCount 7 (run (sceDisplayWaitVblankStartMulti bootWorld 7 (-1)).2
        [Op.enterVblank 0 0 idleEnv, Op.leaveVblank 1 0, Op.enterVblank 1 0 idleEnv,
         Op.leaveVblank 2 0, Op.enterVblank 2 0 idleEnv]).effects
      = resumeCount 7 bootWorld.effects :=
  waitVblankStartMulti_nonpositive_never_resumed bootWorld 7 (-1)
    [Op.enterVblank 0 0 idleEnv, Op.leaveVblank 1 0, Op.enterVblank 1 0 idleEnv,
     Op.leaveVblank 2 0, Op.enterVblank 2 0 idleEnv]
    (by decide) (by decide) (by decide) (by decide) (by decide)

end SceDisplay

namespace SceFont

/-! ## C24: guest flags and host wrappers -/

theorem closeFontLoop_valid (handle : Nat) :
    ∀ (l : List Nat) (m : Memory), (closeFontLoop m handle l).valid = m.valid := by
  intro l
  induction l with
  | nil => intro m; rfl
  | cons x xs ih =>
    intro m
    simp only [closeFontLoop]
    split_ifs
    · rw [ih, Memory.valid_Write_U32]
    · exact ih m

/-- A read of a word disjoint from the handle is not affected by the loop of `CloseFont`. -/
theorem closeFontLoop_read (handle b : Nat) (h : b + 4 ≤ handle ∨ handle + 4 ≤ b) :
    ∀ (l : List Nat) (m : Memory), (closeFontLoop m handle l).Read_U32 b = m.Read_U32 b := by
  intro l
  induction l with
  | nil => intro m; rfl
  | cons x xs ih =>
    intro m
    simp only [closeFontLoop]
    split_ifs
    · rw [ih, Memory.Read_Write_disjoint _ _ _ _ h]
    · exact ih m

/-- A read of a slot of the table at `A` is not affected by a write outside the table. -/
theorem read_slot_outside (m : Memory) (data A K a i : Nat)
    (hfit : A + 4 + 4 * K ≤ 4294967296) (hi : i < K) (ha : outsideSlots A K a) :
    (m.Write_U32 data a).Read_U32 (slotAddr A i) = m.Read_U32 (slotAddr A i) := by
  rw [slotAddr_eq A K i hfit hi]
  unfold outsideSlots at ha
  exact Memory.Read_Write_disjoint _ _ _ _ (by omega)

theorem slot_ne_outside (A K a i : Nat) (hfit : A + 4 + 4 * K ≤ 4294967296) (hi : i < K)
    (ha : outsideSlots A K a) : slotAddr A i ≠ a := by
  rw [slotAddr_eq A K i hfit hi]
  unfold outsideSlots at ha
  omega

/-- The result of `FontLib::OpenFont`: nothing, or a wrapper for a slot of the library (or
for the value 0) with `FONT_IS_OPEN` written at the slot. -/
theorem OpenFont_result (lib : FontLib) (self : Nat) (m : Memory) (font : Nat) :
    lib.OpenFont self m font = (none, m) ∨
    ∃ slot, (slot ∈ lib.fonts_ ∨ slot = 0) ∧
      lib.OpenFont self m font
        = (some ⟨font, some self, slot⟩, m.Write_U32 FONT_IS_OPEN slot) := by
  unfold FontLib.OpenFont
  simp only
  split_ifs with h
  · exact Or.inl rfl
  · refine Or.inr ⟨lib.fonts_.getD (freeFontIndexFrom m lib.fonts_ 0).toNat 0, ?_, rfl⟩
    rw [List.getD_eq_getElem?_getD]
    cases hg : lib.fonts_[(freeFontIndexFrom m lib.fonts_ 0).toNat]? with
    | none => exact Or.inr rfl
    | some x => exact Or.inl (List.getElem?_mem hg)

/-- The invariant carries over to a state with the same tables and the same slot flags. -/
theorem SlotInv.of_same {s s1 : FontState} {p A K : Nat} (hinv : SlotInv s p A K)
    (h1 : s1.mem.valid = s.mem.valid) (h2 : s1.libHeap = s.libHeap)
    (h3 : s1.fontLibMap = s.fontLibMap) (h4 : s1.fontMap = s.fontMap)
    (h5 : ∀ i, i < K → s1.mem.Read_U32 (slotAddr A i) = s.mem.Read_U32 (slotAddr A i)) :
    SlotInv s1 p A K := by
  refine ⟨hinv.ready.transfer h1 h2 h3, ?_, ?_, ?_, ?_, ?_⟩
  · rw [h3]; exact hinv.only
  · rw [h4]; exact hinv.own
  · rw [h4]; exact hinv.foreign
  · rw [h2]; exact hinv.tables
  · intro i hi
    rw [h4, h5 i hi]
    exact hinv.agree i hi

/-- The invariant survives a host write outside the slot table. -/
theorem SlotInv.write_outside {s : FontState} {p A K : Nat} (hinv : SlotInv s p A K)
    (data a : Nat) (ha : outsideSlots A K a) :
    SlotInv { s with mem := s.mem.Write_U32 data a } p A K :=
  hinv.of_same (Memory.valid_Write_U32 _ _ _) rfl rfl rfl
    (fun i hi => read_slot_outside _ _ A K a i hinv.ready.fits hi ha)

/-- With a registered library handle `sceFontOpen` returns. -/
theorem sceFontOpen_returns (s : FontState) (libHandle index mode errorCodePtr : Nat)
    (hlib : (GetFontLib s libHandle).isSome = true) :
    (sceFontOpen s libHandle index mode errorCodePtr).isSome = true := by
  cases hg : GetFontLib s libHandle with
  | none => rw [hg] at hlib; simp at hlib
  | some q =>
    simp only [sceFontOpen, hg]
    split_ifs
    · rfl
    · rfl
    · split <;> rfl

/-- One `sceFontOpen` with its error pointer outside the slot table keeps the invariant and
the library table. -/
theorem SlotInv.openStep {s : FontState} {p A K : Nat} (hinv : SlotInv s p A K)
    (libHandle index mode errorCodePtr : Nat) (herr : outsideSlots A K errorCodePtr)
    (r : Nat × FontState)
    (hr : sceFontOpen s libHandle index mode errorCodePtr = some r) :
    SlotInv r.2 p A K ∧ r.2.fontLibMap = s.fontLibMap := by
  have hfit := hinv.ready.fits
  by_cases hv : s.mem.valid errorCodePtr = true
  swap
  · have hs : sceFontOpen s libHandle index mode errorCodePtr
        = some (0, { s with mem := s.mem.Write_U32 ERROR_FONT_INVALID_PARAMETER errorCodePtr }) := by
      simp [sceFontOpen, Memory.IsValidAddress, hv]
    rw [hs] at hr
    cases hr
    exact ⟨hinv.write_outside _ _ herr, rfl⟩
  by_cases hidx : index ≥ s.internalFonts.length
  · have hs : sceFontOpen s libHandle index mode errorCodePtr
        = some (0, { s with mem := s.mem.Write_U32 ERROR_FONT_INVALID_PARAMETER errorCodePtr }) := by
      simp [sceFontOpen, Memory.IsValidAddress, hv, hidx]
    rw [hs] at hr
    cases hr
    exact ⟨hinv.write_outside _ _ herr, rfl⟩
  cases hg : GetFontLib s libHandle with
  | none =>
    have hs : sceFontOpen s libHandle index mode errorCodePtr = none := by
      simp [sceFontOpen, Memory.IsValidAddress, hv, hidx, hg]
    rw [hs] at hr
    cases hr
  | some q =>
    by_cases hq : q = p
    · subst hq
      have hH : libHandle = A := hinv.only libHandle hg
      subst hH
      have ha : OpenArgs.ok s libHandle K ⟨index, mode, errorCodePtr⟩ :=
        ⟨by simpa using hidx, hv, herr⟩
      by_cases hex : ∃ j, j < K ∧ s.mem.Read_U32 (slotAddr libHandle j) = FONT_IS_CLOSED
      · obtain ⟨hj, hz⟩ := Nat.find_spec hex
        have hb : ∀ i, i < Nat.find hex →
            s.mem.Read_U32 (slotAddr libHandle i) ≠ FONT_IS_CLOSED := by
          intro i hi hc
          exact Nat.find_min hex hi ⟨by omega, hc⟩
        obtain ⟨s1, e1, _, e3, e4, e5, e6, e7, _, _, e10⟩ :=
          sceFontOpen_free s q libHandle K hinv.ready ⟨index, mode, errorCodePtr⟩ ha
            (Nat.find hex) hj hz hb
        simp only at e1
        rw [e1] at hr
        cases hr
        refine ⟨⟨hinv.ready.transfer e5 e6 e7, ?_, ?_, ?_, ?_, ?_⟩, e7⟩
        · rw [e7]; exact hinv.only
        · intro h f hf hl
          rw [e10] at hf
          by_cases hh : h = slotAddr libHandle (Nat.find hex)
          · subst hh
            simp only [Function.update_same, Option.some.injEq] at hf
            subst hf
            exact ⟨rfl, _, hj, rfl⟩
          · rw [Function.update_noteq hh] at hf
            exact hinv.own h f hf hl
        · intro h f q2 hf hl hne
          rw [e10] at hf
          by_cases hh : h = slotAddr libHandle (Nat.find hex)
          · subst hh
            simp only [Function.update_same, Option.some.injEq] at hf
            subst hf
            simp only [Option.some.injEq] at hl
            exact absurd hl.symm hne
          · rw [Function.update_noteq hh] at hf
            exact hinv.foreign h f q2 hf hl hne
        · rw [e6]; exact hinv.tables
        · intro i hi
          by_cases hij : i = Nat.find hex
          · subst hij
            rw [e3, e10]
            simp
          · have hne : slotAddr libHandle i ≠ slotAddr libHandle (Nat.find hex) :=
              fun e => hij (slotAddr_injective libHandle K i _ hfit hi hj e)
            rw [e4 i hi hij, e10, Function.update_noteq hne]
            exact hinv.agree i hi
      · have hb : ∀ i, i < K → s.mem.Read_U32 (slotAddr libHandle i) ≠ FONT_IS_CLOSED :=
          fun i hi hc => hex ⟨i, hi, hc⟩
        obtain ⟨s1, e1, _, e3, e4, e5, e6, _, _, e9⟩ :=
          sceFontOpen_full s q libHandle K hinv.ready ⟨index, mode, errorCodePtr⟩ ha hb
        simp only at e1
        rw [e1] at hr
        cases hr
        exact ⟨hinv.of_same e4 e5 e6 e9 e3, e6⟩
    · rcases OpenFont_result (s.libHeap q) q s.mem (s.internalFonts.getD index 0) with hO | hO
      · have hs : sceFontOpen s libHandle index mode errorCodePtr
            = some (0, { s with
                mem := s.mem.Write_U32 ERROR_FONT_TOO_MANY_OPEN_FONTS errorCodePtr }) := by
          simp only [sceFontOpen, Memory.IsValidAddress, hv, hidx, hg, hO, Bool.not_true,
            Bool.false_eq_true, if_false]
        rw [hs] at hr
        cases hr
        exact ⟨hinv.write_outside _ _ herr, rfl⟩
      · obtain ⟨slot, hslot, hO⟩ := hO
        have hout : outsideSlots A K slot := by
          rcases hslot with hm | h0
          · exact hinv.tables q slot hq hm
          · subst h0
            exact Or.inl (by omega)
        have hs : sceFontOpen s libHandle index mode errorCodePtr
            = some (slot, { s with
                mem := (s.mem.Write_U32 FONT_IS_OPEN slot).Write_U32 0 errorCodePtr
                fontMap := Function.update s.fontMap slot
                  (some ⟨s.internalFonts.getD index 0, some q, slot⟩) }) := by
          simp only [sceFontOpen, Memory.IsValidAddress, hv, hidx, hg, hO, Bool.not_true,
            Bool.false_eq_true, if_false, LoadedFont.Handle]
        rw [hs] at hr
        cases hr
        refine ⟨⟨hinv.ready.transfer ?_ rfl rfl, hinv.only, ?_, ?_, hinv.tables, ?_⟩, rfl⟩
        · simp only
          rw [Memory.valid_Write_U32, Memory.valid_Write_U32]
        · intro h f hf hl
          simp only at hf
          by_cases hh : h = slot
          · subst hh
            simp only [Function.update_same, Option.some.injEq] at hf
            subst hf
            simp only [Option.some.injEq] at hl
            exact absurd hl hq
          · rw [Function.update_noteq hh] at hf
            exact hinv.own h f hf hl
        · intro h f q2 hf hl hne
          simp only at hf
          by_cases hh : h = slot
          · subst hh
            simp only [Function.update_same, Option.some.injEq] at hf
            subst hf
            exact hout
          · rw [Function.update_noteq hh] at hf
            exact hinv.foreign h f q2 hf hl hne
        · intro i hi
          simp only
          rw [read_slot_outside _ _ A K _ i hfit hi herr,
            read_slot_outside _ _ A K _ i hfit hi hout,
            Function.update_noteq (slot_ne_outside A K slot i hfit hi hout)]
          exact hinv.agree i hi

/-- One `sceFontClose` keeps the invariant and the library table. -/
theorem SlotInv.closeStep {s : FontState} {p A K : Nat} (hinv : SlotInv s p A K) (h : Nat) :
    SlotInv (sceFontClose s h).2 p A K ∧ (sceFontClose s h).2.fontLibMap = s.fontLibMap := by
  have hfit := hinv.ready.fits
  cases hg : GetLoadedFont s h false with
  | none =>
    have hs : sceFontClose s h = (0, s) := by simp only [sceFontClose, hg]
    rw [hs]
    exact ⟨hinv, rfl⟩
  | some f =>
    have hfm : s.fontMap h = some f ∧ f.fontLib_.isSome = true := by
      unfold GetLoadedFont at hg
      cases hm : s.fontMap h with
      | none => rw [hm] at hg; simp at hg
      | some f0 =>
        rw [hm] at hg
        simp only [LoadedFont.IsOpen, Bool.or_false] at hg
        by_cases ho : f0.fontLib_.isSome = true
        · simp only [ho, if_true, Option.some.injEq] at hg
          subst hg
          exact ⟨rfl, ho⟩
        · simp [ho] at hg
    obtain ⟨hmap, hopen⟩ := hfm
    cases hl : f.fontLib_ with
    | none => rw [hl] at hopen; simp at hopen
    | some q =>
      have hs : sceFontClose s h
          = (0, { s with
              mem := closeFontLoop s.mem f.handle_ (s.libHeap q).fonts_
              fontMap := Function.update s.fontMap h (some f.Close) }) := by
        simp only [sceFontClose, hg, LoadedFont.GetFontLib, hl, FontLib.CloseFont,
          LoadedFont.Handle]
      rw [hs]
      have hclosed : f.Close.fontLib_ = none := rfl
      refine ⟨⟨hinv.ready.transfer (closeFontLoop_valid _ _ _) rfl rfl, hinv.only, ?_, ?_,
        hinv.tables, ?_⟩, rfl⟩
      · intro h2 f2 hf2 hl2
        simp only at hf2
        by_cases hh : h2 = h
        · subst hh
          simp only [Function.update_same, Option.some.injEq] at hf2
          subst hf2
          rw [hclosed] at hl2
          cases hl2
        · rw [Function.update_noteq hh] at hf2
          exact hinv.own h2 f2 hf2 hl2
      · intro h2 f2 q2 hf2 hl2 hne
        simp only at hf2
        by_cases hh : h2 = h
        · subst hh
          simp only [Function.update_same, Option.some.injEq] at hf2
          subst hf2
          rw [hclosed] at hl2
          cases hl2
        · rw [Function.update_noteq hh] at hf2
          exact hinv.foreign h2 f2 q2 hf2 hl2 hne
      · intro i hi
        simp only
        have hsi : slotAddr A i = A + 4 + 4 * i := slotAddr_eq A K i hfit hi
        by_cases hq : q = p
        · subst hq
          obtain ⟨hh, i0, hi0, hslot⟩ := hinv.own h f hmap hl
          have hs0 : slotAddr A i0 = A + 4 + 4 * i0 := slotAddr_eq A K i0 hfit hi0
          by_cases hii : i = i0
          · subst hii
            have hmem : f.handle_ ∈ (s.libHeap q).fonts_ := by
              rw [hinv.ready.slots, hh, hslot]
              exact List.mem_map.2 ⟨i, List.mem_range.2 hi, rfl⟩
            have hz : (s.mem.Write_U32 FONT_IS_CLOSED (slotAddr A i)).Read_U32 (slotAddr A i)
                = 0 := Read_Write_zero _ _
            rw [closeFontLoop_mem _ _ _ hmem, hh, hslot, hz, Function.update_same]
            constructor
            · intro h0
              simp [FONT_IS_OPEN] at h0
            · rintro ⟨f2, hf2, hl2⟩
              simp only [Option.some.injEq] at hf2
              subst hf2
              rw [hclosed] at hl2
              cases hl2
          · have hne : slotAddr A i ≠ h := by
              rw [hslot]
              exact fun e => hii (slotAddr_injective A K i i0 hfit hi hi0 e)
            rw [closeFontLoop_read _ _ (by rw [hh, hslot, hs0, hsi]; omega),
              Function.update_noteq hne]
            exact hinv.agree i hi
        · have hout := hinv.foreign h f q hmap hl hq
          have hread : (closeFontLoop s.mem f.handle_ (s.libHeap q).fonts_).Read_U32
              (slotAddr A i) = s.mem.Read_U32 (slotAddr A i) := by
            apply closeFontLoop_read
            rw [hsi]
            unfold outsideSlots at hout
            omega
          rw [hread]
          by_cases hne : slotAddr A i = h
          · rw [hne, Function.update_same]
            rw [hne] at hread
            have hag := hinv.agree i hi
            rw [hne] at hag
            rw [hag]
            constructor
            · rintro ⟨f2, hf2, hl2⟩
              rw [hmap] at hf2
              simp only [Option.some.injEq] at hf2
              subst hf2
              rw [hl] at hl2
              simp only [Option.some.injEq] at hl2
              exact absurd hl2 hq
            · rintro ⟨f2, hf2, hl2⟩
              simp only [Option.some.injEq] at hf2
              subst hf2
              rw [hclosed] at hl2
              cases hl2
          · rw [Function.update_noteq hne]
            exact hinv.agree i hi

/-- The allocation callback establishes the invariant. -/
theorem SlotInv.at_init {s0 : FontState} {p A K : Nat} (hfresh : FreshLib s0 p A K) :
    SlotInv (PostAllocCallback.run s0 p A).1 p A K := by
  obtain ⟨_, hready, hclosed, _, _, hlibs, hfonts⟩ :=
    postAlloc_ready s0 p A K hfresh.numFonts hfresh.fits hfresh.valid
  have hother : ∀ q, q ≠ p → (PostAllocCallback.run s0 p A).1.libHeap q = s0.libHeap q := by
    intro q hq
    simp [PostAllocCallback.run, Function.update_noteq hq]
  refine ⟨hready, ?_, ?_, ?_, ?_, ?_⟩
  · intro H hH
    rw [hlibs] at hH
    by_cases hHA : H = A
    · exact hHA
    · rw [Function.update_noteq hHA] at hH
      exact absurd hH (hfresh.unregistered H)
  · intro h f hf hl
    rw [hfonts] at hf
    exact absurd rfl (hfresh.wrappers h f p hf hl).1
  · intro h f q hf hl _
    rw [hfonts] at hf
    exact (hfresh.wrappers h f q hf hl).2
  · intro q a hq ha
    rw [hother q hq] at ha
    exact hfresh.tables q a hq ha
  · intro i hi
    rw [hclosed i hi, hfonts]
    constructor
    · intro h0
      simp [FONT_IS_OPEN, FONT_IS_CLOSED] at h0
    · rintro ⟨f, hf, hl⟩
      exact absurd rfl (hfresh.wrappers _ f p hf hl).1

/-- Every sequence of calls that spare the slot table keeps the invariant. -/
theorem SlotInv.after_calls {p A K : Nat} (tr : List FontOp) :
    ∀ (s : FontState), SlotInv s p A K → (∀ op ∈ tr, op.sparesSlots A K = true) →
      (∀ s1, runFont s tr = some s1 → SlotInv s1 p A K) ∧
      ((∀ op ∈ tr, op.libRegistered s = true) → (runFont s tr).isSome = true) := by
  induction tr with
  | nil =>
    intro s hinv _
    refine ⟨fun s1 h => ?_, fun _ => rfl⟩
    simp only [runFont, Option.some.injEq] at h
    subst h
    exact hinv
  | cons op ops ih =>
    intro s hinv hsp
    have hsp1 := hsp op (List.mem_cons_self _ _)
    have hsp2 : ∀ o ∈ ops, o.sparesSlots A K = true :=
      fun o ho => hsp o (List.mem_cons_of_mem _ ho)
    have hstep : ∀ s1, stepFont s op = some s1 →
        SlotInv s1 p A K ∧ s1.fontLibMap = s.fontLibMap := by
      intro s1 h1
      cases op with
      | openFont libHandle index mode errorCodePtr =>
        simp only [stepFont, Option.map_eq_some', Prod.exists, exists_eq_right] at h1
        obtain ⟨ret, hret⟩ := h1
        simp only [FontOp.sparesSlots, decide_eq_true_eq] at hsp1
        exact hinv.openStep libHandle index mode errorCodePtr hsp1 (ret, s1) hret
      | closeFont fontHandle =>
        simp only [stepFont, Option.some.injEq] at h1
        subst h1
        exact hinv.closeStep fontHandle
    constructor
    · intro s2 h2
      simp only [runFont] at h2
      cases h1 : stepFont s op with
      | none => rw [h1] at h2; cases h2
      | some s1 =>
        rw [h1] at h2
        exact (ih s1 (hstep s1 h1).1 hsp2).1 s2 h2
    · intro hreg
      have hreg1 := hreg op (List.mem_cons_self _ _)
      have hsome : (stepFont s op).isSome = true := by
        cases op with
        | openFont libHandle index mode errorCodePtr =>
          simp only [FontOp.libRegistered] at hreg1
          simp only [stepFont, Option.isSome_map']
          exact sceFontOpen_returns s libHandle index mode errorCodePtr hreg1
        | closeFont fontHandle => rfl
      cases h1 : stepFont s op with
      | none => rw [h1] at hsome; cases hsome
      | some s1 =>
        simp only [runFont, h1]
        obtain ⟨hi1, hmap⟩ := hstep s1 h1
        apply (ih s1 hi1 hsp2).2
        intro o ho
        have := hreg o (List.mem_cons_of_mem _ ho)
        cases o with
        | openFont libHandle index mode errorCodePtr =>
          simp only [FontOp.libRegistered, GetFontLib] at this ⊢
          rw [hmap]
          exact this
        | closeFont fontHandle => rfl

/-- C24 (amended): start from the state right after the allocation callback of a new library
`p` (block at `A`, `K` slots) and run any sequence of `sceFontOpen` calls (any library handle, index and
mode; error pointer outside the slot table of `p`) and `sceFontClose` calls (any handle).  In
every state so reached, for every slot `i` of the library the guest flag at `A + 4 + 4 * i`
reads `FONT_IS_OPEN` if and only if `fontMap` holds under that address a wrapper whose
`IsOpen` is true and whose library is `p`.  The sequence does run to its end when every
`sceFontOpen` in it names a registered library. -/
theorem slot_flags_agree_with_wrappers (s0 : FontState) (p A K : Nat)
    (hfresh : FreshLib s0 p A K) (tr : List FontOp)
    (hspare : ∀ op ∈ tr, op.sparesSlots A K = true) :
    (∀ s1, runFont (PostAllocCallback.run s0 p A).1 tr = some s1 →
      ∀ i, i < K →
        (s1.mem.Read_U32 (A + 4 + 4 * i) = FONT_IS_OPEN ↔
          ∃ f, s1.fontMap (A + 4 + 4 * i) = some f ∧ f.IsOpen = true ∧
            f.GetFontLib = some p)) ∧
    ((∀ op ∈ tr, op.libRegistered (PostAllocCallback.run s0 p A).1 = true) →
      (runFont (PostAllocCallback.run s0 p A).1 tr).isSome = true) := by
  obtain ⟨h1, h2⟩ := SlotInv.after_calls tr _ (SlotInv.at_init hfresh) hspare
  refine ⟨fun s1 hs1 i hi => ?_, h2⟩
  have hinv := h1 s1 hs1
  rw [← slotAddr_eq A K i hfresh.fits hi, hinv.agree i hi]
  constructor
  · rintro ⟨f, hf, hl⟩
    exact ⟨f, hf, by simp [LoadedFont.IsOpen, hl], hl⟩
  · rintro ⟨f, hf, _, hl⟩
    exact ⟨f, hf, hl⟩

/-- The library of `bootFonts` is a fresh one for the block at `0x08900000`. -/
theorem bootFonts_fresh : FreshLib bootFonts 200 0x08900000 2 :=
  ⟨by decide, by decide, by decide, fun H => by simp [bootFonts],
    fun h f q hf => by simp [bootFonts] at hf, fun q a _ ha => by simp [bootFonts] at ha⟩

/-- C24 at a concrete input: on the library of `bootFonts`, two opens, a third that finds no
free slot, a close of the first handle and one more open. -/
theorem slot_flags_agree_with_wrappers_witness :
    (∀ s1, runFont (PostAllocCallback.run bootFonts 200 0x08900000).1
        [FontOp.openFont 0x08900000 0 0 0x08800000, FontOp.openFont 0x08900000 1 0 0x08800000,
         FontOp.openFont 0x08900000 0 0 0x08800000, FontOp.closeFont 0x08900004,
         FontOp.openFont 0x08900000 1 0 0x08800000] = some s1 →
      ∀ i, i < 2 →
        (s1.mem.Read_U32 (0x08900000 + 4 + 4 * i) = FONT_IS_OPEN ↔
          ∃ f, s1.fontMap (0x08900000 + 4 + 4 * i) = some f ∧ f.IsOpen = true ∧
            f.GetFontLib = some 200)) ∧
    (runFont (PostAllocCallback.run bootFonts 200 0x08900000).1
        [FontOp.openFont 0x08900000 0 0 0x08800000, FontOp.openFont 0x08900000 1 0 0x08800000,
         FontOp.openFont 0x08900000 0 0 0x08800000, FontOp.closeFont 0x08900004,
         FontOp.openFont 0x08900000 1 0 0x08800000]).isSome = true :=
  ⟨(slot_flags_agree_with_wrappers bootFonts 200 0x08900000 2 bootFonts_fresh
      [FontOp.openFont 0x08900000 0 0 0x08800000, FontOp.openFont 0x08900000 1 0 0x08800000,
       FontOp.openFont 0x08900000 0 0 0x08800000, FontOp.closeFont 0x08900004,
       FontOp.openFont 0x08900000 1 0 0x08800000] (by decide)).1,
   (slot_flags_agree_with_wrappers bootFonts 200 0x08900000 2 bootFonts_fresh
      [FontOp.openFont 0x08900000 0 0 0x08800000, FontOp.openFont 0x08900000 1 0 0x08800000,
       FontOp.openFont 0x08900000 0 0 0x08800000, FontOp.closeFont 0x08900004,
       FontOp.openFont 0x08900000 1 0 0x08800000] (by decide)).2 (by decide)⟩

end SceFont

namespace SceDisplay

/-! ## C26: the pending vblank event -/

theorem scheduledBy_append (a b : List Effect) :
    scheduledBy (a ++ b) = scheduledBy a ++ scheduledBy b := by
  induction a with
  | nil => rfl
  | cons x xs ih => cases x <;> simp [scheduledBy, ih]

theorem scheduledBy_resumes (rs : List Effect)
    (h : ∀ e ∈ rs, ∃ t, e = Effect.resumeThreadFromWait t 0) : scheduledBy rs = [] := by
  induction rs with
  | nil => rfl
  | cons x xs ih =>
    obtain ⟨t, rfl⟩ := h x (List.mem_cons_self _ _)
    simp only [scheduledBy]
    exact ih (fun e he => h e (List.mem_cons_of_mem _ he))

/-- What `hleEnterVblank` schedules and what it does to the phase and the counter. -/
theorem hleEnterVblank_schedule (w : World) (userdata : Nat) (cyclesLate : Int) (env : FrameEnv) :
    (∃ flips, scheduledBy (newEffects w (hleEnterVblank w userdata cyclesLate env))
      = ⟨w.vblankCycles - cyclesLate, w.leaveVblankEvent,
          toU64 (wrapS32 (wrapS32 userdata + 1))⟩ :: flips ∧
      ∀ ev ∈ flips, ev.event = w.afterFlipEvent) ∧
    (hleEnterVblank w userdata cyclesLate env).isVblank = 1 ∧
    (hleEnterVblank w userdata cyclesLate env).vCount = w.vCount ∧
    (hleEnterVblank w userdata cyclesLate env).enterVblankEvent = w.enterVblankEvent ∧
    (hleEnterVblank w userdata cyclesLate env).leaveVblankEvent = w.leaveVblankEvent ∧
    (hleEnterVblank w userdata cyclesLate env).afterFlipEvent = w.afterFlipEvent := by
  obtain ⟨ft, c, n, resumes, _, h2, h3⟩ := hleEnterVblank_shape w userdata cyclesLate env
  rw [h3]
  refine ⟨?_, rfl, rfl, rfl, rfl, rfl⟩
  simp only [newEffects, List.drop_left]
  refine ⟨if ft.skipFlip then [] else [⟨0 - cyclesLate, w.afterFlipEvent, 0⟩], ?_, ?_⟩
  · simp only [scheduledBy_append, scheduledBy_resumes resumes h2]
    cases w.framebufIsLatched <;> cases ft.skipFlip <;> simp [scheduledBy]
  · intro ev hev
    split_ifs at hev
    · simp at hev
    · simp only [List.mem_singleton] at hev
      subst hev
      rfl

/-- A guest call schedules nothing and leaves phase, counter and event ids alone. -/
theorem step_call_schedule (w : World) (op : Op) (h : op.isClockEvent = false) :
    scheduledBy (newEffects w (step w op)) = [] ∧
    (step w op).isVblank = w.isVblank ∧ (step w op).vCount = w.vCount ∧
    (step w op).enterVblankEvent = w.enterVblankEvent ∧
    (step w op).leaveVblankEvent = w.leaveVblankEvent ∧
    (step w op).afterFlipEvent = w.afterFlipEvent := by
  cases op <;>
    simp_all [step, Op.isClockEvent, newEffects,
      sceDisplayIsVblank, sceDisplaySetMode, sceDisplaySetFramebuf, sceDisplayGetFramebuf,
      sceDisplayWaitVblankStart, sceDisplayWaitVblank, sceDisplayWaitVblankStartMulti,
      sceDisplayWaitVblankCB, sceDisplayWaitVblankStartCB, sceDisplayWaitVblankStartMultiCB,
      sceDisplayGetVcount, sceDisplayGetCurrentHcount, sceDisplayGetAccumulatedHcount,
      sceDisplayGetFramePerSec, pushAndWait, World.emit, scheduledBy] <;>
    (try split_ifs) <;>
    simp_all [World.emit, scheduledBy]

theorem filter_eraseIdx_hit {α : Type} (p : α → Bool) :
    ∀ (l : List α) (i : Nat) (x y : α), l[i]? = some x → p x = true → l.filter p = [y] →
      (l.eraseIdx i).filter p = [] ∧ x = y := by
  intro l
  induction l with
  | nil => intro i x y h; simp at h
  | cons a rest ih =>
    intro i x y h hp hf
    cases i with
    | zero =>
      simp only [List.getElem?_cons_zero, Option.some.injEq] at h
      subst h
      simp only [List.filter_cons, hp, if_true, List.cons.injEq] at hf
      exact ⟨by simpa using hf.2, hf.1⟩
    | succ i =>
      simp only [List.getElem?_cons_succ] at h
      by_cases ha : p a = true
      · simp only [List.filter_cons, ha, if_true, List.cons.injEq] at hf
        have hmem : x ∈ rest.filter p := List.mem_filter.2 ⟨List.getElem?_mem h, hp⟩
        rw [hf.2] at hmem
        simp at hmem
      · simp only [List.filter_cons, ha, if_false] at hf
        simp only [List.eraseIdx_cons_succ, List.filter_cons, ha, if_false]
        exact ih i x y h hp (by simpa using hf)

theorem filter_eraseIdx_miss {α : Type} (p : α → Bool) :
    ∀ (l : List α) (i : Nat) (x : α), l[i]? = some x → p x = false →
      (l.eraseIdx i).filter p = l.filter p := by
  intro l
  induction l with
  | nil => intro i x h; simp at h
  | cons a rest ih =>
    intro i x h hp
    cases i with
    | zero =>
      simp only [List.getElem?_cons_zero, Option.some.injEq] at h
      subst h
      simp [List.filter_cons, hp]
    | succ i =>
      simp only [List.getElem?_cons_succ] at h
      simp only [List.eraseIdx_cons_succ, List.filter_cons, ih i x h hp]

theorem wrapS32_toU64 (x : Int) : wrapS32 (toU64 x) = wrapS32 x := by
  unfold wrapS32 toU64
  omega

theorem wrapS32_range (x : Int) : -2147483648 ≤ wrapS32 x ∧ wrapS32 x ≤ 2147483647 := by
  unfold wrapS32
  omega

theorem wrapS32_idem (x : Int) : wrapS32 (wrapS32 x) = wrapS32 x :=
  wrapS32_of_range _ (wrapS32_range x).1 (wrapS32_range x).2

/-- The timeline right after `__DisplayInit`: one `EnterVblank` with index 0 is pending. -/
theorem ClockInv.at_boot (w0 : World) (e l f : Int) : ClockInv (Timeline.boot w0 e l f) e l f := by
  refine ⟨rfl, rfl, rfl, ?_, ⟨w0.frameCycles, e, 0⟩, ?_, Or.inl ⟨rfl, rfl, ?_⟩⟩
  · simp [Timeline.boot, __DisplayInit]
  · simp [Timeline.boot, __DisplayInit, World.emit, newEffects, scheduledBy]
  · simp [Timeline.boot, __DisplayInit, wrapS32]

/-- Every move of the timeline keeps the invariant. -/
theorem ClockInv.after_step {t : Timeline} {e l f : Int} (hinv : ClockInv t e l f)
    (hel : e ≠ l) (hef : e ≠ f) (hlf : l ≠ f) (op : TimelineOp) :
    ClockInv (t.step op) e l f := by
  obtain ⟨he, hl, hf, hrange, ev, hfilter, hphase⟩ := hinv
  cases op with
  | call op =>
    simp only [Timeline.step]
    by_cases hc : op.isClockEvent = true
    · simp only [hc, if_true]
      exact ⟨he, hl, hf, hrange, ev, hfilter, hphase⟩
    · have hc2 : op.isClockEvent = false := by simpa using hc
      obtain ⟨h1, h2, h3, h4, h5, h6⟩ := step_call_schedule t.world op hc2
      simp only [hc2, Bool.false_eq_true, if_false]
      refine ⟨h4.trans he, h5.trans hl, h6.trans hf, by simp only [h3]; exact hrange, ev, ?_, ?_⟩
      · simp only [h1, List.append_nil]
        exact hfilter
      · simp only [h2, h3]
        exact hphase
  | fire i cyclesLate env =>
    simp only [Timeline.step]
    cases hget : t.pending[i]? with
    | none => exact ⟨he, hl, hf, hrange, ev, hfilter, hphase⟩
    | some ev2 =>
      simp only
      by_cases h1 : ev2.event = e
      · -- EnterVblank is delivered
        have hp : (fun x : PendingEvent => decide (x.event = e) || decide (x.event = l)) ev2
            = true := by simp [h1]
        obtain ⟨herase, heq⟩ := filter_eraseIdx_hit _ _ i ev2 ev hget hp hfilter
        subst heq
        have hph : t.world.isVblank = 0 ∧ wrapS32 ev2.userdata = t.world.vCount := by
          rcases hphase with ⟨_, a, b⟩ | ⟨a, _, _⟩
          · exact ⟨a, b⟩
          · exact absurd (h1.symm.trans a) hel
        have hd : deliver t.world ev2 cyclesLate env
            = hleEnterVblank t.world ev2.userdata cyclesLate env := by
          simp only [deliver, he]
          rw [if_pos h1]
        rw [hd]
        obtain ⟨⟨flips, hs, hflips⟩, e2, e3, e4, e5, e6⟩ :=
          hleEnterVblank_schedule t.world ev2.userdata cyclesLate env
        have hff : flips.filter (fun x => decide (x.event = e) || decide (x.event = l)) = [] := by
          rw [List.filter_eq_nil_iff]
          intro x hx
          have := hflips x hx
          rw [hf] at this
          simp only [this, Bool.or_eq_true, decide_eq_true_eq, not_or]
          exact ⟨fun h => hef h.symm, fun h => hlf h.symm⟩
        refine ⟨e4.trans he, e5.trans hl, e6.trans hf, by rw [e3]; exact hrange,
          ⟨t.world.vblankCycles - cyclesLate, l, toU64 (wrapS32 (wrapS32 ev2.userdata + 1))⟩,
          ?_, Or.inr ⟨rfl, e2, ?_⟩⟩
        · rw [hs, List.filter_append, herase, hl]
          simp [List.filter_cons, hff]
        · rw [e3, wrapS32_toU64, wrapS32_idem, hph.2]
      · by_cases h2 : ev2.event = l
        · -- LeaveVblank is delivered
          have hp : (fun x : PendingEvent => decide (x.event = e) || decide (x.event = l)) ev2
              = true := by simp [h2]
          obtain ⟨herase, heq⟩ := filter_eraseIdx_hit _ _ i ev2 ev hget hp hfilter
          subst heq
          have hph : wrapS32 ev2.userdata = wrapS32 (t.world.vCount + 1) := by
            rcases hphase with ⟨a, _, _⟩ | ⟨_, _, b⟩
            · exact absurd a h1
            · exact b
          have hd : deliver t.world ev2 cyclesLate env
              = hleLeaveVblank t.world ev2.userdata cyclesLate := by
            simp only [deliver, he, hl]
            rw [if_neg h1, if_pos h2]
          rw [hd]
          refine ⟨he, hl, hf, wrapS32_range _,
            ⟨t.world.frameCycles - cyclesLate, e, ev2.userdata⟩, ?_, Or.inl ⟨rfl, rfl, hph⟩⟩
          rw [List.filter_append, herase]
          simp [hleLeaveVblank, World.emit, newEffects, scheduledBy, he]
        · -- any other event
          have hp : (fun x : PendingEvent => decide (x.event = e) || decide (x.event = l)) ev2
              = false := by simp [h1, h2]
          have herase := filter_eraseIdx_miss
            (fun x : PendingEvent => decide (x.event = e) || decide (x.event = l)) _ i ev2 hget hp
          by_cases h3 : ev2.event = f
          · have hd : deliver t.world ev2 cyclesLate env
                = hleAfterFlip t.world ev2.userdata cyclesLate := by
              simp only [deliver, he, hl, hf]
              rw [if_neg h1, if_neg h2, if_pos h3]
            rw [hd]
            refine ⟨he, hl, hf, hrange, ev, ?_, hphase⟩
            rw [List.filter_append, herase, hfilter]
            simp [hleAfterFlip, World.emit, newEffects, scheduledBy]
          · have hd : deliver t.world ev2 cyclesLate env = t.world := by
              simp only [deliver, he, hl, hf]
              rw [if_neg h1, if_neg h2, if_neg h3]
            rw [hd]
            refine ⟨he, hl, hf, hrange, ev, ?_, hphase⟩
            rw [List.filter_append, herase, hfilter]
            simp [newEffects, scheduledBy]

theorem ClockInv.after_moves {e l f : Int} (hel : e ≠ l) (hef : e ≠ f) (hlf : l ≠ f)
    (tr : List TimelineOp) :
    ∀ (t : Timeline), ClockInv t e l f → ClockInv (t.run tr) e l f := by
  induction tr with
  | nil => intro t h; exact h
  | cons op ops ih => intro t h; exact ih _ (h.after_step hel hef hlf op)

/-- C26: take the timeline from `__DisplayInit` (the three event ids distinct) through any
sequence of deliveries of pending events, in any order, and guest calls.  In the state
reached exactly one pending event is an `EnterVblank` or a `LeaveVblank`; `isVblank` is 1 if
it is the `LeaveVblank` and 0 if it is the `EnterVblank`; the index carried by a pending
`EnterVblank`, read as the `int` the handler takes it for, equals `vCount`, and the index
carried by a pending `LeaveVblank` equals `vCount + 1` as computed in `int` (so `vCount + 1`
itself unless `vCount` is `INT_MAX`). -/
theorem one_vblank_event_pending (w0 : World) (enterId leaveId flipId : Int)
    (hel : enterId ≠ leaveId) (hef : enterId ≠ flipId) (hlf : leaveId ≠ flipId)
    (tr : List TimelineOp) :
    ∃ ev, ((Timeline.boot w0 enterId leaveId flipId).run tr).vblankPending = [ev] ∧
      (ev.event = enterId ∨ ev.event = leaveId) ∧
      (((Timeline.boot w0 enterId leaveId flipId).run tr).world.isVblank = 1
        ↔ ev.event = leaveId) ∧
      (((Timeline.boot w0 enterId leaveId flipId).run tr).world.isVblank = 0
        ↔ ev.event = enterId) ∧
      (ev.event = enterId →
        wrapS32 ev.userdata = ((Timeline.boot w0 enterId leaveId flipId).run tr).world.vCount) ∧
      (ev.event = leaveId →
        wrapS32 ev.userdata
          = wrapS32 (((Timeline.boot w0 enterId leaveId flipId).run tr).world.vCount + 1)) ∧
      (ev.event = leaveId →
        ((Timeline.boot w0 enterId leaveId flipId).run tr).world.vCount < 2147483647 →
        wrapS32 ev.userdata
          = ((Timeline.boot w0 enterId leaveId flipId).run tr).world.vCount + 1) := by
  obtain ⟨he, hl, _, hrange, ev, hfilter, hphase⟩ :=
    ClockInv.after_moves hel hef hlf tr _ (ClockInv.at_boot w0 enterId leaveId flipId)
  refine ⟨ev, ?_, ?_, ?_, ?_, ?_, ?_, ?_⟩
  · simp only [Timeline.vblankPending, he, hl]
    exact hfilter
  · rcases hphase with ⟨a, _, _⟩ | ⟨a, _, _⟩
    · exact Or.inl a
    · exact Or.inr a
  · rcases hphase with ⟨a, b, _⟩ | ⟨a, b, _⟩
    · rw [b, a]
      exact ⟨fun h => by simp at h, fun h => absurd h hel⟩
    · exact ⟨fun _ => a, fun _ => b⟩
  · rcases hphase with ⟨a, b, _⟩ | ⟨a, b, _⟩
    · exact ⟨fun _ => a, fun _ => b⟩
    · rw [b, a]
      exact ⟨fun h => by simp at h, fun h => absurd h.symm hel⟩
  · intro h
    rcases hphase with ⟨_, _, c⟩ | ⟨a, _, _⟩
    · exact c
    · exact absurd (h.symm.trans a) hel
  · intro h
    rcases hphase with ⟨a, _, _⟩ | ⟨_, _, c⟩
    · exact absurd (a.symm.trans h) hel
    · exact c
  · intro h hlt
    rcases hphase with ⟨a, _, _⟩ | ⟨_, _, c⟩
    · exact absurd (a.symm.trans h) hel
    · rw [c]
      exact wrapS32_of_range _ (by omega) (by omega)

/-- C26 at a concrete input: the display booted with event ids 0, 1, 2; the first vblank
is entered, a thread starts waiting, the after-flip event and the end of the vblank are
delivered and the vertical count is read. -/
theorem one_vblank_event_pending_witness :
    ∃ ev, ((Timeline.boot (World.static Memory.blank 162 3537) 0 1 2).run
        [TimelineOp.fire 0 0 idleEnv, TimelineOp.call (Op.waitVblankStart 7),
         TimelineOp.fire 1 0 idleEnv, TimelineOp.fire 0 0 idleEnv,
         TimelineOp.call Op.getVcount]).vblankPending = [ev] ∧
      (ev.event = 0 ∨ ev.event = 1) ∧
      (((Timeline.boot (World.static Memory.blank 162 3537) 0 1 2).run
        [TimelineOp.fire 0 0 idleEnv, TimelineOp.call (Op.waitVblankStart 7),
         TimelineOp.fire 1 0 idleEnv, TimelineOp.fire 0 0 idleEnv,
         TimelineOp.call Op.getVcount]).world.isVblank = 1 ↔ ev.event = 1) ∧
      (((Timeline.boot (World.static Memory.blank 162 3537) 0 1 2).run
        [TimelineOp.fire 0 0 idleEnv, TimelineOp.call (Op.waitVblankStart 7),
         TimelineOp.fire 1 0 idleEnv, TimelineOp.fire 0 0 idleEnv,
         TimelineOp.call Op.getVcount]).world.isVblank = 0 ↔ ev.event = 0) ∧
      (ev.event = 0 →
        wrapS32 ev.userdata = ((Timeline.boot (World.static Memory.blank 162 3537) 0 1 2).run
          [TimelineOp.fire 0 0 idleEnv, TimelineOp.call (Op.waitVblankStart 7),
           TimelineOp.fire 1 0 idleEnv, TimelineOp.fire 0 0 idleEnv,
           TimelineOp.call Op.getVcount]).world.vCount) ∧
      (ev.event = 1 →
        wrapS32 ev.userdata
          = wrapS32 (((Timeline.boot (World.static Memory.blank 162 3537) 0 1 2).run
            [TimelineOp.fire 0 0 idleEnv, TimelineOp.call (Op.waitVblankStart 7),
             TimelineOp.fire 1 0 idleEnv, TimelineOp.fire 0 0 idleEnv,
             TimelineOp.call Op.getVcount]).world.vCount + 1)) ∧
      (ev.event = 1 →
        ((Timeline.boot (World.static Memory.blank 162 3537) 0 1 2).run
          [TimelineOp.fire 0 0 idleEnv, TimelineOp.call (Op.waitVblankStart 7),
           TimelineOp.fire 1 0 idleEnv, TimelineOp.fire 0 0 idleEnv,
           TimelineOp.call Op.getVcount]).world.vCount < 2147483647 →
        wrapS32 ev.userdata
          = ((Timeline.boot (World.static Memory.blank 162 3537) 0 1 2).run
            [TimelineOp.fire 0 0 idleEnv, TimelineOp.call (Op.waitVblankStart 7),
             TimelineOp.fire 1 0 idleEnv, TimelineOp.fire 0 0 idleEnv,
             TimelineOp.call Op.getVcount]).world.vCount + 1) :=
  one_vblank_event_pending (World.static Memory.blank 162 3537) 0 1 2
    (by decide) (by decide) (by decide)
    [TimelineOp.fire 0 0 idleEnv, TimelineOp.call (Op.waitVblankStart 7),
     TimelineOp.fire 1 0 idleEnv, TimelineOp.fire 0 0 idleEnv, TimelineOp.call Op.getVcount]

end SceDisplay

namespace F32

/-- Sample roundings: a tie goes to the even neighbour, the spacing doubles at each power of
two, magnitudes from `2 ^ 128 - 2 ^ 103` on become an infinity, and below `2 ^ -126` the
spacing stays `2 ^ -149`. -/
theorem round_samples :
    round 16777217 = fin 16777216 ∧ round 16777219 = fin 16777220 ∧
    round (1 / 3) = fin (11184811 / 33554432) ∧
    round (-268435456 - 81 / 8) = fin (-268435456) ∧
    round (pow2 128 - pow2 103) = inf false ∧
    round (pow2 128 - pow2 103 - 1) = fin (pow2 128 - pow2 104) ∧
    round (pow2 (-150)) = fin 0 ∧ round (3 * pow2 (-150)) = fin (pow2 (-148)) := by
  decide!

end F32

namespace SceFont

/-! ## C8, C9, C24: an error pointer inside the slot table -/

/-- C8 as stated fails: on the two-slot library of `readyFonts`, three `sceFontOpen` calls
with a valid catalog index and the valid error pointer `0x08900004`, the address of the first
slot.  Each call marks the first slot open and then stores its error code 0 over the flag, so
all three return the same handle `0x08900004` with error code 0: the handles are not distinct
and the third call does not report `ERROR_FONT_TOO_MANY_OPEN_FONTS`. -/
theorem fontOpen_error_pointer_on_slot :
    readyFonts.mem.IsValidAddress 0x08900004 = true ∧
    (readyFonts.libHeap 200).fonts_ = [0x08900004, 0x08900008] ∧
    (openAll readyFonts 0x08900000
        [⟨0, 0, 0x08900004⟩, ⟨1, 0, 0x08900004⟩, ⟨0, 0, 0x08900004⟩]).map Prod.fst
      = some [(0x08900004, 0), (0x08900004, 0), (0x08900004, 0)] := by
  decide

/-- C9 as stated fails: both slots of `fullFonts` are open and the handle `0x08900004` is
closed.  The next `sceFontOpen`, given the valid error pointer `0x08900004`, returns that
handle and clears the flag again with its error code, so the `sceFontOpen` after it succeeds
as well instead of failing with `ERROR_FONT_TOO_MANY_OPEN_FONTS`. -/
theorem fontClose_second_open_succeeds :
    fullFonts.mem.Read_U32 0x08900004 = FONT_IS_OPEN ∧
    fullFonts.mem.Read_U32 0x08900008 = FONT_IS_OPEN ∧
    fullFonts.mem.IsValidAddress 0x08900004 = true ∧
    (openAll (sceFontClose fullFonts 0x08900004).2 0x08900000
        [⟨0, 0, 0x08900004⟩, ⟨1, 0, 0x08800000⟩]).map Prod.fst
      = some [(0x08900004, 0), (0x08900004, 0)] := by
  decide

/-- C24 as stated fails: one `sceFontOpen` on the fresh library of `bootFonts` with the valid
error pointer `0x08900004`, the address of the first slot.  Afterwards the guest flag of that
slot reads `FONT_IS_CLOSED` while `fontMap` holds under its address an open wrapper of this
library. -/
theorem slot_flag_cleared_under_open_wrapper :
    (PostAllocCallback.run bootFonts 200 0x08900000).1.mem.IsValidAddress 0x08900004 = true ∧
    (runFont (PostAllocCallback.run bootFonts 200 0x08900000).1
        [FontOp.openFont 0x08900000 0 0 0x08900004]).map
      (fun s => (s.mem.Read_U32 0x08900004,
        (s.fontMap 0x08900004).map (fun f => (f.IsOpen, f.GetFontLib))))
      = some (FONT_IS_CLOSED, some (true, some 200)) := by
  decide

end SceFont
